import Mathlib

/-!
# MeteoraDLMMInteractionsService: a shallow embedding

Source: `src/services/MeteoraDLMMInteractionsService.js`.

The service keeps a map from pool address to pool handle (`this.dlmmPools`) and
turns intents (add / remove / move / swap / claim / close) into calls on a pool
handle, then submits the returned transactions.

Modelling conventions.

* JavaScript numbers that the code treats as integers (bin identifiers, bin
  ranges, offsets, basis points) are `Int`; this is exact below `2^53`.
* A thrown `Error` is represented by its `message` (`Err := String`);
  `try { .. } catch (error) { throw new Error("prefix" + error.message) }`
  becomes `tryCatch`.
* Everything outside the repository (the SDK pool handle, `PublicKey`, `BN`,
  `sendAndConfirmTransaction`) is a parameter.  An external call may depend on
  the whole history of external interactions so far, and every external call
  is appended to that history (`St.trace`).
* `console.log / warn / error` are not modelled.
* The keeper client (`src/services/MeteoraDLMMKeeperService.js`) has its own
  section; its platform (`URL`, `fetch`) is a parameter as well.
-/

namespace MeteoraDLMM

/-! ## Values -/

/-- The `message` of a thrown `Error`. -/
abbrev Err := String

/-- A `PublicKey` object, identified with its `toString()` form. -/
structure PublicKey where
  str : String
deriving DecidableEq, Repr

/-- A `Keypair`; only `publicKey` is read by the service. -/
structure Keypair where
  publicKey : PublicKey
deriving DecidableEq, Repr

/-- The `Connection` object created by the constructor from the RPC URL. -/
structure Connection where
  rpcUrl : String
deriving DecidableEq, Repr

/-- A `BN` big-number object, identified with the integer it holds. -/
structure BN where
  val : Int
deriving DecidableEq, Repr

/-- An amount argument: a JavaScript number or a `BN` instance. -/
inductive Amount where
  | num (n : Int)
  | bn (b : BN)
deriving DecidableEq, Repr

/-- A transaction object returned by the SDK: opaque to the service. -/
inductive Tx where
  | obj (instructions : List String) (signers : List String)
  | raw (name : String)
deriving DecidableEq, Repr

/-- What an SDK transaction builder resolves to: one transaction or an array
(`Array.isArray`). -/
inductive TxResult where
  | single (tx : Tx)
  | many (txs : List Tx)
deriving DecidableEq, Repr

/-- Property values of the plain objects the service spreads. -/
inductive JsVal where
  | undefined
  | null
  | bool (b : Bool)
  | num (n : Int)
  | str (s : String)
deriving DecidableEq, Repr

/-! ## Keyed collections (`Map`, plain objects) -/

/-- Lookup of a key: `Map.prototype.get`, property read. -/
def mapGet {β : Type} : List (String × β) → String → Option β
  | [], _ => none
  | (k', v) :: rest, k => if k' = k then some v else mapGet rest k

/-- Store under a key: `Map.prototype.set`, property write.  An existing key
keeps its place and gets the new value, a new key is appended. -/
def mapSet {β : Type} : List (String × β) → String → β → List (String × β)
  | [], k, v => [(k, v)]
  | (k', v') :: rest, k, v =>
      if k' = k then (k, v) :: rest else (k', v') :: mapSet rest k v

/-- Membership of a key: `Map.prototype.has`. -/
def mapHas {β : Type} (m : List (String × β)) (k : String) : Bool :=
  (mapGet m k).isSome

/-- A plain JavaScript object with string keys. -/
abbrev JsObj := List (String × JsVal)

/-- Object spread `{ ...target, ...src }`: every own key of `src`, in order, is
written to the target with the value `src` holds for it. -/
def spread (target src : JsObj) : JsObj :=
  (src.map Prod.fst).foldl
    (fun acc k => match mapGet src k with
      | some v => mapSet acc k v
      | none => acc)
    target

/-! ## Positions -/

/-- One entry of `positionData.positionBinData`. -/
structure BinData where
  binId : Int
deriving DecidableEq, Repr

/-- The `positionData` of a position. -/
structure PositionData where
  positionBinData : List BinData
deriving DecidableEq, Repr

/-- A user position as listed by the SDK. -/
structure Position where
  publicKey : PublicKey
  positionData : PositionData
deriving DecidableEq, Repr

/-- The object `{ binId }` describing the active bin. -/
structure ActiveBin where
  binId : Int
deriving DecidableEq, Repr

/-- The `lbPair` field of a handle; `activeId` may be undefined. -/
structure LbPair where
  activeId : Option Int
deriving DecidableEq, Repr

/-- The `tokenX` / `tokenY` field of a handle. -/
structure TokenInfo where
  publicKey : PublicKey
  decimals : Option Nat
deriving DecidableEq, Repr

/-- What `getPositionsByUserAndLbPair` resolves to: an object whose
`userPositions` is read by destructuring, or a value (`undefined`, `null`) on
which the destructuring throws. -/
inductive PositionsResult where
  | wrapped (userPositions : List Position)
  | unreadable
deriving DecidableEq, Repr

/-- What `swapQuote` resolves to. -/
structure SwapQuote where
  binArraysPubkey : List String
  minOutAmount : BN
deriving DecidableEq, Repr

/-! ## Requests sent to the SDK -/

/-- Argument of `dlmmPool.addLiquidityByStrategy`. -/
structure AddLiquidityRequest where
  user : PublicKey
  totalXAmount : BN
  totalYAmount : BN
  strategy : JsObj
deriving DecidableEq, Repr

/-- Argument of `dlmmPool.removeLiquidity`. -/
structure RemoveLiquidityRequest where
  position : PublicKey
  user : PublicKey
  binIds : List Int
  liquiditiesBpsToRemove : List BN
  shouldClaimAndClose : Bool
deriving DecidableEq, Repr

/-- Argument of `dlmmPool.claimAllSwapFee`. -/
structure ClaimRequest where
  owner : PublicKey
  positions : List Position
deriving DecidableEq, Repr

/-- Argument of `dlmmPool.closePosition`. -/
structure CloseRequest where
  owner : PublicKey
  position : PublicKey
deriving DecidableEq, Repr

/-- Argument of `dlmmPool.swap`. -/
structure SwapRequest where
  inToken : PublicKey
  outToken : PublicKey
  binArraysPubkey : List String
  inAmount : BN
  minOutAmount : BN
  lbPair : Option PublicKey
  user : PublicKey
deriving DecidableEq, Repr

/-- One interaction with the outside world.  The first argument of a handle
call is the pool address under which the handle was looked up. -/
inductive Event where
  | dlmmCreate (poolAddress : String)
  | getActiveBin (pool : String)
  | getPositionsByUser (pool : String) (user : PublicKey)
  | getPositionsByUserAndLbPair (pool : String) (user : PublicKey)
  | addLiquidityByStrategy (pool : String) (req : AddLiquidityRequest)
  | removeLiquidity (pool : String) (req : RemoveLiquidityRequest)
  | claimAllSwapFee (pool : String) (req : ClaimRequest)
  | closePosition (pool : String) (req : CloseRequest)
  | getBinArrayForSwap (pool : String) (flag : Bool)
  | swapQuote (pool : String) (amount : BN) (flag : Bool) (slippage : BN)
      (binArrays : List String)
  | swap (pool : String) (req : SwapRequest)
  | sendAndConfirmTransaction (tx : Tx) (signers : List Keypair)
deriving DecidableEq, Repr

/-- The history of external interactions. -/
abbrev Trace := List Event

/-- A pool handle: the object stored in `dlmmPools`.  A method the object does
not have is `none`; a method that is present answers from the history so far. -/
structure Handle where
  connection : Option Connection
  poolAddress : Option PublicKey
  pubkey : Option PublicKey
  tokenX : Option TokenInfo
  tokenY : Option TokenInfo
  lbPair : Option LbPair
  getActiveBin : Option (Trace → Except Err ActiveBin)
  getBinArrayForSwap : Option (Trace → Bool → Except Err (List String))
  swapQuote : Option (Trace → BN → Bool → BN → List String → Except Err SwapQuote)
  getPositionsByUser : Option (Trace → PublicKey → Except Err (List Position))
  getPositionsByUserAndLbPair :
    Option (Trace → PublicKey → Except Err PositionsResult)
  addLiquidityByStrategy : Option (Trace → AddLiquidityRequest → Except Err TxResult)
  removeLiquidity : Option (Trace → RemoveLiquidityRequest → Except Err TxResult)
  claimAllSwapFee : Option (Trace → ClaimRequest → Except Err TxResult)
  closePosition : Option (Trace → CloseRequest → Except Err Tx)
  swap : Option (Trace → SwapRequest → Except Err Tx)

/-- The libraries the module imports, as parameters. -/
structure Env where
  /-- The constructor `new PublicKey(address)`, which throws on a malformed address. -/
  newPublicKey : String → Except Err PublicKey
  /-- The constructor `new BN(number)`. -/
  newBN : Int → Except Err BN
  /-- The function `sendAndConfirmTransaction(connection, tx, signers)`. -/
  sendAndConfirm : Trace → Connection → Tx → List Keypair → Except Err String

/-! ## Service state and the effect monad -/

/-- The service object together with the history of its external calls. -/
structure St where
  connection : Connection
  dlmmPools : List (String × Handle)
  trace : Trace

/-- A computation of the service: it may throw, and it threads the state. -/
def M (α : Type) : Type := St → Except Err α × St

instance : Monad M where
  pure a := fun s => (Except.ok a, s)
  bind m f := fun s =>
    match m s with
    | (Except.ok a, s1) => f a s1
    | (Except.error e, s1) => (Except.error e, s1)

/-- Statement `throw new Error(msg)`. -/
def throwErr {α : Type} (msg : Err) : M α := fun s => (Except.error msg, s)

/-- Block `try { body } catch (error) { handler(error.message) }`. -/
def tryCatch {α : Type} (body : M α) (handler : Err → M α) : M α := fun s =>
  match body s with
  | (Except.ok a, s1) => (Except.ok a, s1)
  | (Except.error e, s1) => handler e s1

/-- Lift a library constructor that may throw and touches nothing else. -/
def liftExcept {α : Type} (r : Except Err α) : M α := fun s => (r, s)

/-- Read the service state. -/
def getSt : M St := fun s => (Except.ok s, s)

/-- A call to the outside world: it answers from the history, and the call is
recorded. -/
def callExternal {α : Type} (ev : Event) (f : Trace → Except Err α) : M α :=
  fun s => (f s.trace, { s with trace := s.trace ++ [ev] })

/-- A call of a handle method; calling a method the handle does not have throws
a `TypeError` and reaches nobody. -/
def callMethod {α : Type} (name : String) (ev : Event)
    (method : Option (Trace → Except Err α)) : M α :=
  match method with
  | some f => callExternal ev f
  | none => throwErr ("dlmmPool." ++ name ++ " is not a function")

/-- Update of `this.dlmmPools`. -/
def modifyPools (f : List (String × Handle) → List (String × Handle)) : M Unit :=
  fun s => (Except.ok (), { s with dlmmPools := f s.dlmmPools })

/-! ## The service -/

/-- The class constructor: a connection for the URL and an empty pool map. -/
def newService (rpcUrl : String) : St :=
  { connection := { rpcUrl := rpcUrl }, dlmmPools := [], trace := [] }

/-- The object literal built by `initializePool` (lines 31-74); `loadPool`, which
nothing calls, is left out. -/
def mockPool (env : Env) (connection : Connection)
    (poolPubkey tokenXKey tokenYKey : PublicKey) : Handle :=
  { connection := some connection
    poolAddress := some poolPubkey
    pubkey := some poolPubkey
    tokenX := some { publicKey := tokenXKey, decimals := some 9 }
    tokenY := some { publicKey := tokenYKey, decimals := some 6 }
    lbPair := some { activeId := some 100 }
    getActiveBin := some (fun _ => Except.ok { binId := 100 })
    getBinArrayForSwap := some (fun _ _ => Except.ok ["bin1", "bin2"])
    swapQuote := some (fun _ _ _ _ _ =>
      match env.newBN 90 with
      | Except.ok b => Except.ok { binArraysPubkey := ["bin1", "bin2"], minOutAmount := b }
      | Except.error e => Except.error e)
    getPositionsByUser := none
    getPositionsByUserAndLbPair := some (fun _ _ => Except.ok (PositionsResult.wrapped []))
    addLiquidityByStrategy := some (fun _ _ => Except.ok (TxResult.single (Tx.obj [] [])))
    removeLiquidity := some (fun _ _ => Except.ok (TxResult.single (Tx.obj [] [])))
    claimAllSwapFee := none
    closePosition := none
    swap := some (fun _ _ => Except.ok (Tx.obj [] [])) }

/-- Method `initializePool(poolAddress)`. -/
def initializePool (env : Env) (poolAddress : String) : M Unit :=
  tryCatch
    (do
      let poolPubkey ← liftExcept (env.newPublicKey poolAddress)
      let s ← getSt
      let tokenXKey ← liftExcept (env.newPublicKey "6p6xgHyF7AeE6TZkSmFsko444wqoP15icUSqi2jfGiPN")
      let tokenYKey ← liftExcept (env.newPublicKey "EPjFWdd5AufqSSqeM2qN1xzybapC8G4wEGGkZwyTDt1v")
      let dlmmPool := mockPool env s.connection poolPubkey tokenXKey tokenYKey
      modifyPools (fun m => mapSet m poolAddress dlmmPool))
    (fun msg => throwErr ("Failed to initialize DLMM pool: " ++ msg))

/-- Method `checkPool(poolAddress)`. -/
def checkPool (poolAddress : String) : M Handle := fun s =>
  match mapGet s.dlmmPools poolAddress with
  | some pool => (Except.ok pool, s)
  | none =>
      (Except.error ("Pool " ++ poolAddress ++ " not initialized. Call initializePool first."), s)

/-- Method `getActiveBin(poolAddress)`. -/
def getActiveBin (poolAddress : String) : M ActiveBin := do
  let dlmmPool ← checkPool poolAddress
  tryCatch
    (match dlmmPool.lbPair.bind (fun lb => lb.activeId) with
      | some activeId => pure { binId := activeId }
      | none =>
        match dlmmPool.getActiveBin with
        | some f => callExternal (Event.getActiveBin poolAddress) f
        | none => pure { binId := 100 })
    (fun _ => pure { binId := 100 })

/-- Method `getUserPositions(poolAddress, userPublicKey)`. -/
def getUserPositions (env : Env) (poolAddress : String) (userPublicKey : PublicKey) :
    M (List Position) := do
  let dlmmPool ← checkPool poolAddress
  tryCatch
    (match dlmmPool.getPositionsByUser with
      | some f =>
        callExternal (Event.getPositionsByUser poolAddress userPublicKey)
          (fun t => f t userPublicKey)
      | none =>
        match dlmmPool.getPositionsByUserAndLbPair with
        | some f => do
          let r ← callExternal (Event.getPositionsByUserAndLbPair poolAddress userPublicKey)
            (fun t => f t userPublicKey)
          match r with
          | PositionsResult.wrapped userPositions => pure userPositions
          | PositionsResult.unreadable =>
            throwErr "Cannot destructure property 'userPositions' of the result"
        | none => do
          let publicKey ← liftExcept (env.newPublicKey "11111111111111111111111111111111")
          pure [{ publicKey := publicKey
                  positionData := { positionBinData :=
                    [{ binId := 99 }, { binId := 100 }, { binId := 101 }] } }])
    (fun _ => pure [])

/-- Call `await sendAndConfirmTransaction(this.connection, tx, signers)`. -/
def sendAndConfirmTransaction (env : Env) (tx : Tx) (signers : List Keypair) : M String := do
  let s ← getSt
  callExternal (Event.sendAndConfirmTransaction tx signers)
    (fun t => env.sendAndConfirm t s.connection tx signers)

/-- Loop `for (const tx of txs) await sendAndConfirmTransaction(.., tx, [userKeypair])`. -/
def sendEach (env : Env) (userKeypair : Keypair) : List Tx → M Unit
  | [] => pure ()
  | tx :: rest => do
    let _ ← sendAndConfirmTransaction env tx [userKeypair]
    sendEach env userKeypair rest

/-- The `Array.isArray(tx)` branch that follows a transaction builder: each
element of an array is sent in turn, a single transaction is sent once. -/
def submit (env : Env) (userKeypair : Keypair) : TxResult → M Unit
  | TxResult.many txs => sendEach env userKeypair txs
  | TxResult.single tx => do
    let _ ← sendAndConfirmTransaction env tx [userKeypair]
    pure ()

/-- The `options` of `removeLiquidity`; an absent key is `none`. -/
structure RemoveOptions where
  specificPositions : Option (List PublicKey) := none
  bpsToRemove : Option Int := none
  shouldClaimAndClose : Option Bool := none
deriving DecidableEq, Repr

/-- The loop `for (const positionPubkey of positions)` of `removeLiquidity`
(lines 191-225). -/
def removeLoop (env : Env) (userKeypair : Keypair) (poolAddress : String) (dlmmPool : Handle)
    (bpsToRemove : Int) (shouldClaimAndClose : Bool) : List PublicKey → M Unit
  | [] => pure ()
  | positionPubkey :: rest => do
    let userPositions ← getUserPositions env poolAddress userKeypair.publicKey
    match userPositions.find? (fun p => p.publicKey.str == positionPubkey.str) with
    | none => removeLoop env userKeypair poolAddress dlmmPool bpsToRemove shouldClaimAndClose rest
    | some position => do
      let binIds := position.positionData.positionBinData.map (fun bin => bin.binId)
      let bps ← liftExcept (env.newBN bpsToRemove)
      let liquiditiesBpsToRemove := List.replicate binIds.length bps
      let req : RemoveLiquidityRequest :=
        { position := positionPubkey
          user := userKeypair.publicKey
          binIds := binIds
          liquiditiesBpsToRemove := liquiditiesBpsToRemove
          shouldClaimAndClose := shouldClaimAndClose }
      let removeLiquidityTx ← callMethod "removeLiquidity"
        (Event.removeLiquidity poolAddress req)
        (dlmmPool.removeLiquidity.map (fun f t => f t req))
      submit env userKeypair removeLiquidityTx
      removeLoop env userKeypair poolAddress dlmmPool bpsToRemove shouldClaimAndClose rest

/-- Method `removeLiquidity(userKeypair, poolAddress, options = {})`; the result
`none` is `null`. -/
def removeLiquidity (env : Env) (userKeypair : Keypair) (poolAddress : String)
    (options : Option RemoveOptions) : M (Option String) := do
  let dlmmPool ← checkPool poolAddress
  let options := options.getD {}
  let bpsToRemove := options.bpsToRemove.getD 10000
  let shouldClaimAndClose := options.shouldClaimAndClose.getD true
  tryCatch
    (do
      let positions ← match options.specificPositions with
        | some specificPositions => pure specificPositions
        | none => do
          let userPositions ← getUserPositions env poolAddress userKeypair.publicKey
          pure (userPositions.map (fun position => position.publicKey))
      if positions.length = 0 then
        pure none
      else do
        removeLoop env userKeypair poolAddress dlmmPool bpsToRemove shouldClaimAndClose positions
        pure (some "Successfully removed liquidity"))
    (fun msg => throwErr ("Failed to remove liquidity: " ++ msg))

/-- The `options` of `addLiquidity`; an absent key is `none`. -/
structure AddOptions where
  xAmount : Option Amount := none
  yAmount : Option Amount := none
  binRange : Option Int := none
  strategyType : Option String := none
  strategyParams : Option JsObj := none
  existingPosition : Option PublicKey := none
deriving DecidableEq, Repr

/-- The conversion `amount ? (amount instanceof BN ? amount : new BN(amount)) :
new BN(dflt)`; the number `0` is falsy, a `BN` object is truthy. -/
def toAmount (env : Env) (amount : Option Amount) (dflt : Int) : Except Err BN :=
  match amount with
  | some (Amount.bn b) => Except.ok b
  | some (Amount.num n) => if n = 0 then env.newBN dflt else env.newBN n
  | none => env.newBN dflt

/-- Method `addLiquidity(userKeypair, poolAddress, baseMintDecimals, options = {})`. -/
def addLiquidity (env : Env) (userKeypair : Keypair) (poolAddress : String)
    (baseMintDecimals : Nat) (options : Option AddOptions) : M String := do
  let dlmmPool ← checkPool poolAddress
  let options := options.getD {}
  let binRange := options.binRange.getD 10
  let strategyType := options.strategyType.getD "Spot"
  let strategyParams := options.strategyParams.getD []
  tryCatch
    (do
      let activeBin ← callMethod "getActiveBin" (Event.getActiveBin poolAddress)
        dlmmPool.getActiveBin
      let minBinId := activeBin.binId - binRange
      let maxBinId := activeBin.binId + binRange
      let totalXAmount ← liftExcept (toAmount env options.xAmount (100 * 10 ^ baseMintDecimals))
      let totalYAmount ← liftExcept (toAmount env options.yAmount 0)
      let strategy := spread
        [("minBinId", JsVal.num minBinId), ("maxBinId", JsVal.num maxBinId),
         ("strategyType", JsVal.str strategyType)]
        strategyParams
      let req : AddLiquidityRequest :=
        { user := userKeypair.publicKey
          totalXAmount := totalXAmount
          totalYAmount := totalYAmount
          strategy := strategy }
      let tx ← callMethod "addLiquidityByStrategy"
        (Event.addLiquidityByStrategy poolAddress req)
        (dlmmPool.addLiquidityByStrategy.map (fun f t => f t req))
      submit env userKeypair tx
      pure "Successfully added liquidity")
    (fun msg => throwErr ("Failed to add liquidity: " ++ msg))

/-- The `options` of `moveFunds`; an absent key is `none`. -/
structure MoveOptions where
  removeOptions : Option RemoveOptions := none
  addOptions : Option AddOptions := none
deriving DecidableEq, Repr

/-- The object `moveFunds` resolves to. -/
structure MoveResult where
  success : Bool
  message : String
  result : String
deriving DecidableEq, Repr

/-- Method `moveFunds(userKeypair, fromPoolAddress, toPoolAddress, baseMintDecimals,
options = {})`. -/
def moveFunds (env : Env) (userKeypair : Keypair) (fromPoolAddress toPoolAddress : String)
    (baseMintDecimals : Nat) (options : Option MoveOptions) : M MoveResult :=
  let options := options.getD {}
  let removeOptions := options.removeOptions.getD {}
  let addOptions := options.addOptions.getD {}
  tryCatch
    (do
      let _ ← removeLiquidity env userKeypair fromPoolAddress (some removeOptions)
      let result ← addLiquidity env userKeypair toPoolAddress baseMintDecimals (some addOptions)
      pure
        { success := true
          message := "Successfully moved funds from " ++ fromPoolAddress ++ " to " ++ toPoolAddress
          result := result })
    (fun msg => throwErr ("Failed to move funds: " ++ msg))

/-- Method `claimSwapFees(userKeypair, poolAddress, specificPositions)`; the
result `none` is `null`. -/
def claimSwapFees (env : Env) (userKeypair : Keypair) (poolAddress : String)
    (specificPositions : Option (List Position)) : M (Option String) := do
  let dlmmPool ← checkPool poolAddress
  tryCatch
    (do
      let positions ← match specificPositions with
        | some specificPositions => pure specificPositions
        | none => getUserPositions env poolAddress userKeypair.publicKey
      if positions.length = 0 then
        pure none
      else do
        let req : ClaimRequest := { owner := userKeypair.publicKey, positions := positions }
        let claimFeeTxs ← callMethod "claimAllSwapFee" (Event.claimAllSwapFee poolAddress req)
          (dlmmPool.claimAllSwapFee.map (fun f t => f t req))
        submit env userKeypair claimFeeTxs
        pure (some "Successfully claimed swap fees"))
    (fun msg => throwErr ("Failed to claim swap fees: " ++ msg))

/-- The loop `for (const positionPubkey of positions)` of `closePositions`
(lines 412-419). -/
def closeLoop (env : Env) (userKeypair : Keypair) (poolAddress : String) (dlmmPool : Handle) :
    List PublicKey → M Unit
  | [] => pure ()
  | positionPubkey :: rest => do
    let req : CloseRequest := { owner := userKeypair.publicKey, position := positionPubkey }
    let closePositionTx ← callMethod "closePosition" (Event.closePosition poolAddress req)
      (dlmmPool.closePosition.map (fun f t => f t req))
    let _ ← sendAndConfirmTransaction env closePositionTx [userKeypair]
    closeLoop env userKeypair poolAddress dlmmPool rest

/-- Method `closePositions(userKeypair, poolAddress, specificPositions)`; the
result `none` is `null`. -/
def closePositions (env : Env) (userKeypair : Keypair) (poolAddress : String)
    (specificPositions : Option (List PublicKey)) : M (Option String) := do
  let dlmmPool ← checkPool poolAddress
  tryCatch
    (do
      let positions ← match specificPositions with
        | some specificPositions => pure specificPositions
        | none => do
          let userPositions ← getUserPositions env poolAddress userKeypair.publicKey
          pure (userPositions.map (fun position => position.publicKey))
      if positions.length = 0 then
        pure none
      else do
        closeLoop env userKeypair poolAddress dlmmPool positions
        pure (some "Successfully closed positions"))
    (fun msg => throwErr ("Failed to close positions: " ++ msg))

/-- The `options` of the three `create...Position` methods; an absent key is
`none`. -/
structure PositionOptions where
  xAmount : Option Amount := none
  yAmount : Option Amount := none
  binRange : Option Int := none
  strategyType : Option String := none
  isXSide : Option Bool := none
  offset : Option Int := none
deriving DecidableEq, Repr

/-- Method `createBalancedPosition(userKeypair, poolAddress, baseMintDecimals,
options = {})`. -/
def createBalancedPosition (env : Env) (userKeypair : Keypair) (poolAddress : String)
    (baseMintDecimals : Nat) (options : Option PositionOptions) : M String :=
  let options := options.getD {}
  let binRange := options.binRange.getD 10
  let strategyType := options.strategyType.getD "Spot"
  tryCatch
    (addLiquidity env userKeypair poolAddress baseMintDecimals
      (some { xAmount := options.xAmount
              binRange := some binRange
              strategyType := some strategyType }))
    (fun msg => throwErr ("Failed to create balanced position: " ++ msg))

/-- Method `createImbalancedPosition(userKeypair, poolAddress, baseMintDecimals,
options = {})`. -/
def createImbalancedPosition (env : Env) (userKeypair : Keypair) (poolAddress : String)
    (baseMintDecimals : Nat) (options : Option PositionOptions) : M String :=
  let options := options.getD {}
  let binRange := options.binRange.getD 10
  let strategyType := options.strategyType.getD "Spot"
  tryCatch
    (addLiquidity env userKeypair poolAddress baseMintDecimals
      (some { xAmount := options.xAmount
              yAmount := options.yAmount
              binRange := some binRange
              strategyType := some strategyType }))
    (fun msg => throwErr ("Failed to create imbalanced position: " ++ msg))

/-- Method `createOneSidedPosition(userKeypair, poolAddress, baseMintDecimals,
options = {})`. -/
def createOneSidedPosition (env : Env) (userKeypair : Keypair) (poolAddress : String)
    (baseMintDecimals : Nat) (options : Option PositionOptions) : M String :=
  let options := options.getD {}
  let binRange := options.binRange.getD 10
  let isXSide := options.isXSide.getD true
  let offset := options.offset.getD 0
  tryCatch
    (do
      let activeBin ← getActiveBin poolAddress
      let minBinId := if isXSide then activeBin.binId - binRange + offset
        else activeBin.binId + offset
      let maxBinId := if isXSide then activeBin.binId + offset
        else activeBin.binId + binRange + offset
      let zero ← liftExcept (env.newBN 0)
      addLiquidity env userKeypair poolAddress baseMintDecimals
        (some { xAmount := options.xAmount
                yAmount := some (Amount.bn zero)
                strategyType := some "Spot"
                strategyParams := some
                  [("minBinId", JsVal.num minBinId), ("maxBinId", JsVal.num maxBinId)] }))
    (fun msg => throwErr ("Failed to create one-sided position: " ++ msg))

/-- Read `dlmmPool.tokenX.publicKey` (or `tokenY`); reading `publicKey` of an
absent token object throws a `TypeError`. -/
def tokenPublicKey (token : Option TokenInfo) : M PublicKey :=
  match token with
  | some t => pure t.publicKey
  | none => throwErr "Cannot read properties of undefined (reading 'publicKey')"

/-- Method `swap(userKeypair, poolAddress, amount, isXtoY, slippageBps = 100)`. -/
def swap (env : Env) (userKeypair : Keypair) (poolAddress : String) (amount : Amount)
    (isXtoY : Bool) (slippageBps : Option Int) : M String := do
  let dlmmPool ← checkPool poolAddress
  let slippageBps := slippageBps.getD 100
  tryCatch
    (do
      let swapAmount ← match amount with
        | Amount.bn b => pure b
        | Amount.num n => liftExcept (env.newBN n)
      let binArrays ← callMethod "getBinArrayForSwap"
        (Event.getBinArrayForSwap poolAddress (!isXtoY))
        (dlmmPool.getBinArrayForSwap.map (fun f t => f t (!isXtoY)))
      let slippageTolerance ← liftExcept (env.newBN slippageBps)
      let swapQuote ← callMethod "swapQuote"
        (Event.swapQuote poolAddress swapAmount (!isXtoY) slippageTolerance binArrays)
        (dlmmPool.swapQuote.map (fun f t => f t swapAmount (!isXtoY) slippageTolerance binArrays))
      let inToken ← tokenPublicKey (if isXtoY then dlmmPool.tokenX else dlmmPool.tokenY)
      let outToken ← tokenPublicKey (if isXtoY then dlmmPool.tokenY else dlmmPool.tokenX)
      let req : SwapRequest :=
        { inToken := inToken
          outToken := outToken
          binArraysPubkey := swapQuote.binArraysPubkey
          inAmount := swapAmount
          minOutAmount := swapQuote.minOutAmount
          lbPair := dlmmPool.pubkey
          user := userKeypair.publicKey }
      let swapTx ← callMethod "swap" (Event.swap poolAddress req)
        (dlmmPool.swap.map (fun f t => f t req))
      sendAndConfirmTransaction env swapTx [userKeypair])
    (fun msg => throwErr ("Failed to swap: " ++ msg))

/-! ## Reading the history -/

/-- The addition requests of a history, in order, with the pool they were sent to. -/
def addRequests : Trace → List (String × AddLiquidityRequest)
  | [] => []
  | Event.addLiquidityByStrategy pool req :: rest => (pool, req) :: addRequests rest
  | _ :: rest => addRequests rest

/-- The removal requests of a history, in order, with the pool they were sent to. -/
def removeRequests : Trace → List (String × RemoveLiquidityRequest)
  | [] => []
  | Event.removeLiquidity pool req :: rest => (pool, req) :: removeRequests rest
  | _ :: rest => removeRequests rest

/-- Whether an event changes something on chain: a request for a transaction
(add, remove, claim, close, swap) or the submission of one.  Queries of the
active bin, of positions, of bin arrays and of a quote are reads. -/
def Event.isWrite : Event → Bool
  | Event.addLiquidityByStrategy _ _ => true
  | Event.removeLiquidity _ _ => true
  | Event.claimAllSwapFee _ _ => true
  | Event.closePosition _ _ => true
  | Event.swap _ _ => true
  | Event.sendAndConfirmTransaction _ _ => true
  | _ => false

/-- The text `needle` occurs in `msg` (`String.prototype.includes`, the
`toThrow(/.../)` matcher of the tests). -/
def containsText (msg needle : String) : Prop :=
  needle.data <:+: msg.data

/-! ## Concrete collaborators

The doubles used by the repository's unit tests (`jest.mock` in
`src/tests/MeteoraDLMMInteractionsService*.test.js`): every address is accepted as
a public key, `BN` holds the number it is given, and a submission resolves to
`'txHash'`. -/

/-- The mocked libraries of the unit tests. -/
def mockEnv : Env :=
  { newPublicKey := fun address => Except.ok { str := address }
    newBN := fun n => Except.ok { val := n }
    sendAndConfirm := fun _ _ _ _ => Except.ok "txHash" }

/-- The pool handle `mockDlmmPool` of the unit tests (test file lines 68-82),
reporting the given active bin. -/
def sdkPool (activeBin : Int) : Handle :=
  { connection := none
    poolAddress := none
    pubkey := none
    tokenX := none
    tokenY := none
    lbPair := none
    getActiveBin := some (fun _ => Except.ok { binId := activeBin })
    getBinArrayForSwap := none
    swapQuote := none
    getPositionsByUser := none
    getPositionsByUserAndLbPair := some (fun _ _ => Except.ok (PositionsResult.wrapped
      [{ publicKey := { str := "position1" }
         positionData := { positionBinData :=
           [{ binId := 99 }, { binId := 100 }, { binId := 101 }] } }]))
    addLiquidityByStrategy := some (fun _ _ => Except.ok (TxResult.single (Tx.raw "addLiquidityTx")))
    removeLiquidity := some (fun _ _ => Except.ok (TxResult.single (Tx.raw "removeLiquidityTx")))
    claimAllSwapFee := none
    closePosition := none
    swap := none }

/-- The user of the unit tests. -/
def mockUser : Keypair := { publicKey := { str := "user123" } }

/-- A service whose pool map holds the given handle under the given address. -/
def serviceWith (poolAddress : String) (pool : Handle) : St :=
  { connection := { rpcUrl := "http://127.0.0.1:8899" }
    dlmmPools := [(poolAddress, pool)]
    trace := [] }

/-! ## Predicates on histories, and the states used as examples -/

/-- State `s'` comes from `s` by external calls only: same connection, same pool
map, and the history of `s` extended by events that all satisfy `P`. -/
def Extends (P : Event → Prop) (s s' : St) : Prop :=
  s'.connection = s.connection ∧ s'.dlmmPools = s.dlmmPools ∧
    ∃ t : Trace, s'.trace = s.trace ++ t ∧ ∀ e ∈ t, P e

/-- The events a run added: the history of the final state after the history
of the initial one. -/
def newEvents (s s' : St) : Trace := s'.trace.drop s.trace.length

/-- An event is the submission of a transaction. -/
def Event.isSend : Event → Prop
  | Event.sendAndConfirmTransaction _ _ => True
  | _ => False

/-- An event is a listing of a user's positions. -/
def Event.isListing : Event → Prop
  | Event.getPositionsByUser _ _ => True
  | Event.getPositionsByUserAndLbPair _ _ => True
  | _ => False

/-- The strategy object literal of `addLiquidity` (lines 276-281) for a given
active bin. -/
def strategyFor (activeBin : Int) (options : AddOptions) : JsObj :=
  spread
    [("minBinId", JsVal.num (activeBin - options.binRange.getD 10)),
     ("maxBinId", JsVal.num (activeBin + options.binRange.getD 10)),
     ("strategyType", JsVal.str (options.strategyType.getD "Spot"))]
    (options.strategyParams.getD [])

/-- An event is a query of the active bin. -/
def Event.isActiveBinQuery : Event → Prop
  | Event.getActiveBin _ => True
  | _ => False

/-- The handle that `initializePool` stores, as built from the mocked
libraries for pool address `A`. -/
def initializedService : St := (initializePool mockEnv "A" (newService "http://127.0.0.1:8899")).2

/-- What holds of every event of `removeLiquidity`.  A removal request goes to
pool `p` for the user; it carries the flag; its basis points are one `BN` of
`bpsToRemove` repeated once per bin; and its bins are those of the position
that a listing, made at some history extending `base`, returned as the first
one whose key prints like the target.  The only other events are listings of
positions and submissions. -/
def RemovalRequestOk (env : Env) (userKeypair : Keypair) (p : String) (connection : Connection)
    (pools : List (String × Handle)) (base : Trace) (bpsToRemove : Int) (flag : Bool) :
    Event → Prop
  | Event.removeLiquidity q req =>
      q = p ∧ req.user = userKeypair.publicKey ∧ req.shouldClaimAndClose = flag ∧
      (∃ bps : BN, env.newBN bpsToRemove = Except.ok bps ∧
        req.liquiditiesBpsToRemove = List.replicate req.binIds.length bps) ∧
      ∃ (hist : Trace) (l : List Position) (position : Position),
        base <+: hist ∧
        (getUserPositions env p userKeypair.publicKey
          { connection := connection, dlmmPools := pools, trace := hist }).1 = Except.ok l ∧
        l.find? (fun x => x.publicKey.str == req.position.str) = some position ∧
        req.binIds = position.positionData.positionBinData.map (fun bin => bin.binId)
  | Event.getPositionsByUser _ _ => True
  | Event.getPositionsByUserAndLbPair _ _ => True
  | Event.sendAndConfirmTransaction _ _ => True
  | _ => False

/-- What holds of every event of `addLiquidity` on pool `p`: it is a query of
the active bin, an addition request to `p`, or a submission. -/
def AdditionEventOk (p : String) : Event → Prop
  | Event.getActiveBin q => q = p
  | Event.addLiquidityByStrategy q _ => q = p
  | Event.sendAndConfirmTransaction _ _ => True
  | _ => False

/-- A service with source pool `A`, whose SDK handle rejects every removal
request, and destination pool `B`. -/
def faultyRemovalService : St :=
  { connection := { rpcUrl := "http://127.0.0.1:8899" }
    dlmmPools :=
      [("A", { sdkPool 100 with removeLiquidity := some (fun _ _ => Except.error "rejected") }),
       ("B", sdkPool 100)]
    trace := [] }

/-- The handle `initializePool(poolAddress)` builds on a service with the given
connection: the three `new PublicKey(..)` of lines 28, 38 and 42 in evaluation
order, then the object literal. -/
def poolFor (env : Env) (connection : Connection) (poolAddress : String) : Except Err Handle :=
  match env.newPublicKey poolAddress with
  | Except.error e => Except.error e
  | Except.ok poolPubkey =>
    match env.newPublicKey "6p6xgHyF7AeE6TZkSmFsko444wqoP15icUSqi2jfGiPN" with
    | Except.error e => Except.error e
    | Except.ok tokenXKey =>
      match env.newPublicKey "EPjFWdd5AufqSSqeM2qN1xzybapC8G4wEGGkZwyTDt1v" with
      | Except.error e => Except.error e
      | Except.ok tokenYKey =>
        Except.ok (mockPool env connection poolPubkey tokenXKey tokenYKey)

/-- A sequence of `initializePool` calls, one per address, each awaited; a call
that throws leaves the service as it was and the next call is made.  The result
is the final service and the addresses whose call completed, in order. -/
def runInits (env : Env) : List String → St → St × List String
  | [], s => (s, [])
  | p :: rest, s =>
    match initializePool env p s with
    | (Except.ok _, s1) => ((runInits env rest s1).1, p :: (runInits env rest s1).2)
    | (Except.error _, s1) => runInits env rest s1

/-- The pool map holds only what `initializePool` stores: under every key `k`
the handle that `initializePool(k)` builds. -/
def PoolsFromInit (env : Env) (s : St) : Prop :=
  ∀ (k : String) (h : Handle), mapGet s.dlmmPools k = some h →
    poolFor env s.connection k = Except.ok h

/-- Lines 179-183 of `removeLiquidity`: the targets of the batch are the given
`specificPositions`, or, when none are given, the public keys of the positions
the listing returns. -/
def resolveTargets (env : Env) (userKeypair : Keypair) (poolAddress : String)
    (options : RemoveOptions) : M (List PublicKey) :=
  match options.specificPositions with
  | some specificPositions => pure specificPositions
  | none => do
    let userPositions ← getUserPositions env poolAddress userKeypair.publicKey
    pure (userPositions.map (fun position => position.publicKey))

/-- The transactions of a builder's result, in the order the service sends
them: the elements of an array, or the single transaction. -/
def txsOf : TxResult → List Tx
  | TxResult.many txs => txs
  | TxResult.single tx => [tx]

/-- The submissions of the given transactions, one after the other, each signed
by the user. -/
def sendEvents (userKeypair : Keypair) (txs : List Tx) : Trace :=
  txs.map (fun tx => Event.sendAndConfirmTransaction tx [userKeypair])

/-- The transactions handed to `sendAndConfirmTransaction` in a history, in
order. -/
def sentTxs : Trace → List Tx
  | [] => []
  | Event.sendAndConfirmTransaction tx _ :: rest => tx :: sentTxs rest
  | _ :: rest => sentTxs rest

/-- A handle that has only `getPositionsByUser`, answering with the given list. -/
def directListingPool (positions : List Position) : Handle :=
  { sdkPool 100 with
    getPositionsByUser := some (fun _ _ => Except.ok positions) }

/-- A handle whose position listing rejects. -/
def faultyListingPool : Handle :=
  { sdkPool 100 with
    getPositionsByUserAndLbPair := some (fun _ _ => Except.error "node unreachable") }

/-- Two positions without bins, listed as `second` then `first`. -/
def twoPositions : List Position :=
  [{ publicKey := { str := "second" }, positionData := { positionBinData := [] } },
   { publicKey := { str := "first" }, positionData := { positionBinData := [] } }]

/-- The position `position1` of the unit tests, with bins 99, 100 and 101. -/
def position1 : Position :=
  { publicKey := { str := "position1" }
    positionData := { positionBinData := [{ binId := 99 }, { binId := 100 }, { binId := 101 }] } }

/-- The removal request of lines 209-215 for a target and the position found
for it. -/
def removalRequestFor (userKeypair : Keypair) (target : PublicKey) (position : Position)
    (bps : BN) (flag : Bool) : RemoveLiquidityRequest :=
  { position := target
    user := userKeypair.publicKey
    binIds := position.positionData.positionBinData.map (fun bin => bin.binId)
    liquiditiesBpsToRemove := List.replicate
      (position.positionData.positionBinData.map (fun bin => bin.binId)).length bps
    shouldClaimAndClose := flag }

/-- Libraries as in the unit tests, except that the submission of the
transaction `second` is rejected. -/
def flakyEnv : Env :=
  { mockEnv with
    sendAndConfirm := fun _ _ tx _ =>
      if tx = Tx.raw "second" then Except.error "blockhash expired" else Except.ok "txHash" }

/-- A handle whose removal builder returns an array of two transactions. -/
def twoTxPool : Handle :=
  { sdkPool 100 with
    removeLiquidity := some (fun _ _ =>
      Except.ok (TxResult.many [Tx.raw "first", Tx.raw "second"])) }

/-- The constructor `new BN(number)` of the `bn.js` library the module imports.
The library is not part of the repository; this follows its `_initNumber`,
which takes the absolute value and asserts `number < 0x20000000000000` (that
is `2^53`), throwing `Assertion failed` otherwise. -/
def bnFromNumber (n : Int) : Except Err BN :=
  if n.natAbs < 2 ^ 53 then Except.ok { val := n } else Except.error "Assertion failed"

/-- The libraries of the unit tests, with the `BN` constructor of `bn.js`. -/
def bnjsEnv : Env :=
  { mockEnv with newBN := bnFromNumber }

/-- The swap request of lines 557-565 for a direction, an amount and a quote. -/
def swapRequestFor (userKeypair : Keypair) (dlmmPool : Handle) (tokenX tokenY : TokenInfo)
    (isXtoY : Bool) (swapAmount : BN) (quote : SwapQuote) : SwapRequest :=
  { inToken := if isXtoY then tokenX.publicKey else tokenY.publicKey
    outToken := if isXtoY then tokenY.publicKey else tokenX.publicKey
    binArraysPubkey := quote.binArraysPubkey
    inAmount := swapAmount
    minOutAmount := quote.minOutAmount
    lbPair := dlmmPool.pubkey
    user := userKeypair.publicKey }

/-- The fee-claim requests of a history, in order, with the pool they were sent
to. -/
def claimRequests : Trace → List (String × ClaimRequest)
  | [] => []
  | Event.claimAllSwapFee pool req :: rest => (pool, req) :: claimRequests rest
  | _ :: rest => claimRequests rest

/-- The close requests of a history, in order, with the pool they were sent to. -/
def closeRequests : Trace → List (String × CloseRequest)
  | [] => []
  | Event.closePosition pool req :: rest => (pool, req) :: closeRequests rest
  | _ :: rest => closeRequests rest

/-- The pool handle of the simple unit tests
(`MeteoraDLMMInteractionsServiceSimple.test.js`, lines 52-77): the handle of
`sdkPool` with `claimAllSwapFee` and `closePosition` as well. -/
def fullSdkPool : Handle :=
  { sdkPool 100 with
    claimAllSwapFee := some (fun _ _ => Except.ok (TxResult.single (Tx.raw "claimFeeTx")))
    closePosition := some (fun _ _ => Except.ok (Tx.raw "closePositionTx")) }

/-- The history of a close loop that meets no fault: for each target in turn,
the close request and then the submission of the transaction built for it. -/
def closeEvents (userKeypair : Keypair) (p : String) : List (PublicKey × Tx) → Trace
  | [] => []
  | (target, tx) :: rest =>
    Event.closePosition p { owner := userKeypair.publicKey, position := target } ::
      Event.sendAndConfirmTransaction tx [userKeypair] :: closeEvents userKeypair p rest

/-- The transactions a close loop obtains when the builder answers `build hist req`
at history `hist`: the one for the first target at the history the loop starts
with, the next one at the history extended by the first request and its
submission, and so on. -/
def closeTxs (userKeypair : Keypair) (p : String) (build : Trace → CloseRequest → Tx) :
    Trace → List PublicKey → List Tx
  | _, [] => []
  | hist, target :: rest =>
    build hist { owner := userKeypair.publicKey, position := target } ::
      closeTxs userKeypair p build
        (hist ++ [Event.closePosition p { owner := userKeypair.publicKey, position := target },
          Event.sendAndConfirmTransaction
            (build hist { owner := userKeypair.publicKey, position := target }) [userKeypair]])
        rest

/-! ## The keeper client

Source: `src/services/MeteoraDLMMKeeperService.js`.  The class has no state;
every method is one call of `_fetch`.  The platform (`URL`, `fetch`) is a
parameter.  A call yields its outcome and the requests it handed to `fetch`. -/

/-- The number of binary digits of a number (0 for 0); the first argument bounds
the number of steps. -/
def bitLength : Nat → Nat → Nat
  | 0, _ => 0
  | fuel + 1, x => if x = 0 then 0 else bitLength fuel (x / 2) + 1

/-- Whether an integer is a JavaScript number: every integer of magnitude below
`2^53` is, and a larger one is when it is a 53-bit integer times a power of two
and has at most 1024 binary digits. -/
def isJsInteger (n : Int) : Bool :=
  n.natAbs < 2 ^ 53 ||
    (bitLength n.natAbs n.natAbs ≤ 1024 &&
      n.natAbs % 2 ^ (bitLength n.natAbs n.natAbs - 53) == 0)

/-- Whether the integer `c`, read as a decimal literal, denotes the number `x`
(at least `2^53`): `c` lies between the midpoints to the neighbours of `x`, the
midpoints included when the 53-bit significand of `x` is even.  Distances are
taken four times, so that the midpoints are integers. -/
def readsBackAs (x c : Nat) : Bool :=
  let q := bitLength x x - 53
  let m := x / 2 ^ q
  let below := if m = 2 ^ 52 then 2 ^ q else 2 ^ (q + 1)
  let above := 2 ^ (q + 1)
  if m % 2 = 0 then decide (4 * x ≤ 4 * c + below) && decide (4 * c ≤ 4 * x + above)
  else decide (4 * x < 4 * c + below) && decide (4 * c < 4 * x + above)

/-- The `k`-digit decimal for `x`, if there is one: of the two multiples of the
power of ten that enclose `x`, one that denotes `x`, the closer one when both
do, the even one when both are equally close. -/
def candidateAt (x k : Nat) : Option (Nat × Nat) :=
  let e := (Nat.toDigits 10 x).length - k
  let s0 := x / 10 ^ e
  let c0 := s0 * 10 ^ e
  let c1 := (s0 + 1) * 10 ^ e
  if readsBackAs x c0 && readsBackAs x c1 then
    if x - c0 < c1 - x then some (s0, e)
    else if c1 - x < x - c0 then some (s0 + 1, e)
    else if s0 % 2 = 0 then some (s0, e) else some (s0 + 1, e)
  else if readsBackAs x c0 then some (s0, e)
  else if readsBackAs x c1 then some (s0 + 1, e)
  else none

/-- Drop trailing zeros of the digits, raising the power of ten. -/
def dropZeros : Nat → Nat → Nat → Nat × Nat
  | 0, s, e => (s, e)
  | fuel + 1, s, e => if s % 10 = 0 ∧ s ≠ 0 then dropZeros fuel (s / 10) (e + 1) else (s, e)

/-- The shortest decimal `s * 10 ^ e` that denotes the number `x` (at least
`2^53`), with the fewest digits `s`. -/
def shortestDecimal (x : Nat) : Nat × Nat :=
  match (List.range (Nat.toDigits 10 x).length).findSome? (fun i => candidateAt x (i + 1)) with
  | some (s, e) => dropZeros 400 s e
  | none => (x, 0)

/-- The string of a non-negative integer number (`Number::toString` of the
language standard, radix 10): below `2^53` its digits; from there on the digits
of the shortest decimal that denotes it, followed by zeros when the number is
below `10^21` and in exponent notation otherwise. -/
def natToJsString (x : Nat) : String :=
  if x < 2 ^ 53 then toString x
  else
    let digits := (Nat.toDigits 10 (shortestDecimal x).1)
    let n := digits.length + (shortestDecimal x).2
    if n ≤ 21 then String.mk (digits ++ List.replicate (shortestDecimal x).2 '0')
    else if digits.length = 1 then String.mk digits ++ "e+" ++ toString (n - 1)
    else String.mk (digits.take 1 ++ ['.'] ++ digits.drop 1) ++ "e+" ++ toString (n - 1)

/-- The string of an integer number: `String(n)`. -/
def numberToString (n : Int) : String :=
  if n < 0 then "-" ++ natToJsString n.natAbs else natToJsString n.natAbs

/-- Whether a property value is one a JavaScript program can hold: a number has
to be a JavaScript number. -/
def JsVal.wellFormed : JsVal → Bool
  | JsVal.num n => isJsInteger n
  | _ => true

/-- Whether a keyed list stands for a JavaScript object, its keys in the order
`Object.keys` lists them: no key occurs twice, and every value is one a program
can hold. -/
def isJsObject (obj : JsObj) : Bool :=
  decide (obj.map Prod.fst).Nodup && obj.all (fun kv => kv.2.wellFormed)

/-- The string a value becomes in a template literal or as an argument of
`URLSearchParams.append` (`String(value)`). -/
def jsToString : JsVal → String
  | JsVal.undefined => "undefined"
  | JsVal.null => "null"
  | JsVal.bool true => "true"
  | JsVal.bool false => "false"
  | JsVal.num n => numberToString n
  | JsVal.str s => s

/-- A `URL` object as the client builds it: the text given to the constructor
and the pairs appended to `searchParams`, in order. -/
structure Url where
  text : String
  appended : List (String × String)
deriving DecidableEq, Repr

/-- Call `url.searchParams.append(name, value)`. -/
def Url.append (url : Url) (name value : String) : Url :=
  { url with appended := url.appended ++ [(name, value)] }

/-- The argument of `fetch`: the address and the `init` object. -/
structure Request where
  url : String
  method : String
  headers : List (String × String)
deriving DecidableEq, Repr

/-- A parsed JSON body, opaque to the client. -/
structure Json where
  repr : String
deriving DecidableEq, Repr

/-- A `Response`, as far as `_fetch` reads it; `text()` and `json()` may reject. -/
structure Response where
  ok : Bool
  status : Nat
  text : Except Err String
  json : Except Err Json

/-- The platform: how a `URL` object prints when handed to `fetch`, and what
`fetch` resolves to. -/
structure Web where
  href : Url → String
  fetch : Request → Except Err Response

/-- The UTF-8 encoding of a code point, as numbers. -/
def utf8Bytes (c : Nat) : List Nat :=
  if c < 0x80 then [c]
  else if c < 0x800 then [0xC0 + c / 0x40, 0x80 + c % 0x40]
  else if c < 0x10000 then [0xE0 + c / 0x1000, 0x80 + c / 0x40 % 0x40, 0x80 + c % 0x40]
  else [0xF0 + c / 0x40000, 0x80 + c / 0x1000 % 0x40, 0x80 + c / 0x40 % 0x40, 0x80 + c % 0x40]

/-- An upper-case hexadecimal digit. -/
def hexDigit (n : Nat) : Char :=
  if n < 10 then Char.ofNat (48 + n) else Char.ofNat (55 + n)

/-- The bytes the `application/x-www-form-urlencoded` serializer leaves as they
are: `*`, `-`, `.`, `_`, the digits and the ASCII letters. -/
def isFormSafe (b : Nat) : Bool :=
  b = 0x2A || b = 0x2D || b = 0x2E || (0x30 ≤ b && b ≤ 0x39) || (0x41 ≤ b && b ≤ 0x5A) ||
    b = 0x5F || (0x61 ≤ b && b ≤ 0x7A)

/-- One byte under the `application/x-www-form-urlencoded` serializer: a space
becomes `+`, a safe byte stays, any other byte becomes `%` and two digits. -/
def formEncodeByte (b : Nat) : List Char :=
  if b = 0x20 then ['+']
  else if isFormSafe b then [Char.ofNat b]
  else ['%', hexDigit (b / 16), hexDigit (b % 16)]

/-- The `application/x-www-form-urlencoded` serializer of the URL standard, which
`URLSearchParams` applies to every name and value.  The platform is not part of
the repository; this follows the standard. -/
def formEncode (s : String) : String :=
  String.mk ((s.data.flatMap (fun c => utf8Bytes c.toNat)).flatMap formEncodeByte)

/-- The query a list of pairs prints as: `name=value` joined by `&`, names and
values serialized. -/
def formQuery (pairs : List (String × String)) : String :=
  "&".intercalate (pairs.map (fun kv => formEncode kv.1 ++ "=" ++ formEncode kv.2))

/-- How a `URL` prints under the URL standard when its constructor text needs no
normalization and has no query or fragment of its own (as is the case for
`BASE_URL` followed by a path of letters, digits, `/` and `_`): the text, and
when pairs were appended `?` and their serialization. -/
def standardHref (url : Url) : String :=
  if url.appended.isEmpty then url.text else url.text ++ "?" ++ formQuery url.appended

/-- Static property `BASE_URL`. -/
def Keeper.BASE_URL : String := "https://dlmm-api.meteora.ag"

/-- Method `_fetch(endpoint, params = {})`. -/
def Keeper._fetch (web : Web) (endpoint : String) (params : Option JsObj) :
    Except Err Json × List Request :=
  let params := params.getD []
  let url : Url := { text := Keeper.BASE_URL ++ endpoint, appended := [] }
  let url := (params.map Prod.fst).foldl
    (fun u key => u.append key (jsToString ((mapGet params key).getD JsVal.undefined))) url
  let request : Request :=
    { url := web.href url, method := "GET", headers := [("Content-Type", "application/json")] }
  match web.fetch request with
  | Except.error error => (Except.error error, [request])
  | Except.ok response =>
    if !response.ok then
      match response.text with
      | Except.error error => (Except.error error, [request])
      | Except.ok body =>
        (Except.error ("API Error " ++ toString response.status ++ ": " ++ body), [request])
    else (response.json, [request])

/-- Method `getProtocolMetrics()`. -/
def Keeper.getProtocolMetrics (web : Web) : Except Err Json × List Request :=
  Keeper._fetch web "/info/protocol_metrics" none

/-- Method `getAllPairs(includeUnknown = true)`. -/
def Keeper.getAllPairs (web : Web) (includeUnknown : Option Bool) :
    Except Err Json × List Request :=
  Keeper._fetch web "/pair/all"
    (some [("include_unknown", JsVal.bool (includeUnknown.getD true))])

/-- Method `getAllPairsByGroups(params = {})`. -/
def Keeper.getAllPairsByGroups (web : Web) (params : Option JsObj) :
    Except Err Json × List Request :=
  Keeper._fetch web "/pair/all_by_groups" (some (params.getD []))

/-- Method `getAllPairsByGroupsMetadata(params = {})`. -/
def Keeper.getAllPairsByGroupsMetadata (web : Web) (params : Option JsObj) :
    Except Err Json × List Request :=
  Keeper._fetch web "/pair/all_by_groups_metadata" (some (params.getD []))

/-- Method `getAllPairsWithPagination(params = {})`. -/
def Keeper.getAllPairsWithPagination (web : Web) (params : Option JsObj) :
    Except Err Json × List Request :=
  Keeper._fetch web "/pair/all_with_pagination" (some (params.getD []))

/-- Method `getSingleGroupPair(lexicalOrderMints)`. -/
def Keeper.getSingleGroupPair (web : Web) (lexicalOrderMints : String) :
    Except Err Json × List Request :=
  Keeper._fetch web ("/pair/group_pair/" ++ lexicalOrderMints) none

/-- Method `getPair(pairAddress)`. -/
def Keeper.getPair (web : Web) (pairAddress : String) : Except Err Json × List Request :=
  Keeper._fetch web ("/pair/" ++ pairAddress) none

/-- Method `getPairFeeBpsByDays(pairAddress, numOfDays)`. -/
def Keeper.getPairFeeBpsByDays (web : Web) (pairAddress : String) (numOfDays : JsVal) :
    Except Err Json × List Request :=
  Keeper._fetch web ("/pair/" ++ pairAddress ++ "/analytic/pair_fee_bps")
    (some [("num_of_days", numOfDays)])

/-- Method `getPairDailyTradeVolumeByDays(pairAddress, numOfDays)`. -/
def Keeper.getPairDailyTradeVolumeByDays (web : Web) (pairAddress : String)
    (numOfDays : JsVal) : Except Err Json × List Request :=
  Keeper._fetch web ("/pair/" ++ pairAddress ++ "/analytic/pair_trade_volume")
    (some [("num_of_days", numOfDays)])

/-- Method `getPairTvlByDays(pairAddress, numOfDays)`. -/
def Keeper.getPairTvlByDays (web : Web) (pairAddress : String) (numOfDays : JsVal) :
    Except Err Json × List Request :=
  Keeper._fetch web ("/pair/" ++ pairAddress ++ "/analytic/pair_tvl")
    (some [("num_of_days", numOfDays)])

/-- Method `getPairSwapRecords(pairAddress, rowsToTake)`. -/
def Keeper.getPairSwapRecords (web : Web) (pairAddress : String) (rowsToTake : JsVal) :
    Except Err Json × List Request :=
  Keeper._fetch web ("/pair/" ++ pairAddress ++ "/analytic/swap_history")
    (some [("rows_to_take", rowsToTake)])

/-- Method `getPairPositionsLock(pairAddress)`. -/
def Keeper.getPairPositionsLock (web : Web) (pairAddress : String) :
    Except Err Json × List Request :=
  Keeper._fetch web ("/pair/" ++ pairAddress ++ "/positions_lock") none

/-- Method `getPosition(positionAddress)`. -/
def Keeper.getPosition (web : Web) (positionAddress : String) :
    Except Err Json × List Request :=
  Keeper._fetch web ("/position/" ++ positionAddress) none

/-- Method `getClaimFees(positionAddress)`. -/
def Keeper.getClaimFees (web : Web) (positionAddress : String) :
    Except Err Json × List Request :=
  Keeper._fetch web ("/position/" ++ positionAddress ++ "/claim_fees") none

/-- Method `getClaimRewards(positionAddress)`. -/
def Keeper.getClaimRewards (web : Web) (positionAddress : String) :
    Except Err Json × List Request :=
  Keeper._fetch web ("/position/" ++ positionAddress ++ "/claim_rewards") none

/-- Method `getDeposits(positionAddress)`. -/
def Keeper.getDeposits (web : Web) (positionAddress : String) :
    Except Err Json × List Request :=
  Keeper._fetch web ("/position/" ++ positionAddress ++ "/deposits") none

/-- Method `getWithdraws(positionAddress)`. -/
def Keeper.getWithdraws (web : Web) (positionAddress : String) :
    Except Err Json × List Request :=
  Keeper._fetch web ("/position/" ++ positionAddress ++ "/withdraws") none

/-- Method `getPositionV2(positionAddress)`. -/
def Keeper.getPositionV2 (web : Web) (positionAddress : String) :
    Except Err Json × List Request :=
  Keeper._fetch web ("/position_v2/" ++ positionAddress) none

/-- Method `getWalletEarning(walletAddress, pairAddress)`. -/
def Keeper.getWalletEarning (web : Web) (walletAddress pairAddress : String) :
    Except Err Json × List Request :=
  Keeper._fetch web ("/wallet/" ++ walletAddress ++ "/" ++ pairAddress ++ "/earning") none

/-- A call of the keeper client: one of the nineteen public methods with its
arguments. -/
inductive KeeperCall where
  | getProtocolMetrics
  | getAllPairs (includeUnknown : Option Bool)
  | getAllPairsByGroups (params : Option JsObj)
  | getAllPairsByGroupsMetadata (params : Option JsObj)
  | getAllPairsWithPagination (params : Option JsObj)
  | getSingleGroupPair (lexicalOrderMints : String)
  | getPair (pairAddress : String)
  | getPairFeeBpsByDays (pairAddress : String) (numOfDays : JsVal)
  | getPairDailyTradeVolumeByDays (pairAddress : String) (numOfDays : JsVal)
  | getPairTvlByDays (pairAddress : String) (numOfDays : JsVal)
  | getPairSwapRecords (pairAddress : String) (rowsToTake : JsVal)
  | getPairPositionsLock (pairAddress : String)
  | getPosition (positionAddress : String)
  | getClaimFees (positionAddress : String)
  | getClaimRewards (positionAddress : String)
  | getDeposits (positionAddress : String)
  | getWithdraws (positionAddress : String)
  | getPositionV2 (positionAddress : String)
  | getWalletEarning (walletAddress pairAddress : String)
deriving DecidableEq, Repr

/-- Performing a call: the method of that name on its arguments. -/
def KeeperCall.run (web : Web) : KeeperCall → Except Err Json × List Request
  | KeeperCall.getProtocolMetrics => Keeper.getProtocolMetrics web
  | KeeperCall.getAllPairs includeUnknown => Keeper.getAllPairs web includeUnknown
  | KeeperCall.getAllPairsByGroups params => Keeper.getAllPairsByGroups web params
  | KeeperCall.getAllPairsByGroupsMetadata params => Keeper.getAllPairsByGroupsMetadata web params
  | KeeperCall.getAllPairsWithPagination params => Keeper.getAllPairsWithPagination web params
  | KeeperCall.getSingleGroupPair mints => Keeper.getSingleGroupPair web mints
  | KeeperCall.getPair a => Keeper.getPair web a
  | KeeperCall.getPairFeeBpsByDays a n => Keeper.getPairFeeBpsByDays web a n
  | KeeperCall.getPairDailyTradeVolumeByDays a n => Keeper.getPairDailyTradeVolumeByDays web a n
  | KeeperCall.getPairTvlByDays a n => Keeper.getPairTvlByDays web a n
  | KeeperCall.getPairSwapRecords a n => Keeper.getPairSwapRecords web a n
  | KeeperCall.getPairPositionsLock a => Keeper.getPairPositionsLock web a
  | KeeperCall.getPosition a => Keeper.getPosition web a
  | KeeperCall.getClaimFees a => Keeper.getClaimFees web a
  | KeeperCall.getClaimRewards a => Keeper.getClaimRewards web a
  | KeeperCall.getDeposits a => Keeper.getDeposits web a
  | KeeperCall.getWithdraws a => Keeper.getWithdraws web a
  | KeeperCall.getPositionV2 a => Keeper.getPositionV2 web a
  | KeeperCall.getWalletEarning w a => Keeper.getWalletEarning web w a

/-- The endpoint path of a call, as documented for each method. -/
def KeeperCall.endpoint : KeeperCall → String
  | KeeperCall.getProtocolMetrics => "/info/protocol_metrics"
  | KeeperCall.getAllPairs _ => "/pair/all"
  | KeeperCall.getAllPairsByGroups _ => "/pair/all_by_groups"
  | KeeperCall.getAllPairsByGroupsMetadata _ => "/pair/all_by_groups_metadata"
  | KeeperCall.getAllPairsWithPagination _ => "/pair/all_with_pagination"
  | KeeperCall.getSingleGroupPair mints => "/pair/group_pair/" ++ mints
  | KeeperCall.getPair a => "/pair/" ++ a
  | KeeperCall.getPairFeeBpsByDays a _ => "/pair/" ++ a ++ "/analytic/pair_fee_bps"
  | KeeperCall.getPairDailyTradeVolumeByDays a _ => "/pair/" ++ a ++ "/analytic/pair_trade_volume"
  | KeeperCall.getPairTvlByDays a _ => "/pair/" ++ a ++ "/analytic/pair_tvl"
  | KeeperCall.getPairSwapRecords a _ => "/pair/" ++ a ++ "/analytic/swap_history"
  | KeeperCall.getPairPositionsLock a => "/pair/" ++ a ++ "/positions_lock"
  | KeeperCall.getPosition a => "/position/" ++ a
  | KeeperCall.getClaimFees a => "/position/" ++ a ++ "/claim_fees"
  | KeeperCall.getClaimRewards a => "/position/" ++ a ++ "/claim_rewards"
  | KeeperCall.getDeposits a => "/position/" ++ a ++ "/deposits"
  | KeeperCall.getWithdraws a => "/position/" ++ a ++ "/withdraws"
  | KeeperCall.getPositionV2 a => "/position_v2/" ++ a
  | KeeperCall.getWalletEarning w a => "/wallet/" ++ w ++ "/" ++ a ++ "/earning"

/-- The parameter mapping of a call: the object the method hands to `_fetch`,
empty when it hands none. -/
def KeeperCall.params : KeeperCall → JsObj
  | KeeperCall.getAllPairs includeUnknown =>
      [("include_unknown", JsVal.bool (includeUnknown.getD true))]
  | KeeperCall.getAllPairsByGroups params => params.getD []
  | KeeperCall.getAllPairsByGroupsMetadata params => params.getD []
  | KeeperCall.getAllPairsWithPagination params => params.getD []
  | KeeperCall.getPairFeeBpsByDays _ n => [("num_of_days", n)]
  | KeeperCall.getPairDailyTradeVolumeByDays _ n => [("num_of_days", n)]
  | KeeperCall.getPairTvlByDays _ n => [("num_of_days", n)]
  | KeeperCall.getPairSwapRecords _ n => [("rows_to_take", n)]
  | _ => []

/-- The pairs a parameter mapping contributes to the query: for each own key in
order, the key and the string of the value read under it. -/
def queryPairs (params : JsObj) : List (String × String) :=
  (params.map Prod.fst).map
    (fun key => (key, jsToString ((mapGet params key).getD JsVal.undefined)))

/-- The single request of a call on a platform that prints a `URL` with `href`. -/
def requestFor (href : Url → String) (endpoint : String) (params : JsObj) : Request :=
  { url := href { text := Keeper.BASE_URL ++ endpoint, appended := queryPairs params }
    method := "GET"
    headers := [("Content-Type", "application/json")] }

/-- Every character of the string is one the form serializer leaves as it is. -/
def FormSafe (s : String) : Prop :=
  ∀ c ∈ s.data, isFormSafe c.toNat = true

/-- A platform that prints URLs as the standard does and answers every request
the same way. -/
def standardWeb (answer : Except Err Response) : Web :=
  { href := standardHref, fetch := fun _ => answer }

/-- The response of the unit tests: success, with the body the mock resolves to. -/
def okResponse : Response :=
  { ok := true
    status := 200
    text := Except.ok "[]"
    json := Except.ok { repr := "success: true, data: [id: 1]" } }

/-- The non-success response of the unit tests: status 404, text `Not Found`. -/
def notFoundResponse : Response :=
  { ok := false
    status := 404
    text := Except.ok "Not Found"
    json := Except.error "Unexpected token N in JSON" }

/-- A service with source pool `A`, whose position listing rejects, and
destination pool `B`. -/
def emptySourceService : St :=
  { connection := { rpcUrl := "http://127.0.0.1:8899" }
    dlmmPools := [("A", faultyListingPool), ("B", sdkPool 100)]
    trace := [] }

/-- A handle without `lbPair` whose active-bin query always rejects. -/
def faultyActiveBinPool : Handle :=
  { sdkPool 100 with getActiveBin := some (fun _ => Except.error "node unreachable") }

/-- A handle without `lbPair` whose active-bin query rejects the first time it
is asked and reports bin 250 afterwards. -/
def flakyActiveBinPool : Handle :=
  { sdkPool 100 with
    getActiveBin := some (fun hist =>
      if hist.isEmpty then Except.error "node unreachable" else Except.ok { binId := 250 }) }

/-- A handle with `lbPair.activeId = 100` whose own active-bin query reports
bin 250. -/
def staleLbPairPool : Handle :=
  { sdkPool 250 with lbPair := some { activeId := some 100 } }

/-- A handle that exposes neither `getPositionsByUser` nor
`getPositionsByUserAndLbPair`. -/
def noListingPool : Handle :=
  { sdkPool 100 with getPositionsByUserAndLbPair := none }

/-- The position `getUserPositions` makes up for a handle without a listing
method (lines 141-150), for the key the constructor returned. -/
def fabricatedPosition (publicKey : PublicKey) : Position :=
  { publicKey := publicKey
    positionData := { positionBinData := [{ binId := 99 }, { binId := 100 }, { binId := 101 }] } }

/-- The guard of the HTTP handlers in `src/index.js` (lines 73-76 and 92-95):
`initializePool(poolAddress)` is called only when `dlmmPools` does not hold the
address. -/
def initializePoolIfAbsent (env : Env) (poolAddress : String) : M Unit := fun s =>
  if mapHas s.dlmmPools poolAddress then (Except.ok (), s)
  else initializePool env poolAddress s

/-! ## Running computations -/

theorem run_pure {α : Type} (a : α) (s : St) : (pure a : M α) s = (Except.ok a, s) := rfl

theorem run_bind {α β : Type} (m : M α) (f : α → M β) (s : St) :
    (m >>= f) s =
      match m s with
      | (Except.ok a, s1) => f a s1
      | (Except.error e, s1) => (Except.error e, s1) := rfl

theorem run_throwErr {α : Type} (msg : Err) (s : St) :
    (throwErr msg : M α) s = (Except.error msg, s) := rfl

theorem run_liftExcept {α : Type} (r : Except Err α) (s : St) :
    liftExcept r s = (r, s) := rfl

theorem run_getSt (s : St) : getSt s = (Except.ok s, s) := rfl

theorem run_callExternal {α : Type} (ev : Event) (f : Trace → Except Err α) (s : St) :
    callExternal ev f s = (f s.trace, { s with trace := s.trace ++ [ev] }) := rfl

theorem run_tryCatch {α : Type} (body : M α) (handler : Err → M α) (s : St) :
    tryCatch body handler s =
      match body s with
      | (Except.ok a, s1) => (Except.ok a, s1)
      | (Except.error e, s1) => handler e s1 := rfl

theorem run_checkPool_some {s : St} {p : String} {h : Handle}
    (hp : mapGet s.dlmmPools p = some h) : checkPool p s = (Except.ok h, s) := by
  simp [checkPool, hp]

theorem run_checkPool_none {s : St} {p : String} (hp : mapGet s.dlmmPools p = none) :
    checkPool p s =
      (Except.error ("Pool " ++ p ++ " not initialized. Call initializePool first."), s) := by
  simp [checkPool, hp]

/-! ## Keyed collections: lookup after store -/

theorem mapGet_mapSet_self {β : Type} (m : List (String × β)) (k : String) (v : β) :
    mapGet (mapSet m k v) k = some v := by
  induction m with
  | nil => simp [mapSet, mapGet]
  | cons kv rest ih =>
    obtain ⟨k', v'⟩ := kv
    by_cases hk : k' = k
    · simp [mapSet, mapGet, hk]
    · simp [mapSet, mapGet, hk, ih]

theorem mapGet_mapSet_other {β : Type} (m : List (String × β)) (k k' : String) (v : β)
    (hne : k ≠ k') : mapGet (mapSet m k v) k' = mapGet m k' := by
  induction m with
  | nil => simp [mapSet, mapGet, hne]
  | cons kv rest ih =>
    obtain ⟨k0, v0⟩ := kv
    by_cases hk : k0 = k
    · subst hk
      simp [mapSet, mapGet, hne]
    · simp only [mapSet, hk, if_false, mapGet, ih]

theorem mapSet_of_mapGet {β : Type} (m : List (String × β)) (k : String) (v : β)
    (hget : mapGet m k = some v) : mapSet m k v = m := by
  induction m with
  | nil => simp [mapGet] at hget
  | cons kv rest ih =>
    obtain ⟨k0, v0⟩ := kv
    by_cases hk : k0 = k
    · subst hk
      simp [mapGet] at hget
      simp [mapSet, hget]
    · simp only [mapGet, hk, if_false] at hget
      simp [mapSet, hk, ih hget]

theorem mapGet_isSome_iff_mem_keys {β : Type} (m : List (String × β)) (k : String) :
    (mapGet m k).isSome = true ↔ k ∈ m.map Prod.fst := by
  induction m with
  | nil => simp [mapGet]
  | cons kv rest ih =>
    obtain ⟨k0, v0⟩ := kv
    by_cases hk : k0 = k
    · simp [mapGet, hk]
    · have hk' : ¬ k = k0 := fun h => hk h.symm
      simp [mapGet, hk, hk', ih]

theorem mapGet_spread_fold (src : JsObj) (k : String) :
    ∀ (ks : List String) (target : JsObj),
      mapGet (ks.foldl (fun acc k' => match mapGet src k' with
        | some v => mapSet acc k' v
        | none => acc) target) k =
      if k ∈ ks ∧ (mapGet src k).isSome = true then mapGet src k else mapGet target k := by
  intro ks
  induction ks with
  | nil => intro target; simp
  | cons k0 ks ih =>
    intro target
    rw [List.foldl_cons, ih]
    by_cases hk : k0 = k
    · subst hk
      cases hsrc : mapGet src k0 with
      | none => simp
      | some v => simp [mapGet_mapSet_self]
    · have hk' : ¬ k = k0 := fun h => hk h.symm
      cases hsrc : mapGet src k0 with
      | none => simp [hk']
      | some v => simp [hk', mapGet_mapSet_other _ _ _ _ hk]

/-- Reading a key of `{ ...target, ...src }`: the value of `src` when `src` has
the key, the value of `target` otherwise. -/
theorem mapGet_spread (target src : JsObj) (k : String) :
    mapGet (spread target src) k =
      match mapGet src k with
      | some v => some v
      | none => mapGet target k := by
  unfold spread
  rw [mapGet_spread_fold]
  cases hsrc : mapGet src k with
  | none => simp
  | some v =>
    have hmem : k ∈ src.map Prod.fst := by
      rw [← mapGet_isSome_iff_mem_keys, hsrc]; rfl
    simp [hmem]

/-! ## What a computation adds to the history -/

theorem Extends.refl (P : Event → Prop) (s : St) : Extends P s s :=
  ⟨rfl, rfl, [], by simp, by simp⟩

theorem Extends.trans {P : Event → Prop} {s1 s2 s3 : St}
    (h12 : Extends P s1 s2) (h23 : Extends P s2 s3) : Extends P s1 s3 := by
  obtain ⟨hc1, hp1, t1, ht1, hP1⟩ := h12
  obtain ⟨hc2, hp2, t2, ht2, hP2⟩ := h23
  refine ⟨hc2.trans hc1, hp2.trans hp1, t1 ++ t2, ?_, ?_⟩
  · rw [ht2, ht1, List.append_assoc]
  · intro e he
    rcases List.mem_append.mp he with h | h
    · exact hP1 e h
    · exact hP2 e h

theorem Extends.mono {P Q : Event → Prop} {s s' : St} (hPQ : ∀ e, P e → Q e)
    (h : Extends P s s') : Extends Q s s' := by
  obtain ⟨hc, hp, t, ht, hP⟩ := h
  exact ⟨hc, hp, t, ht, fun e he => hPQ e (hP e he)⟩

theorem Extends.step {P : Event → Prop} (s : St) (ev : Event) (hev : P ev) :
    Extends P s { s with trace := s.trace ++ [ev] } :=
  ⟨rfl, rfl, [ev], rfl, by simpa using hev⟩

theorem Extends.of_run {α : Type} {P : Event → Prop} {m : M α}
    (hm : ∀ s, Extends P s (m s).2) {s s' : St} {r : Except Err α} (hrun : m s = (r, s')) :
    Extends P s s' := by
  have h := hm s
  rw [hrun] at h
  exact h

theorem newEvents_of_append {s s' : St} {t : Trace} (ht : s'.trace = s.trace ++ t) :
    newEvents s s' = t := by
  simp [newEvents, ht]

theorem sendAndConfirmTransaction_extends (env : Env) (tx : Tx) (signers : List Keypair)
    (s : St) : Extends Event.isSend s (sendAndConfirmTransaction env tx signers s).2 := by
  simp only [sendAndConfirmTransaction, run_bind, run_getSt, run_callExternal]
  exact Extends.step s _ trivial

theorem sendEach_extends (env : Env) (userKeypair : Keypair) :
    ∀ (txs : List Tx) (s : St), Extends Event.isSend s (sendEach env userKeypair txs s).2 := by
  intro txs
  induction txs with
  | nil => intro s; exact Extends.refl _ s
  | cons tx rest ih =>
    intro s
    have h1 := sendAndConfirmTransaction_extends env tx [userKeypair] s
    simp only [sendEach, run_bind]
    rcases hr : sendAndConfirmTransaction env tx [userKeypair] s with ⟨r, s1⟩
    rw [hr] at h1
    cases r with
    | error e => exact h1
    | ok a => exact h1.trans (ih s1)

theorem submit_extends (env : Env) (userKeypair : Keypair) (r : TxResult) (s : St) :
    Extends Event.isSend s (submit env userKeypair r s).2 := by
  cases r with
  | many txs => exact sendEach_extends env userKeypair txs s
  | single tx =>
    have h1 := sendAndConfirmTransaction_extends env tx [userKeypair] s
    simp only [submit, run_bind]
    rcases hr : sendAndConfirmTransaction env tx [userKeypair] s with ⟨r, s1⟩
    rw [hr] at h1
    cases r with
    | error e => exact h1
    | ok a => exact h1

theorem addRequests_append (t1 t2 : Trace) :
    addRequests (t1 ++ t2) = addRequests t1 ++ addRequests t2 := by
  induction t1 with
  | nil => rfl
  | cons e rest ih => cases e <;> simp [addRequests, ih]

theorem addRequests_of_isSend (t : Trace) (ht : ∀ e ∈ t, Event.isSend e) :
    addRequests t = [] := by
  induction t with
  | nil => rfl
  | cons e rest ih =>
    have he := ht e (List.mem_cons_self _ _)
    have hrest := ih (fun e' he' => ht e' (List.mem_cons_of_mem _ he'))
    cases e <;> simp_all [addRequests, Event.isSend]

/-! ## `addLiquidity`: the request that reaches the SDK -/

/-- On an initialized pool whose handle reports active bin `a` and has
`addLiquidityByStrategy`, and with convertible amounts, `addLiquidity` asks for
the active bin, sends exactly one addition request, and then only submits. -/
theorem addLiquidity_trace (env : Env) (userKeypair : Keypair) (p : String) (d : Nat)
    (options : Option AddOptions) (s : St) (h : Handle)
    (g : Trace → Except Err ActiveBin) (f : Trace → AddLiquidityRequest → Except Err TxResult)
    (a : Int) (X Y : BN)
    (hpool : mapGet s.dlmmPools p = some h)
    (hg : h.getActiveBin = some g) (ha : g s.trace = Except.ok { binId := a })
    (hf : h.addLiquidityByStrategy = some f)
    (hx : toAmount env (options.getD {}).xAmount (100 * 10 ^ d) = Except.ok X)
    (hy : toAmount env (options.getD {}).yAmount 0 = Except.ok Y) :
    ∃ t : Trace, (addLiquidity env userKeypair p d options s).2.trace =
        s.trace ++ (Event.getActiveBin p :: Event.addLiquidityByStrategy p
          { user := userKeypair.publicKey, totalXAmount := X, totalYAmount := Y,
            strategy := strategyFor a (options.getD {}) } :: t) ∧
      ∀ e ∈ t, Event.isSend e := by
  simp only [addLiquidity, run_bind, run_checkPool_some hpool, run_tryCatch, callMethod, hg,
    run_callExternal, ha, run_liftExcept, hx, hy, hf, Option.map_some', strategyFor]
  cases hres : f (s.trace ++ [Event.getActiveBin p]) _ with
  | error e =>
    refine ⟨[], ?_, by simp⟩
    simp [run_throwErr]
  | ok tx =>
    simp only []
    rcases hsub : submit env userKeypair tx _ with ⟨r, s2⟩
    have hext := Extends.of_run (submit_extends env userKeypair tx) hsub
    obtain ⟨-, -, t, ht, hsend⟩ := hext
    refine ⟨t, ?_, hsend⟩
    cases r with
    | error e => simpa [run_throwErr] using ht
    | ok u => simpa [run_pure] using ht

/-- The addition requests that `addLiquidity` adds to the history are exactly
the one request built from the active bin the handle reports. -/
theorem addLiquidity_addRequests (env : Env) (userKeypair : Keypair) (p : String) (d : Nat)
    (options : Option AddOptions) (s : St) (h : Handle)
    (g : Trace → Except Err ActiveBin) (f : Trace → AddLiquidityRequest → Except Err TxResult)
    (a : Int) (X Y : BN)
    (hpool : mapGet s.dlmmPools p = some h)
    (hg : h.getActiveBin = some g) (ha : g s.trace = Except.ok { binId := a })
    (hf : h.addLiquidityByStrategy = some f)
    (hx : toAmount env (options.getD {}).xAmount (100 * 10 ^ d) = Except.ok X)
    (hy : toAmount env (options.getD {}).yAmount 0 = Except.ok Y) :
    addRequests (newEvents s (addLiquidity env userKeypair p d options s).2) =
      [(p, { user := userKeypair.publicKey, totalXAmount := X, totalYAmount := Y,
             strategy := strategyFor a (options.getD {}) })] := by
  obtain ⟨t, ht, hsend⟩ :=
    addLiquidity_trace env userKeypair p d options s h g f a X Y hpool hg ha hf hx hy
  rw [newEvents_of_append ht]
  simp [addRequests, addRequests_of_isSend t hsend]

/-! ## Claims about `addLiquidity` -/

/-- C1: for every active bin `a` reported by the pool handle and every
`binRange` `r` (10 when omitted), when `strategyParams` has neither `minBinId`
nor `maxBinId`, the one strategy that `addLiquidity` passes to the SDK's
`addLiquidityByStrategy` has `minBinId = a - r` and `maxBinId = a + r`. -/
theorem addLiquidity_balanced_window (env : Env) (userKeypair : Keypair) (p : String) (d : Nat)
    (options : Option AddOptions) (s : St) (h : Handle)
    (g : Trace → Except Err ActiveBin) (f : Trace → AddLiquidityRequest → Except Err TxResult)
    (a : Int) (X Y : BN)
    (hpool : mapGet s.dlmmPools p = some h)
    (hg : h.getActiveBin = some g) (ha : g s.trace = Except.ok { binId := a })
    (hf : h.addLiquidityByStrategy = some f)
    (hx : toAmount env (options.getD {}).xAmount (100 * 10 ^ d) = Except.ok X)
    (hy : toAmount env (options.getD {}).yAmount 0 = Except.ok Y)
    (hmin : mapGet ((options.getD {}).strategyParams.getD []) "minBinId" = none)
    (hmax : mapGet ((options.getD {}).strategyParams.getD []) "maxBinId" = none) :
    ∃ req : AddLiquidityRequest,
      addRequests (newEvents s (addLiquidity env userKeypair p d options s).2) = [(p, req)] ∧
      mapGet req.strategy "minBinId" =
        some (JsVal.num (a - (options.getD {}).binRange.getD 10)) ∧
      mapGet req.strategy "maxBinId" =
        some (JsVal.num (a + (options.getD {}).binRange.getD 10)) := by
  refine ⟨_, addLiquidity_addRequests env userKeypair p d options s h g f a X Y
    hpool hg ha hf hx hy, ?_, ?_⟩
  · simp [strategyFor, mapGet_spread, hmin, mapGet]
  · simp [strategyFor, mapGet_spread, hmax, mapGet]

/-- Witness of C1: active bin 100 with the default range gives `[90, 110]`. -/
theorem addLiquidity_balanced_window_witness :
    ∃ req : AddLiquidityRequest,
      addRequests (newEvents (serviceWith "A" (sdkPool 100))
        (addLiquidity mockEnv mockUser "A" 6 none (serviceWith "A" (sdkPool 100))).2) =
          [("A", req)] ∧
      mapGet req.strategy "minBinId" = some (JsVal.num 90) ∧
      mapGet req.strategy "maxBinId" = some (JsVal.num 110) :=
  addLiquidity_balanced_window mockEnv mockUser "A" 6 none (serviceWith "A" (sdkPool 100))
    (sdkPool 100) (fun _ => Except.ok { binId := 100 })
    (fun _ _ => Except.ok (TxResult.single (Tx.raw "addLiquidityTx")))
    100 { val := 100000000 } { val := 0 } rfl rfl rfl rfl rfl rfl rfl rfl

/-- C3: caller-supplied `strategyParams` are merged after the computed fields.
Every key that `strategyParams` holds reaches the SDK with the caller's value,
also `minBinId` and `maxBinId`; every other key keeps the computed value
(`minBinId = a - r`, `maxBinId = a + r`, `strategyType`). -/
theorem addLiquidity_strategyParams_override (env : Env) (userKeypair : Keypair) (p : String)
    (d : Nat) (options : Option AddOptions) (s : St) (h : Handle)
    (g : Trace → Except Err ActiveBin) (f : Trace → AddLiquidityRequest → Except Err TxResult)
    (a : Int) (X Y : BN)
    (hpool : mapGet s.dlmmPools p = some h)
    (hg : h.getActiveBin = some g) (ha : g s.trace = Except.ok { binId := a })
    (hf : h.addLiquidityByStrategy = some f)
    (hx : toAmount env (options.getD {}).xAmount (100 * 10 ^ d) = Except.ok X)
    (hy : toAmount env (options.getD {}).yAmount 0 = Except.ok Y) :
    ∃ req : AddLiquidityRequest,
      addRequests (newEvents s (addLiquidity env userKeypair p d options s).2) = [(p, req)] ∧
      ∀ k : String, mapGet req.strategy k =
        match mapGet ((options.getD {}).strategyParams.getD []) k with
        | some v => some v
        | none =>
          mapGet
            [("minBinId", JsVal.num (a - (options.getD {}).binRange.getD 10)),
             ("maxBinId", JsVal.num (a + (options.getD {}).binRange.getD 10)),
             ("strategyType", JsVal.str ((options.getD {}).strategyType.getD "Spot"))] k := by
  refine ⟨_, addLiquidity_addRequests env userKeypair p d options s h g f a X Y
    hpool hg ha hf hx hy, ?_⟩
  intro k
  simp only [strategyFor, mapGet_spread]

/-- Witness of C3: on active bin 100 with `binRange = 5`, the caller's
`minBinId = 7` replaces the computed 95, `weightX` passes through, and the
computed `maxBinId = 105` stays. -/
theorem addLiquidity_strategyParams_override_witness :
    ∃ req : AddLiquidityRequest,
      addRequests (newEvents (serviceWith "A" (sdkPool 100))
        (addLiquidity mockEnv mockUser "A" 6
          (some { binRange := some 5, strategyType := some "Curve",
                  strategyParams := some [("minBinId", JsVal.num 7), ("weightX", JsVal.num 80)] })
          (serviceWith "A" (sdkPool 100))).2) = [("A", req)] ∧
      mapGet req.strategy "minBinId" = some (JsVal.num 7) ∧
      mapGet req.strategy "weightX" = some (JsVal.num 80) ∧
      mapGet req.strategy "maxBinId" = some (JsVal.num 105) ∧
      mapGet req.strategy "strategyType" = some (JsVal.str "Curve") := by
  obtain ⟨req, hreq, hk⟩ :=
    addLiquidity_strategyParams_override mockEnv mockUser "A" 6
      (some { binRange := some 5, strategyType := some "Curve",
              strategyParams := some [("minBinId", JsVal.num 7), ("weightX", JsVal.num 80)] })
      (serviceWith "A" (sdkPool 100))
      (sdkPool 100) (fun _ => Except.ok { binId := 100 })
      (fun _ _ => Except.ok (TxResult.single (Tx.raw "addLiquidityTx")))
      100 { val := 100000000 } { val := 0 } rfl rfl rfl rfl rfl rfl
  exact ⟨req, hreq, hk "minBinId", hk "weightX", hk "maxBinId", hk "strategyType"⟩

/-! ## `createOneSidedPosition` -/

theorem getActiveBin_extends (p : String) (s : St) :
    Extends Event.isActiveBinQuery s (getActiveBin p s).2 := by
  simp only [getActiveBin, run_bind]
  cases hp : mapGet s.dlmmPools p with
  | none => rw [run_checkPool_none hp]; exact Extends.refl _ s
  | some h =>
    rw [run_checkPool_some hp]
    simp only [run_tryCatch]
    cases hlb : h.lbPair.bind (fun lb => lb.activeId) with
    | some id => simp only [run_pure]; exact Extends.refl _ s
    | none =>
      cases hg : h.getActiveBin with
      | none => simp only [run_pure]; exact Extends.refl _ s
      | some g =>
        simp only [run_callExternal]
        cases g s.trace with
        | ok b => exact Extends.step s _ trivial
        | error e => simp only [run_pure]; exact Extends.step s _ trivial

theorem addRequests_of_isActiveBinQuery (t : Trace) (ht : ∀ e ∈ t, Event.isActiveBinQuery e) :
    addRequests t = [] := by
  induction t with
  | nil => rfl
  | cons e rest ih =>
    have he := ht e (List.mem_cons_self _ _)
    have hrest := ih (fun e' he' => ht e' (List.mem_cons_of_mem _ he'))
    cases e <;> simp_all [addRequests, Event.isActiveBinQuery]

/-- C2: the strategy that reaches the SDK from `createOneSidedPosition` has
window `[a - r + o, a + o]` on the X side and `[a + o, a + r + o]` on the Y
side, where `a` is the active bin `getActiveBin` returns, `r` the `binRange`
(10 when omitted) and `o` the offset (0 when omitted): the offset-0 window
shifted by `o`, of width `r` for every `o`. -/
theorem createOneSidedPosition_window (env : Env) (userKeypair : Keypair) (p : String)
    (d : Nat) (options : Option PositionOptions) (s s1 : St) (h : Handle)
    (g : Trace → Except Err ActiveBin) (f : Trace → AddLiquidityRequest → Except Err TxResult)
    (a a' : Int) (X Z : BN)
    (hpool : mapGet s.dlmmPools p = some h)
    (hactive : getActiveBin p s = (Except.ok { binId := a }, s1))
    (hg : h.getActiveBin = some g) (ha : g s1.trace = Except.ok { binId := a' })
    (hf : h.addLiquidityByStrategy = some f)
    (hx : toAmount env (options.getD {}).xAmount (100 * 10 ^ d) = Except.ok X)
    (hz : env.newBN 0 = Except.ok Z) :
    ∃ (req : AddLiquidityRequest) (lo hi : Int),
      addRequests (newEvents s (createOneSidedPosition env userKeypair p d options s).2) =
        [(p, req)] ∧
      mapGet req.strategy "minBinId" = some (JsVal.num lo) ∧
      mapGet req.strategy "maxBinId" = some (JsVal.num hi) ∧
      lo = (if (options.getD {}).isXSide.getD true
              then a - (options.getD {}).binRange.getD 10 else a) +
            (options.getD {}).offset.getD 0 ∧
      hi = (if (options.getD {}).isXSide.getD true
              then a else a + (options.getD {}).binRange.getD 10) +
            (options.getD {}).offset.getD 0 ∧
      hi - lo = (options.getD {}).binRange.getD 10 := by
  have hext1 := Extends.of_run (getActiveBin_extends p) hactive
  obtain ⟨-, hpools1, t1, ht1, hq1⟩ := hext1
  have hpool1 : mapGet s1.dlmmPools p = some h := by rw [hpools1]; exact hpool
  generalize hopts : (some
      { xAmount := (options.getD {}).xAmount
        yAmount := some (Amount.bn Z)
        strategyType := some "Spot"
        strategyParams := some
          [("minBinId", JsVal.num (if (options.getD {}).isXSide.getD true
              then a - (options.getD {}).binRange.getD 10 + (options.getD {}).offset.getD 0
              else a + (options.getD {}).offset.getD 0)),
           ("maxBinId", JsVal.num (if (options.getD {}).isXSide.getD true
              then a + (options.getD {}).offset.getD 0
              else a + (options.getD {}).binRange.getD 10 + (options.getD {}).offset.getD 0))] } :
      Option AddOptions) = addOpts
  have hadd := addLiquidity_trace env userKeypair p d addOpts s1 h g f a' X Z hpool1 hg ha hf
    (by rw [← hopts]; exact hx) (by rw [← hopts]; rfl)
  obtain ⟨t2, ht2, hsend⟩ := hadd
  have hrun : (createOneSidedPosition env userKeypair p d options s).2.trace =
      (addLiquidity env userKeypair p d addOpts s1).2.trace := by
    simp only [createOneSidedPosition, run_tryCatch, run_bind, hactive, run_liftExcept, hz,
      hopts]
    rcases addLiquidity env userKeypair p d addOpts s1 with ⟨r, s2⟩
    cases r <;> simp [run_throwErr]
  refine ⟨{ user := userKeypair.publicKey, totalXAmount := X, totalYAmount := Z,
              strategy := strategyFor a' (addOpts.getD {}) },
    (if (options.getD {}).isXSide.getD true
      then a - (options.getD {}).binRange.getD 10 else a) + (options.getD {}).offset.getD 0,
    (if (options.getD {}).isXSide.getD true
      then a else a + (options.getD {}).binRange.getD 10) + (options.getD {}).offset.getD 0,
    ?_, ?_, ?_, rfl, rfl, ?_⟩
  · have hfull : (createOneSidedPosition env userKeypair p d options s).2.trace =
        s.trace ++ (t1 ++ (Event.getActiveBin p :: Event.addLiquidityByStrategy p
          { user := userKeypair.publicKey, totalXAmount := X, totalYAmount := Z,
            strategy := strategyFor a' (addOpts.getD {}) } :: t2)) := by
      rw [hrun, ht2, ht1, List.append_assoc]
    rw [newEvents_of_append hfull, addRequests_append,
      addRequests_of_isActiveBinQuery t1 hq1]
    simp [addRequests, addRequests_of_isSend t2 hsend]
  · rw [← hopts]
    simp only [strategyFor, mapGet_spread, Option.getD_some, mapGet, if_true]
    cases (options.getD {}).isXSide.getD true <;> simp
  · rw [← hopts]
    simp only [strategyFor, mapGet_spread, Option.getD_some, mapGet]
    cases (options.getD {}).isXSide.getD true <;> simp
  · cases (options.getD {}).isXSide.getD true <;> simp

/-- Witness of C2: active bin 100, `binRange = 5`, offset 0, `isXSide = true`
gives the one-sided window `[95, 100]`. -/
theorem createOneSidedPosition_window_witness :
    ∃ (req : AddLiquidityRequest) (lo hi : Int),
      addRequests (newEvents (serviceWith "A" (sdkPool 100))
        (createOneSidedPosition mockEnv mockUser "A" 6
          (some { binRange := some 5, isXSide := some true, offset := some 0 })
          (serviceWith "A" (sdkPool 100))).2) = [("A", req)] ∧
      mapGet req.strategy "minBinId" = some (JsVal.num lo) ∧
      mapGet req.strategy "maxBinId" = some (JsVal.num hi) ∧
      lo = 95 ∧ hi = 100 ∧ hi - lo = 5 :=
  createOneSidedPosition_window mockEnv mockUser "A" 6
    (some { binRange := some 5, isXSide := some true, offset := some 0 })
    (serviceWith "A" (sdkPool 100))
    { serviceWith "A" (sdkPool 100) with trace := [Event.getActiveBin "A"] }
    (sdkPool 100) (fun _ => Except.ok { binId := 100 })
    (fun _ _ => Except.ok (TxResult.single (Tx.raw "addLiquidityTx")))
    100 100 { val := 100000000 } { val := 0 } rfl rfl rfl rfl rfl rfl rfl

/-! ## Position listing and the empty case -/

theorem getUserPositions_extends (env : Env) (p : String) (user : PublicKey) (s : St) :
    Extends Event.isListing s (getUserPositions env p user s).2 := by
  simp only [getUserPositions, run_bind]
  cases hp : mapGet s.dlmmPools p with
  | none => rw [run_checkPool_none hp]; exact Extends.refl _ s
  | some h =>
    rw [run_checkPool_some hp]
    simp only [run_tryCatch]
    cases h.getPositionsByUser with
    | some f =>
      simp only [run_callExternal]
      cases f s.trace user with
      | ok l => exact Extends.step s _ trivial
      | error e => simp only [run_pure]; exact Extends.step s _ trivial
    | none =>
      cases h.getPositionsByUserAndLbPair with
      | some f =>
        simp only [run_bind, run_callExternal]
        cases f s.trace user with
        | ok r =>
          cases r with
          | wrapped l => simp only [run_pure]; exact Extends.step s _ trivial
          | unreadable => simp only [run_throwErr, run_pure]; exact Extends.step s _ trivial
        | error e => simp only [run_pure]; exact Extends.step s _ trivial
      | none =>
        simp only [run_bind, run_liftExcept]
        cases env.newPublicKey "11111111111111111111111111111111" with
        | ok k => simp only [run_pure]; exact Extends.refl _ s
        | error e => simp only [run_pure]; exact Extends.refl _ s

theorem getUserPositions_initialized {env : Env} {p : String} {user : PublicKey} {s : St}
    {l : List Position} (hl : (getUserPositions env p user s).1 = Except.ok l) :
    ∃ h, mapGet s.dlmmPools p = some h := by
  cases hp : mapGet s.dlmmPools p with
  | some h => exact ⟨h, rfl⟩
  | none => simp [getUserPositions, run_bind, run_checkPool_none hp] at hl

theorem isWrite_of_isListing (e : Event) (he : Event.isListing e) : e.isWrite = false := by
  cases e <;> simp_all [Event.isListing, Event.isWrite]

/-- C4: when the user owns zero positions in an initialized pool (the position
listing yields the empty list) and no target positions are given, each of
`removeLiquidity`, `claimSwapFees` and `closePositions` returns `null` and does
nothing beyond that one listing: no request for a transaction reaches the SDK
and no transaction is submitted. -/
theorem no_positions_returns_null (env : Env) (userKeypair : Keypair) (p : String)
    (options : Option RemoveOptions) (s : St)
    (hempty : (getUserPositions env p userKeypair.publicKey s).1 = Except.ok [])
    (hall : (options.getD {}).specificPositions = none) :
    (∃ h, mapGet s.dlmmPools p = some h) ∧
    removeLiquidity env userKeypair p options s =
      (Except.ok none, (getUserPositions env p userKeypair.publicKey s).2) ∧
    claimSwapFees env userKeypair p none s =
      (Except.ok none, (getUserPositions env p userKeypair.publicKey s).2) ∧
    closePositions env userKeypair p none s =
      (Except.ok none, (getUserPositions env p userKeypair.publicKey s).2) ∧
    ∀ e ∈ newEvents s (getUserPositions env p userKeypair.publicKey s).2,
      Event.isListing e ∧ e.isWrite = false := by
  obtain ⟨h, hp⟩ := getUserPositions_initialized hempty
  have hext := getUserPositions_extends env p userKeypair.publicKey s
  rcases hrun : getUserPositions env p userKeypair.publicKey s with ⟨r, s1⟩
  rw [hrun] at hempty hext
  simp only at hempty
  subst hempty
  refine ⟨⟨h, hp⟩, ?_, ?_, ?_, ?_⟩
  · simp [removeLiquidity, run_bind, run_checkPool_some hp, run_tryCatch, hall, hrun, run_pure]
  · simp [claimSwapFees, run_bind, run_checkPool_some hp, run_tryCatch, hrun, run_pure]
  · simp [closePositions, run_bind, run_checkPool_some hp, run_tryCatch, hrun, run_pure]
  · obtain ⟨-, -, t, ht, hlist⟩ := hext
    rw [newEvents_of_append ht]
    intro e he
    exact ⟨hlist e he, isWrite_of_isListing e (hlist e he)⟩

/-- Witness of C4: the handle stored by `initializePool` lists no positions, so
the three operations return `null` after one listing. -/
theorem no_positions_returns_null_witness :
    removeLiquidity mockEnv mockUser "A" none initializedService =
      (Except.ok none, (getUserPositions mockEnv "A" mockUser.publicKey initializedService).2) ∧
    newEvents initializedService
      (getUserPositions mockEnv "A" mockUser.publicKey initializedService).2 =
      [Event.getPositionsByUserAndLbPair "A" mockUser.publicKey] :=
  ⟨(no_positions_returns_null mockEnv mockUser "A" none initializedService rfl rfl).2.1, rfl⟩

/-! ## `removeLiquidity`: the shape of every removal request -/

theorem removalRequestOk_of_isSend (env : Env) (userKeypair : Keypair) (p : String)
    (connection : Connection) (pools : List (String × Handle)) (base : Trace) (bps : Int)
    (flag : Bool) (e : Event) (he : Event.isSend e) :
    RemovalRequestOk env userKeypair p connection pools base bps flag e := by
  cases e <;> simp_all [Event.isSend, RemovalRequestOk]

theorem removalRequestOk_of_isListing (env : Env) (userKeypair : Keypair) (p : String)
    (connection : Connection) (pools : List (String × Handle)) (base : Trace) (bps : Int)
    (flag : Bool) (e : Event) (he : Event.isListing e) :
    RemovalRequestOk env userKeypair p connection pools base bps flag e := by
  cases e <;> simp_all [Event.isListing, RemovalRequestOk]

theorem removalRequestOk_rebase (env : Env) (userKeypair : Keypair) (p : String)
    {connection connection' : Connection} {pools pools' : List (String × Handle)}
    {base base' : Trace} (bps : Int) (flag : Bool)
    (hc : connection' = connection) (hp : pools' = pools) (hb : base <+: base') (e : Event)
    (he : RemovalRequestOk env userKeypair p connection' pools' base' bps flag e) :
    RemovalRequestOk env userKeypair p connection pools base bps flag e := by
  subst hc hp
  cases e with
  | removeLiquidity q req =>
    obtain ⟨h1, h2, h3, h4, hist, l, position, hpre, hrest⟩ := he
    exact ⟨h1, h2, h3, h4, hist, l, position, hb.trans hpre, hrest⟩
  | _ => exact he

theorem addRequests_of_removalRequestOk (env : Env) (userKeypair : Keypair) (p : String)
    (connection : Connection) (pools : List (String × Handle)) (base : Trace) (bps : Int)
    (flag : Bool) (t : Trace)
    (ht : ∀ e ∈ t, RemovalRequestOk env userKeypair p connection pools base bps flag e) :
    addRequests t = [] := by
  induction t with
  | nil => rfl
  | cons e rest ih =>
    have he := ht e (List.mem_cons_self _ _)
    have hrest := ih (fun e' he' => ht e' (List.mem_cons_of_mem _ he'))
    cases e <;> simp_all [addRequests, RemovalRequestOk]

theorem Extends.trace_grows {P : Event → Prop} {s s' : St} (h : Extends P s s') :
    s.trace <+: s'.trace := by
  obtain ⟨-, -, t, ht, -⟩ := h
  exact ⟨t, ht.symm⟩

theorem removeLoop_extends (env : Env) (userKeypair : Keypair) (p : String) (dlmmPool : Handle)
    (bps : Int) (flag : Bool) :
    ∀ (targets : List PublicKey) (s : St),
      Extends (RemovalRequestOk env userKeypair p s.connection s.dlmmPools s.trace bps flag) s
        (removeLoop env userKeypair p dlmmPool bps flag targets s).2 := by
  intro targets
  induction targets with
  | nil => intro s; exact Extends.refl _ s
  | cons target rest ih =>
    intro s
    -- what a later state contributes, seen from `s`
    have later : ∀ s1 : St, Extends Event.isListing s s1 ∨ Extends
          (RemovalRequestOk env userKeypair p s.connection s.dlmmPools s.trace bps flag) s s1 →
        Extends (RemovalRequestOk env userKeypair p s.connection s.dlmmPools s.trace bps flag) s
          (removeLoop env userKeypair p dlmmPool bps flag rest s1).2 := by
      intro s1 h1
      have h1' : Extends
          (RemovalRequestOk env userKeypair p s.connection s.dlmmPools s.trace bps flag) s s1 := by
        rcases h1 with h | h
        · exact h.mono (removalRequestOk_of_isListing env userKeypair p _ _ _ bps flag)
        · exact h
      exact h1'.trans ((ih s1).mono
        (removalRequestOk_rebase env userKeypair p bps flag h1'.1 h1'.2.1 h1'.trace_grows))
    have hlist := getUserPositions_extends env p userKeypair.publicKey s
    simp only [removeLoop, run_bind]
    rcases hrun : getUserPositions env p userKeypair.publicKey s with ⟨r, s1⟩
    rw [hrun] at hlist
    have hlist' := hlist.mono (removalRequestOk_of_isListing env userKeypair p
      s.connection s.dlmmPools s.trace bps flag)
    cases r with
    | error e => exact hlist'
    | ok l =>
      simp only []
      cases hfind : l.find? (fun x => x.publicKey.str == target.str) with
      | none => exact later s1 (Or.inl hlist)
      | some position =>
        simp only [run_bind, run_liftExcept]
        cases hbn : env.newBN bps with
        | error e => exact hlist'
        | ok b =>
          simp only [callMethod]
          cases hm : dlmmPool.removeLiquidity with
          | none => simp only [Option.map_none', run_throwErr]; exact hlist'
          | some f =>
            simp only [Option.map_some', run_callExternal]
            have hstep : Extends
                (RemovalRequestOk env userKeypair p s.connection s.dlmmPools s.trace bps flag) s1
                { s1 with trace := s1.trace ++ [Event.removeLiquidity p
                  { position := target, user := userKeypair.publicKey
                    binIds := position.positionData.positionBinData.map (fun bin => bin.binId)
                    liquiditiesBpsToRemove := List.replicate
                      (position.positionData.positionBinData.map (fun bin => bin.binId)).length b
                    shouldClaimAndClose := flag }] } := by
              refine Extends.step s1 _ ?_
              refine ⟨rfl, rfl, rfl, ⟨b, hbn, rfl⟩, s.trace, l, position,
                List.prefix_refl _, ?_, hfind, rfl⟩
              show (getUserPositions env p userKeypair.publicKey s).1 = Except.ok l
              rw [hrun]
            have h2 := hlist'.trans hstep
            cases f s1.trace _ with
            | error e => exact h2
            | ok tx =>
              simp only []
              rcases hsub : submit env userKeypair tx _ with ⟨r3, s3⟩
              have h3 := (Extends.of_run (submit_extends env userKeypair tx) hsub).mono
                (removalRequestOk_of_isSend env userKeypair p
                  s.connection s.dlmmPools s.trace bps flag)
              cases r3 with
              | error e => exact h2.trans h3
              | ok u => exact later s3 (Or.inr (h2.trans h3))

theorem removeLiquidity_extends (env : Env) (userKeypair : Keypair) (p : String)
    (options : Option RemoveOptions) (s : St) :
    Extends (RemovalRequestOk env userKeypair p s.connection s.dlmmPools s.trace
        ((options.getD {}).bpsToRemove.getD 10000)
        ((options.getD {}).shouldClaimAndClose.getD true)) s
      (removeLiquidity env userKeypair p options s).2 := by
  simp only [removeLiquidity, run_bind]
  cases hp : mapGet s.dlmmPools p with
  | none => rw [run_checkPool_none hp]; exact Extends.refl _ s
  | some h =>
    rw [run_checkPool_some hp]
    simp only [run_tryCatch, run_bind]
    cases hspec : (options.getD {}).specificPositions with
    | some targets =>
      by_cases hlen : targets.length = 0
      · simp only [run_bind, run_pure, hlen, if_true]; exact Extends.refl _ s
      · simp only [run_bind, run_pure, hlen, if_false]
        have hloop := removeLoop_extends env userKeypair p h
          ((options.getD {}).bpsToRemove.getD 10000)
          ((options.getD {}).shouldClaimAndClose.getD true) targets s
        rcases hl : removeLoop env userKeypair p h _ _ targets s with ⟨r, s1⟩
        rw [hl] at hloop
        cases r with
        | error e => simpa [run_throwErr] using hloop
        | ok u => simpa [run_pure] using hloop
    | none =>
      have hlist := getUserPositions_extends env p userKeypair.publicKey s
      rcases hrun : getUserPositions env p userKeypair.publicKey s with ⟨r, s1⟩
      rw [hrun] at hlist
      have hlist' := hlist.mono (removalRequestOk_of_isListing env userKeypair p
        s.connection s.dlmmPools s.trace ((options.getD {}).bpsToRemove.getD 10000)
        ((options.getD {}).shouldClaimAndClose.getD true))
      simp only [run_bind, hrun]
      cases r with
      | error e => simpa [run_throwErr] using hlist'
      | ok l =>
        by_cases hlen : (l.map (fun position => position.publicKey)).length = 0
        · simp only [run_bind, run_pure, hlen, if_true]; exact hlist'
        · simp only [run_bind, run_pure, hlen, if_false]
          have hloop := (removeLoop_extends env userKeypair p h
            ((options.getD {}).bpsToRemove.getD 10000)
            ((options.getD {}).shouldClaimAndClose.getD true)
            (l.map (fun position => position.publicKey)) s1).mono
            (removalRequestOk_rebase env userKeypair p _ _ hlist'.1 hlist'.2.1
              hlist'.trace_grows)
          have hall := hlist'.trans hloop
          rcases hl : removeLoop env userKeypair p h _ _ _ s1 with ⟨r2, s2⟩
          rw [hl] at hall
          cases r2 with
          | error e => simpa [run_throwErr] using hall
          | ok u => simpa [run_pure] using hall

/-- C5: every removal request that `removeLiquidity` sends to the SDK is for the
given pool and user, has `binIds` equal to the bin identifiers, in stored
order, of the position found for the target in a listing made during the call,
has `liquiditiesBpsToRemove` of the same length as `binIds` with every element
the `BN` of `bpsToRemove` (10000 when omitted), and has `shouldClaimAndClose`
as given (true when omitted). -/
theorem removeLiquidity_request_shape (env : Env) (userKeypair : Keypair) (p : String)
    (options : Option RemoveOptions) (s : St) (q : String) (req : RemoveLiquidityRequest)
    (hreq : Event.removeLiquidity q req ∈
      newEvents s (removeLiquidity env userKeypair p options s).2) :
    q = p ∧ req.user = userKeypair.publicKey ∧
    req.shouldClaimAndClose = (options.getD {}).shouldClaimAndClose.getD true ∧
    req.liquiditiesBpsToRemove.length = req.binIds.length ∧
    (∃ bps : BN, env.newBN ((options.getD {}).bpsToRemove.getD 10000) = Except.ok bps ∧
      ∀ b ∈ req.liquiditiesBpsToRemove, b = bps) ∧
    ∃ (hist : Trace) (l : List Position) (position : Position),
      s.trace <+: hist ∧
      (getUserPositions env p userKeypair.publicKey { s with trace := hist }).1 = Except.ok l ∧
      l.find? (fun x => x.publicKey.str == req.position.str) = some position ∧
      req.binIds = position.positionData.positionBinData.map (fun bin => bin.binId) := by
  obtain ⟨-, -, t, ht, hok⟩ := removeLiquidity_extends env userKeypair p options s
  rw [newEvents_of_append ht] at hreq
  obtain ⟨h1, h2, h3, ⟨bps, hbps, hrep⟩, hpos⟩ := hok _ hreq
  refine ⟨h1, h2, h3, ?_, ⟨bps, hbps, ?_⟩, hpos⟩
  · rw [hrep, List.length_replicate]
  · intro b hb
    rw [hrep] at hb
    exact List.eq_of_mem_replicate hb

/-- Witness of C5: the position of the unit tests, bins `[99, 100, 101]`, is
removed with `[10000, 10000, 10000]` and `shouldClaimAndClose = true`. -/
theorem removeLiquidity_request_shape_witness :
    Event.removeLiquidity "A"
        { position := { str := "position1" }, user := mockUser.publicKey
          binIds := [99, 100, 101]
          liquiditiesBpsToRemove := [{ val := 10000 }, { val := 10000 }, { val := 10000 }]
          shouldClaimAndClose := true } ∈
      newEvents (serviceWith "A" (sdkPool 100))
        (removeLiquidity mockEnv mockUser "A" none (serviceWith "A" (sdkPool 100))).2 ∧
    ∃ bps : BN, mockEnv.newBN 10000 = Except.ok bps ∧
      ∀ b ∈ ([{ val := 10000 }, { val := 10000 }, { val := 10000 }] : List BN), b = bps :=
  ⟨by decide,
   (removeLiquidity_request_shape mockEnv mockUser "A" none (serviceWith "A" (sdkPool 100)) "A"
      { position := { str := "position1" }, user := mockUser.publicKey
        binIds := [99, 100, 101]
        liquiditiesBpsToRemove := [{ val := 10000 }, { val := 10000 }, { val := 10000 }]
        shouldClaimAndClose := true } (by decide)).2.2.2.2.1⟩

/-! ## `moveFunds`: removal first, addition after -/

theorem additionEventOk_of_isSend (p : String) (e : Event) (he : Event.isSend e) :
    AdditionEventOk p e := by
  cases e <;> simp_all [Event.isSend, AdditionEventOk]

theorem addLiquidity_extends (env : Env) (userKeypair : Keypair) (p : String) (d : Nat)
    (options : Option AddOptions) (s : St) :
    Extends (AdditionEventOk p) s (addLiquidity env userKeypair p d options s).2 := by
  simp only [addLiquidity, run_bind]
  cases hp : mapGet s.dlmmPools p with
  | none => rw [run_checkPool_none hp]; exact Extends.refl _ s
  | some h =>
    rw [run_checkPool_some hp]
    simp only [run_tryCatch, run_bind, callMethod]
    cases hg : h.getActiveBin with
    | none => simp only [run_throwErr]; exact Extends.refl _ s
    | some g =>
      simp only [run_callExternal]
      have h1 : Extends (AdditionEventOk p) s
          { s with trace := s.trace ++ [Event.getActiveBin p] } :=
        Extends.step s _ rfl
      cases g s.trace with
      | error e => simp only [run_throwErr]; exact h1
      | ok activeBin =>
        simp only [run_liftExcept]
        cases toAmount env (options.getD {}).xAmount (100 * 10 ^ d) with
        | error e => simp only [run_throwErr]; exact h1
        | ok X =>
          simp only []
          cases toAmount env (options.getD {}).yAmount 0 with
          | error e => simp only [run_throwErr]; exact h1
          | ok Y =>
            simp only []
            cases hf : h.addLiquidityByStrategy with
            | none => simp only [Option.map_none', run_throwErr]; exact h1
            | some f =>
              simp only [Option.map_some', run_callExternal]
              have h2 := h1.trans (Extends.step (P := AdditionEventOk p)
                { s with trace := s.trace ++ [Event.getActiveBin p] }
                (Event.addLiquidityByStrategy p
                  { user := userKeypair.publicKey, totalXAmount := X, totalYAmount := Y,
                    strategy := strategyFor activeBin.binId (options.getD {}) }) rfl)
              simp only [strategyFor] at h2
              cases f (s.trace ++ [Event.getActiveBin p]) _ with
              | error e => simp only [run_throwErr]; exact h2
              | ok tx =>
                simp only []
                rcases hsub : submit env userKeypair tx _ with ⟨r3, s3⟩
                have h3 := (Extends.of_run (submit_extends env userKeypair tx) hsub).mono
                  (additionEventOk_of_isSend p)
                cases r3 with
                | error e => simp only [run_throwErr]; exact h2.trans h3
                | ok u => simp only [run_pure]; exact h2.trans h3

/-- C6: `moveFunds(user, A, B, decimals, options)` runs
`removeLiquidity(user, A, removeOptions)` and, only when that run has completed
without a fault, runs `addLiquidity(user, B, decimals, addOptions)` from the
state the removal left; both option objects are `{}` when not supplied.  The
history of the call is the removal's events, which hold no addition request,
followed by the addition's events, which are queries of the active bin of `B`,
addition requests to `B` and submissions.  When the removal faults `moveFunds`
stops there with the wrapped fault: no addition request is issued. -/
theorem moveFunds_sequencing (env : Env) (userKeypair : Keypair) (A B : String) (d : Nat)
    (options : Option MoveOptions) (s : St) :
    moveFunds env userKeypair A B d none s =
      moveFunds env userKeypair A B d (some { removeOptions := some {}, addOptions := some {} })
        s ∧
    (∀ (e : Err) (s1 : St),
      removeLiquidity env userKeypair A (some ((options.getD {}).removeOptions.getD {})) s =
        (Except.error e, s1) →
      moveFunds env userKeypair A B d options s =
        (Except.error ("Failed to move funds: " ++ e), s1) ∧
      addRequests (newEvents s s1) = []) ∧
    (∀ (r : Option String) (s1 : St),
      removeLiquidity env userKeypair A (some ((options.getD {}).removeOptions.getD {})) s =
        (Except.ok r, s1) →
      (moveFunds env userKeypair A B d options s).2 =
        (addLiquidity env userKeypair B d (some ((options.getD {}).addOptions.getD {})) s1).2 ∧
      (moveFunds env userKeypair A B d options s).1 =
        (match (addLiquidity env userKeypair B d
            (some ((options.getD {}).addOptions.getD {})) s1).1 with
          | Except.ok result => Except.ok
              { success := true
                message := "Successfully moved funds from " ++ A ++ " to " ++ B
                result := result }
          | Except.error e => Except.error ("Failed to move funds: " ++ e)) ∧
      ∃ removalEvents additionEvents : Trace,
        s1.trace = s.trace ++ removalEvents ∧
        addRequests removalEvents = [] ∧
        (moveFunds env userKeypair A B d options s).2.trace = s1.trace ++ additionEvents ∧
        (∀ ev ∈ additionEvents, AdditionEventOk B ev) ∧
        newEvents s (moveFunds env userKeypair A B d options s).2 =
          removalEvents ++ additionEvents) := by
  refine ⟨rfl, ?_, ?_⟩
  · intro e s1 hrem
    have hext := removeLiquidity_extends env userKeypair A
      (some ((options.getD {}).removeOptions.getD {})) s
    rw [hrem] at hext
    obtain ⟨-, -, t, ht, hok⟩ := hext
    refine ⟨?_, ?_⟩
    · simp only [moveFunds, run_tryCatch, run_bind, hrem, run_throwErr]
    · rw [newEvents_of_append ht]
      exact addRequests_of_removalRequestOk _ _ _ _ _ _ _ _ t hok
  · intro r s1 hrem
    have hext := removeLiquidity_extends env userKeypair A
      (some ((options.getD {}).removeOptions.getD {})) s
    rw [hrem] at hext
    obtain ⟨-, -, t, ht, hok⟩ := hext
    have hstate : (moveFunds env userKeypair A B d options s).2 =
        (addLiquidity env userKeypair B d (some ((options.getD {}).addOptions.getD {})) s1).2 := by
      simp only [moveFunds, run_tryCatch, run_bind, hrem]
      rcases addLiquidity env userKeypair B d _ s1 with ⟨r2, s2⟩
      cases r2 <;> simp [run_pure, run_throwErr]
    obtain ⟨-, -, t2, ht2, hok2⟩ := addLiquidity_extends env userKeypair B d
      (some ((options.getD {}).addOptions.getD {})) s1
    refine ⟨hstate, ?_, t, t2, ht, addRequests_of_removalRequestOk _ _ _ _ _ _ _ _ t hok,
      ?_, hok2, ?_⟩
    · simp only [moveFunds, run_tryCatch, run_bind, hrem]
      rcases addLiquidity env userKeypair B d _ s1 with ⟨r2, s2⟩
      cases r2 <;> simp [run_pure, run_throwErr]
    · rw [hstate, ht2]
    · apply newEvents_of_append
      rw [hstate, ht2, ht, List.append_assoc]

/-- Witness of C6: when the SDK rejects the removal request on `A`, `moveFunds`
fails with the wrapped fault and nothing is requested from `B`. -/
theorem moveFunds_sequencing_witness :
    moveFunds mockEnv mockUser "A" "B" 6 none faultyRemovalService =
      (Except.error ("Failed to move funds: " ++ "Failed to remove liquidity: rejected"),
        (removeLiquidity mockEnv mockUser "A" (some {}) faultyRemovalService).2) ∧
    addRequests (newEvents faultyRemovalService
      (removeLiquidity mockEnv mockUser "A" (some {}) faultyRemovalService).2) = [] :=
  (moveFunds_sequencing mockEnv mockUser "A" "B" 6 none faultyRemovalService).2.1
    "Failed to remove liquidity: rejected"
    (removeLiquidity mockEnv mockUser "A" (some {}) faultyRemovalService).2 rfl

/-! ## The pool map: `initializePool` and `checkPool` -/

/-- What one `initializePool` call does: it stores the handle it builds under
the address, or fails with the wrapped fault and changes nothing. -/
theorem run_initializePool (env : Env) (p : String) (s : St) :
    initializePool env p s =
      match poolFor env s.connection p with
      | Except.ok h => (Except.ok (), { s with dlmmPools := mapSet s.dlmmPools p h })
      | Except.error e => (Except.error ("Failed to initialize DLMM pool: " ++ e), s) := by
  simp only [initializePool, run_tryCatch, run_bind, run_liftExcept, run_getSt, poolFor,
    modifyPools]
  cases env.newPublicKey p with
  | error e => simp [run_throwErr]
  | ok k =>
    simp only []
    cases env.newPublicKey "6p6xgHyF7AeE6TZkSmFsko444wqoP15icUSqi2jfGiPN" with
    | error e => simp [run_throwErr]
    | ok kx =>
      simp only []
      cases env.newPublicKey "EPjFWdd5AufqSSqeM2qN1xzybapC8G4wEGGkZwyTDt1v" with
      | error e => simp [run_throwErr]
      | ok ky => simp

theorem poolsFromInit_newService (env : Env) (rpcUrl : String) :
    PoolsFromInit env (newService rpcUrl) := by
  intro k h hk
  simp [newService, mapGet] at hk

theorem poolsFromInit_initializePool {env : Env} {s : St} (hs : PoolsFromInit env s)
    (p : String) : PoolsFromInit env (initializePool env p s).2 := by
  rw [run_initializePool]
  cases hfor : poolFor env s.connection p with
  | error e => exact hs
  | ok h =>
    intro k h' hk
    by_cases hkp : p = k
    · subst hkp
      simp only [mapGet_mapSet_self] at hk
      cases hk
      exact hfor
    · simp only [mapGet_mapSet_other _ _ _ _ hkp] at hk
      exact hs k h' hk

/-- After a sequence of `initializePool` calls the map holds a key exactly when
it held it before or a call for that very string completed; the connection is
unchanged, the history is unchanged, and the map still holds only what
`initializePool` stores. -/
theorem runInits_spec (env : Env) :
    ∀ (ps : List String) (s : St),
      (runInits env ps s).1.connection = s.connection ∧
      (runInits env ps s).1.trace = s.trace ∧
      (PoolsFromInit env s → PoolsFromInit env (runInits env ps s).1) ∧
      ∀ p : String, (mapGet (runInits env ps s).1.dlmmPools p).isSome = true ↔
        ((mapGet s.dlmmPools p).isSome = true ∨ p ∈ (runInits env ps s).2) := by
  intro ps
  induction ps with
  | nil => intro s; simp [runInits]
  | cons q rest ih =>
    intro s
    have hinv := fun hs : PoolsFromInit env s => poolsFromInit_initializePool hs q
    rw [run_initializePool] at hinv
    simp only [runInits, run_initializePool]
    cases hfor : poolFor env s.connection q with
    | error e =>
      simp only []
      exact ih s
    | ok h =>
      rw [hfor] at hinv
      simp only []
      obtain ⟨hc, ht, hpools, hkeys⟩ := ih { s with dlmmPools := mapSet s.dlmmPools q h }
      refine ⟨hc, ht, fun hs => hpools (hinv hs), ?_⟩
      intro p
      rw [hkeys p]
      by_cases hqp : q = p
      · subst hqp
        simp [mapGet_mapSet_self]
      · have hpq : ¬ p = q := fun h' => hqp h'.symm
        simp [mapGet_mapSet_other _ _ _ _ hqp, hpq]

theorem containsText_not_initialized (p : String) :
    containsText ("Pool " ++ p ++ " not initialized. Call initializePool first.")
      "not initialized" := by
  refine ⟨"Pool ".data ++ p.data ++ [' '], ". Call initializePool first.".data, ?_⟩
  simp only [String.data_append, List.append_assoc, List.singleton_append, List.cons_append,
    List.nil_append]

/-- C7: on a service whose pool map results from a sequence of `initializePool`
calls, `checkPool(p)` returns the handle stored under `p` when a call
`initializePool(p)` with that very string completed, and otherwise throws
`Pool p not initialized. Call initializePool first.`, a message containing
`not initialized`; and whenever `initializePool(p)` completes, the pool map
holds the key `p`. -/
theorem checkPool_iff_initialized (env : Env) (rpcUrl : String) (ps : List String) (p : String)
    (s : St) (hs : s.dlmmPools = (runInits env ps (newService rpcUrl)).1.dlmmPools) :
    (p ∈ (runInits env ps (newService rpcUrl)).2 →
      ∃ h : Handle, mapGet s.dlmmPools p = some h ∧ checkPool p s = (Except.ok h, s)) ∧
    (p ∉ (runInits env ps (newService rpcUrl)).2 →
      checkPool p s =
        (Except.error ("Pool " ++ p ++ " not initialized. Call initializePool first."), s) ∧
      containsText ("Pool " ++ p ++ " not initialized. Call initializePool first.")
        "not initialized") ∧
    (∀ s0 s1 : St, initializePool env p s0 = (Except.ok (), s1) →
      mapHas s1.dlmmPools p = true) := by
  have hkeys := (runInits_spec env ps (newService rpcUrl)).2.2.2 p
  rw [← hs] at hkeys
  have hempty : (mapGet (newService rpcUrl).dlmmPools p).isSome = false := by
    simp [newService, mapGet]
  rw [hempty] at hkeys
  refine ⟨?_, ?_, ?_⟩
  · intro hmem
    have hsome : (mapGet s.dlmmPools p).isSome = true := hkeys.mpr (Or.inr hmem)
    obtain ⟨h, hh⟩ := Option.isSome_iff_exists.mp hsome
    exact ⟨h, hh, run_checkPool_some hh⟩
  · intro hnot
    have hnone : mapGet s.dlmmPools p = none := by
      cases hget : mapGet s.dlmmPools p with
      | none => rfl
      | some h =>
        have : p ∈ (runInits env ps (newService rpcUrl)).2 := by
          rcases hkeys.mp (by simp [hget]) with h' | h'
          · simp at h'
          · exact h'
        exact absurd this hnot
    exact ⟨run_checkPool_none hnone, containsText_not_initialized p⟩
  · intro s0 s1 hrun
    rw [run_initializePool] at hrun
    cases hfor : poolFor env s0.connection p with
    | error e => rw [hfor] at hrun; simp at hrun
    | ok h =>
      rw [hfor] at hrun
      simp only [Prod.mk.injEq, true_and] at hrun
      subst hrun
      simp [mapHas, mapGet_mapSet_self]

/-- Witness of C7: after `initializePool("Abc")`, `checkPool("Abc")` returns the
stored handle and `checkPool("abc")` throws: the key is the string as given. -/
theorem checkPool_iff_initialized_witness :
    (∃ h : Handle, mapGet (runInits mockEnv ["Abc"] (newService "u")).1.dlmmPools "Abc" = some h ∧
      checkPool "Abc" (runInits mockEnv ["Abc"] (newService "u")).1 =
        (Except.ok h, (runInits mockEnv ["Abc"] (newService "u")).1)) ∧
    checkPool "abc" (runInits mockEnv ["Abc"] (newService "u")).1 =
      (Except.error ("Pool " ++ "abc" ++ " not initialized. Call initializePool first."),
        (runInits mockEnv ["Abc"] (newService "u")).1) :=
  ⟨(checkPool_iff_initialized mockEnv "u" ["Abc"] "Abc"
      (runInits mockEnv ["Abc"] (newService "u")).1 rfl).1 (by decide),
   ((checkPool_iff_initialized mockEnv "u" ["Abc"] "abc"
      (runInits mockEnv ["Abc"] (newService "u")).1 rfl).2.1 (by decide)).1⟩

/-- C8: on a pool address the map does not hold, each of `getActiveBin`,
`getUserPositions`, `removeLiquidity`, `addLiquidity`, `claimSwapFees`,
`closePositions` and `swap` throws `Pool p not initialized. Call initializePool
first.` and leaves the service exactly as it was: the pool map is not touched
(no lazy initialization) and the history gets no event (no SDK call, no
submission). -/
theorem uninitialized_pool_fails_fast (env : Env) (userKeypair : Keypair) (p : String) (s : St)
    (user : PublicKey) (removeOptions : Option RemoveOptions) (d : Nat)
    (addOptions : Option AddOptions) (claimTargets : Option (List Position))
    (closeTargets : Option (List PublicKey)) (amount : Amount) (isXtoY : Bool)
    (slippageBps : Option Int)
    (hnone : mapGet s.dlmmPools p = none) :
    containsText ("Pool " ++ p ++ " not initialized. Call initializePool first.")
      "not initialized" ∧
    getActiveBin p s =
      (Except.error ("Pool " ++ p ++ " not initialized. Call initializePool first."), s) ∧
    getUserPositions env p user s =
      (Except.error ("Pool " ++ p ++ " not initialized. Call initializePool first."), s) ∧
    removeLiquidity env userKeypair p removeOptions s =
      (Except.error ("Pool " ++ p ++ " not initialized. Call initializePool first."), s) ∧
    addLiquidity env userKeypair p d addOptions s =
      (Except.error ("Pool " ++ p ++ " not initialized. Call initializePool first."), s) ∧
    claimSwapFees env userKeypair p claimTargets s =
      (Except.error ("Pool " ++ p ++ " not initialized. Call initializePool first."), s) ∧
    closePositions env userKeypair p closeTargets s =
      (Except.error ("Pool " ++ p ++ " not initialized. Call initializePool first."), s) ∧
    swap env userKeypair p amount isXtoY slippageBps s =
      (Except.error ("Pool " ++ p ++ " not initialized. Call initializePool first."), s) := by
  refine ⟨containsText_not_initialized p, ?_, ?_, ?_, ?_, ?_, ?_, ?_⟩
  · simp only [getActiveBin, run_bind, run_checkPool_none hnone]
  · simp only [getUserPositions, run_bind, run_checkPool_none hnone]
  · simp only [removeLiquidity, run_bind, run_checkPool_none hnone]
  · simp only [addLiquidity, run_bind, run_checkPool_none hnone]
  · simp only [claimSwapFees, run_bind, run_checkPool_none hnone]
  · simp only [closePositions, run_bind, run_checkPool_none hnone]
  · simp only [swap, run_bind, run_checkPool_none hnone]

/-- Witness of C8: on a fresh service, `getActiveBin` and `swap` on an address
never initialized throw the `not initialized` error and leave the service
untouched. -/
theorem uninitialized_pool_fails_fast_witness :
    getActiveBin "nonexistent" (newService "u") =
      (Except.error ("Pool " ++ "nonexistent" ++ " not initialized. Call initializePool first."),
        newService "u") ∧
    swap mockEnv mockUser "nonexistent" (Amount.num 1000000) true none (newService "u") =
      (Except.error ("Pool " ++ "nonexistent" ++ " not initialized. Call initializePool first."),
        newService "u") :=
  ⟨(uninitialized_pool_fails_fast mockEnv mockUser "nonexistent" (newService "u")
      mockUser.publicKey none 6 none none none (Amount.num 1000000) true none rfl).2.1,
   (uninitialized_pool_fails_fast mockEnv mockUser "nonexistent" (newService "u")
      mockUser.publicKey none 6 none none none (Amount.num 1000000) true none rfl).2.2.2.2.2.2.2⟩

/-! ## `initializePool` and the SDK -/

/-- C9 (the code as it is): `initializePool` never asks the SDK for a handle.
For every address it leaves the history as it was, so no `DLMM.create` and no
other SDK call is made; and on the pool it stores, `getActiveBin` answers
`{ binId: 100 }` from the stored `lbPair.activeId` without calling a handle
method.  Evaluated on the address of the unit tests. -/
theorem initializePool_builds_local_mock :
    (∀ (env : Env) (p : String) (s : St), (initializePool env p s).2.trace = s.trace) ∧
    (initializePool mockEnv "9d9mb8kooFfaD3SctgZtkxQypkshx6ezhbKio89ixyy2"
      (newService "http://127.0.0.1:8899")).1 = Except.ok () ∧
    (initializePool mockEnv "9d9mb8kooFfaD3SctgZtkxQypkshx6ezhbKio89ixyy2"
      (newService "http://127.0.0.1:8899")).2.trace = [] ∧
    (getActiveBin "9d9mb8kooFfaD3SctgZtkxQypkshx6ezhbKio89ixyy2"
      (initializePool mockEnv "9d9mb8kooFfaD3SctgZtkxQypkshx6ezhbKio89ixyy2"
        (newService "http://127.0.0.1:8899")).2).1 = Except.ok { binId := 100 } ∧
    (getActiveBin "9d9mb8kooFfaD3SctgZtkxQypkshx6ezhbKio89ixyy2"
      (initializePool mockEnv "9d9mb8kooFfaD3SctgZtkxQypkshx6ezhbKio89ixyy2"
        (newService "http://127.0.0.1:8899")).2).2.trace = [] := by
  refine ⟨?_, rfl, rfl, rfl, rfl⟩
  intro env p s
  rw [run_initializePool]
  cases poolFor env s.connection p <;> rfl

/-- C10 as stated fails: with a handle reporting active bin 250 stored under
`A`, `initializePool("A")` completes and replaces it by the handle it builds;
afterwards the active bin of `A` is 100 and the stored `lbPair` has changed. -/
theorem initializePool_replaces_stored_handle :
    mapHas (serviceWith "A" (sdkPool 250)).dlmmPools "A" = true ∧
    (getActiveBin "A" (serviceWith "A" (sdkPool 250))).1 = Except.ok { binId := 250 } ∧
    (initializePool mockEnv "A" (serviceWith "A" (sdkPool 250))).1 = Except.ok () ∧
    (getActiveBin "A" (initializePool mockEnv "A" (serviceWith "A" (sdkPool 250))).2).1 =
      Except.ok { binId := 100 } ∧
    (mapGet (serviceWith "A" (sdkPool 250)).dlmmPools "A").map (fun h => h.lbPair) =
      some none ∧
    (mapGet (initializePool mockEnv "A" (serviceWith "A" (sdkPool 250))).2.dlmmPools "A").map
      (fun h => h.lbPair) = some (some { activeId := some 100 }) :=
  ⟨rfl, rfl, rfl, rfl, rfl, rfl⟩

/-- C10 (amended): `initializePool(p)` has no presence check.  Whenever the
handle can be built, the call completes and stores the newly built handle under
`p`, in place of whatever was stored there; the handle under every other key
stays, and nothing is requested from outside.  The call leaves the service as
it was exactly when the handle stored under `p` already is the one it builds,
which is the case on a pool map that only `initializePool` has filled.  It is
the guard of the HTTP handlers, which calls `initializePool` only for an
address the map does not hold, that does nothing for a known address. -/
theorem initializePool_overwrites (env : Env) (p : String) (s : St) (h : Handle)
    (hbuild : poolFor env s.connection p = Except.ok h) :
    initializePool env p s = (Except.ok (), { s with dlmmPools := mapSet s.dlmmPools p h }) ∧
    mapGet (initializePool env p s).2.dlmmPools p = some h ∧
    (∀ q : String, q ≠ p →
      mapGet (initializePool env p s).2.dlmmPools q = mapGet s.dlmmPools q) ∧
    (initializePool env p s).2.trace = s.trace ∧
    ((initializePool env p s).2 = s ↔ mapGet s.dlmmPools p = some h) ∧
    (PoolsFromInit env s → mapHas s.dlmmPools p = true →
      initializePool env p s = (Except.ok (), s)) ∧
    (mapHas s.dlmmPools p = true → initializePoolIfAbsent env p s = (Except.ok (), s)) := by
  have hrun : initializePool env p s =
      (Except.ok (), { s with dlmmPools := mapSet s.dlmmPools p h }) := by
    rw [run_initializePool, hbuild]
  have hnoop : mapGet s.dlmmPools p = some h → initializePool env p s = (Except.ok (), s) := by
    intro hget
    rw [hrun, mapSet_of_mapGet _ _ _ hget]
  refine ⟨hrun, ?_, ?_, ?_, ⟨?_, ?_⟩, ?_, ?_⟩
  · rw [hrun]
    exact mapGet_mapSet_self _ _ _
  · intro q hq
    rw [hrun]
    exact mapGet_mapSet_other _ _ _ _ (fun hpq => hq hpq.symm)
  · rw [hrun]
  · intro hsame
    have hget : mapGet (initializePool env p s).2.dlmmPools p = some h := by
      rw [hrun]
      exact mapGet_mapSet_self _ _ _
    rw [hsame] at hget
    exact hget
  · intro hget
    rw [hnoop hget]
  · intro hfrom hp
    obtain ⟨h', hh'⟩ := Option.isSome_iff_exists.mp hp
    have hfor := hfrom p h' hh'
    rw [hbuild] at hfor
    have heq : h = h' := by
      simpa using hfor
    subst heq
    exact hnoop hh'
  · intro hp
    simp only [initializePoolIfAbsent, hp, if_true]

/-- Witness of C10: after `initializePool("A")` a second `initializePool("A")`
stores the same handle again; on a map that holds another handle under `A` the
stored handle is replaced; the guarded call leaves that handle in place. -/
theorem initializePool_overwrites_witness :
    initializePool mockEnv "A" initializedService = (Except.ok (), initializedService) ∧
    (mapGet (initializePool mockEnv "A" (serviceWith "A" (sdkPool 250))).2.dlmmPools "A").map
      (fun h => h.lbPair) = some (some { activeId := some 100 }) ∧
    initializePoolIfAbsent mockEnv "A" (serviceWith "A" (sdkPool 250)) =
      (Except.ok (), serviceWith "A" (sdkPool 250)) :=
  ⟨(initializePool_overwrites mockEnv "A" initializedService
      (mockPool mockEnv { rpcUrl := "http://127.0.0.1:8899" } { str := "A" }
        { str := "6p6xgHyF7AeE6TZkSmFsko444wqoP15icUSqi2jfGiPN" }
        { str := "EPjFWdd5AufqSSqeM2qN1xzybapC8G4wEGGkZwyTDt1v" }) rfl).2.2.2.2.2.1
      (fun k h hk => by
        have hk' : (if "A" = k then some (mockPool mockEnv { rpcUrl := "http://127.0.0.1:8899" }
            { str := "A" } { str := "6p6xgHyF7AeE6TZkSmFsko444wqoP15icUSqi2jfGiPN" }
            { str := "EPjFWdd5AufqSSqeM2qN1xzybapC8G4wEGGkZwyTDt1v" }) else none) = some h := hk
        by_cases hA : "A" = k
        · subst hA
          rw [if_pos rfl] at hk'
          rw [← Option.some.inj hk']
          rfl
        · rw [if_neg hA] at hk'
          exact absurd hk' (by simp))
      rfl,
   congrArg (Option.map (fun h => h.lbPair))
     (initializePool_overwrites mockEnv "A" (serviceWith "A" (sdkPool 250))
      (mockPool mockEnv { rpcUrl := "http://127.0.0.1:8899" } { str := "A" }
        { str := "6p6xgHyF7AeE6TZkSmFsko444wqoP15icUSqi2jfGiPN" }
        { str := "EPjFWdd5AufqSSqeM2qN1xzybapC8G4wEGGkZwyTDt1v" }) rfl).2.1,
   (initializePool_overwrites mockEnv "A" (serviceWith "A" (sdkPool 250))
      (mockPool mockEnv { rpcUrl := "http://127.0.0.1:8899" } { str := "A" }
        { str := "6p6xgHyF7AeE6TZkSmFsko444wqoP15icUSqi2jfGiPN" }
        { str := "EPjFWdd5AufqSSqeM2qN1xzybapC8G4wEGGkZwyTDt1v" }) rfl).2.2.2.2.2.2 rfl⟩

/-! ## `getUserPositions`: one list from two shapes, and no fault -/

/-- C11: on an initialized pool, when the handle has `getPositionsByUser` the
result of `getUserPositions` is exactly the list that method returns for the
given user key; otherwise, when it has `getPositionsByUserAndLbPair`, the
result is exactly the `userPositions` of that method's result for the given
user key.  The list is returned as it is (same elements, same order), and the
one call made is recorded with the user key it was given. -/
theorem getUserPositions_normalizes (env : Env) (p : String) (user : PublicKey) (s : St)
    (h : Handle) (hpool : mapGet s.dlmmPools p = some h) :
    (∀ (f : Trace → PublicKey → Except Err (List Position)) (l : List Position),
      h.getPositionsByUser = some f → f s.trace user = Except.ok l →
      getUserPositions env p user s =
        (Except.ok l, { s with trace := s.trace ++ [Event.getPositionsByUser p user] })) ∧
    (∀ (f : Trace → PublicKey → Except Err PositionsResult) (l : List Position),
      h.getPositionsByUser = none → h.getPositionsByUserAndLbPair = some f →
      f s.trace user = Except.ok (PositionsResult.wrapped l) →
      getUserPositions env p user s =
        (Except.ok l,
          { s with trace := s.trace ++ [Event.getPositionsByUserAndLbPair p user] })) := by
  refine ⟨?_, ?_⟩
  · intro f l hf hl
    simp only [getUserPositions, run_bind, run_checkPool_some hpool, run_tryCatch, hf,
      run_callExternal, hl]
  · intro f l hnone hf hl
    simp only [getUserPositions, run_bind, run_checkPool_some hpool, run_tryCatch, hnone, hf,
      run_callExternal, hl, run_pure]

/-- Witness of C11: the handle of the unit tests wraps its one position in
`{ userPositions }`, and a handle with `getPositionsByUser` returns two
positions directly; both lists come back unchanged. -/
theorem getUserPositions_normalizes_witness :
    (getUserPositions mockEnv "A" mockUser.publicKey (serviceWith "A" (sdkPool 100)) =
      (Except.ok [{ publicKey := { str := "position1" }
                    positionData := { positionBinData :=
                      [{ binId := 99 }, { binId := 100 }, { binId := 101 }] } }],
        { serviceWith "A" (sdkPool 100) with
          trace := [] ++ [Event.getPositionsByUserAndLbPair "A" mockUser.publicKey] })) ∧
    (getUserPositions mockEnv "A" mockUser.publicKey
        (serviceWith "A" (directListingPool twoPositions)) =
      (Except.ok twoPositions,
        { serviceWith "A" (directListingPool twoPositions) with
          trace := [] ++ [Event.getPositionsByUser "A" mockUser.publicKey] })) :=
  ⟨(getUserPositions_normalizes mockEnv "A" mockUser.publicKey (serviceWith "A" (sdkPool 100))
      (sdkPool 100) rfl).2 _ _ rfl rfl rfl,
   (getUserPositions_normalizes mockEnv "A" mockUser.publicKey
      (serviceWith "A" (directListingPool twoPositions)) (directListingPool twoPositions)
      rfl).1 _ _ rfl rfl⟩

/-- C12: on an initialized pool `getUserPositions` never throws.  When the
listing method of the handle rejects, or `getPositionsByUserAndLbPair` resolves
to a value from which `userPositions` cannot be read, the result is the empty
list and the state is the one after that call: the same outcome as when the
listing resolves to an empty list. -/
theorem getUserPositions_swallows_faults (env : Env) (p : String) (user : PublicKey) (s : St)
    (h : Handle) (hpool : mapGet s.dlmmPools p = some h) :
    (∃ l : List Position, (getUserPositions env p user s).1 = Except.ok l) ∧
    (∀ (f : Trace → PublicKey → Except Err (List Position)),
      h.getPositionsByUser = some f →
      (∃ e, f s.trace user = Except.error e) ∨ f s.trace user = Except.ok [] →
      getUserPositions env p user s =
        (Except.ok [], { s with trace := s.trace ++ [Event.getPositionsByUser p user] })) ∧
    (∀ (f : Trace → PublicKey → Except Err PositionsResult),
      h.getPositionsByUser = none → h.getPositionsByUserAndLbPair = some f →
      (∃ e, f s.trace user = Except.error e) ∨
        f s.trace user = Except.ok PositionsResult.unreadable ∨
        f s.trace user = Except.ok (PositionsResult.wrapped []) →
      getUserPositions env p user s =
        (Except.ok [],
          { s with trace := s.trace ++ [Event.getPositionsByUserAndLbPair p user] })) := by
  refine ⟨?_, ?_, ?_⟩
  · simp only [getUserPositions, run_bind, run_checkPool_some hpool, run_tryCatch]
    cases h.getPositionsByUser with
    | some f =>
      simp only [run_callExternal]
      cases f s.trace user with
      | ok l => exact ⟨l, rfl⟩
      | error e => exact ⟨[], rfl⟩
    | none =>
      cases h.getPositionsByUserAndLbPair with
      | some f =>
        simp only [run_bind, run_callExternal]
        cases f s.trace user with
        | ok r =>
          cases r with
          | wrapped l => exact ⟨l, rfl⟩
          | unreadable => exact ⟨[], rfl⟩
        | error e => exact ⟨[], rfl⟩
      | none =>
        simp only [run_bind, run_liftExcept]
        cases env.newPublicKey "11111111111111111111111111111111" with
        | ok k => exact ⟨_, rfl⟩
        | error e => exact ⟨[], rfl⟩
  · intro f hf hres
    simp only [getUserPositions, run_bind, run_checkPool_some hpool, run_tryCatch, hf,
      run_callExternal]
    rcases hres with ⟨e, he⟩ | he
    · simp only [he, run_pure]
    · simp only [he]
  · intro f hnone hf hres
    simp only [getUserPositions, run_bind, run_checkPool_some hpool, run_tryCatch, hnone, hf,
      run_callExternal]
    rcases hres with ⟨e, he⟩ | he | he
    · simp only [he, run_pure]
    · simp only [he, run_throwErr, run_pure]
    · simp only [he, run_pure]

/-- Witness of C12: a listing that rejects with `node unreachable` yields the
empty list. -/
theorem getUserPositions_swallows_faults_witness :
    getUserPositions mockEnv "A" mockUser.publicKey (serviceWith "A" faultyListingPool) =
      (Except.ok [],
        { serviceWith "A" faultyListingPool with
          trace := [] ++ [Event.getPositionsByUserAndLbPair "A" mockUser.publicKey] }) :=
  (getUserPositions_swallows_faults mockEnv "A" mockUser.publicKey
    (serviceWith "A" faultyListingPool) faultyListingPool rfl).2.2 _ rfl rfl
    (Or.inl ⟨"node unreachable", rfl⟩)

/-! ## `removeLiquidity`: the batch, one target after the other -/

/-- The loop over `pre ++ post` is the loop over `pre` followed, when that
completed, by the loop over `post` from the state it left. -/
theorem removeLoop_append (env : Env) (userKeypair : Keypair) (p : String) (dlmmPool : Handle)
    (bps : Int) (flag : Bool) (post : List PublicKey) :
    ∀ (pre : List PublicKey) (s : St),
      removeLoop env userKeypair p dlmmPool bps flag (pre ++ post) s =
        match removeLoop env userKeypair p dlmmPool bps flag pre s with
        | (Except.ok _, s1) => removeLoop env userKeypair p dlmmPool bps flag post s1
        | (Except.error e, s1) => (Except.error e, s1) := by
  intro pre
  induction pre with
  | nil => intro s; simp only [List.nil_append, removeLoop, run_pure]
  | cons t rest ih =>
    intro s
    simp only [List.cons_append, removeLoop, run_bind]
    rcases getUserPositions env p userKeypair.publicKey s with ⟨r, s1⟩
    cases r with
    | error e => rfl
    | ok l =>
      simp only []
      cases l.find? (fun x => x.publicKey.str == t.str) with
      | none => exact ih s1
      | some position =>
        simp only [run_bind, run_liftExcept]
        cases env.newBN bps with
        | error e => rfl
        | ok b =>
          simp only [callMethod]
          cases dlmmPool.removeLiquidity with
          | none => simp only [Option.map_none', run_throwErr]
          | some f =>
            simp only [Option.map_some', run_callExternal]
            cases f s1.trace _ with
            | error e => rfl
            | ok tx =>
              simp only []
              rcases submit env userKeypair tx _ with ⟨r3, s3⟩
              cases r3 with
              | error e => rfl
              | ok u => exact ih s3

/-- On an initialized pool `removeLiquidity` resolves its targets, returns
`null` when there are none, and otherwise runs the loop over them, wrapping a
fault. -/
theorem run_removeLiquidity (env : Env) (userKeypair : Keypair) (p : String)
    (options : Option RemoveOptions) (s : St) (h : Handle)
    (hpool : mapGet s.dlmmPools p = some h) :
    removeLiquidity env userKeypair p options s =
      match resolveTargets env userKeypair p (options.getD {}) s with
      | (Except.error e, s0) => (Except.error ("Failed to remove liquidity: " ++ e), s0)
      | (Except.ok targets, s0) =>
        if targets.length = 0 then (Except.ok none, s0)
        else
          match removeLoop env userKeypair p h ((options.getD {}).bpsToRemove.getD 10000)
              ((options.getD {}).shouldClaimAndClose.getD true) targets s0 with
          | (Except.ok _, s1) => (Except.ok (some "Successfully removed liquidity"), s1)
          | (Except.error e, s1) => (Except.error ("Failed to remove liquidity: " ++ e), s1) := by
  simp only [removeLiquidity, run_bind, run_checkPool_some hpool, run_tryCatch, resolveTargets]
  cases hspec : (options.getD {}).specificPositions with
  | some targets =>
    simp only [run_bind, run_pure]
    by_cases hlen : targets.length = 0
    · simp only [hlen, if_true, run_pure]
    · simp only [hlen, if_false, run_bind]
      rcases removeLoop env userKeypair p h _ _ targets s with ⟨r, s1⟩
      cases r <;> simp [run_pure, run_throwErr]
  | none =>
    simp only [run_bind]
    rcases getUserPositions env p userKeypair.publicKey s with ⟨r, s0⟩
    cases r with
    | error e => simp [run_throwErr]
    | ok l =>
      simp only [run_pure]
      by_cases hlen : (l.map (fun position => position.publicKey)).length = 0
      · simp only [hlen, if_true, run_pure]
      · simp only [hlen, if_false, run_bind]
        rcases removeLoop env userKeypair p h _ _ _ s0 with ⟨r, s1⟩
        cases r <;> simp [run_pure, run_throwErr]

/-- One turn of the loop on a target that the fresh listing does not hold: the
loop goes on with the next targets from the state the listing left. -/
theorem removeLoop_cons_skip (env : Env) (userKeypair : Keypair) (p : String)
    (dlmmPool : Handle) (bps : Int) (flag : Bool) (target : PublicKey) (rest : List PublicKey)
    (s s1 : St) (l : List Position)
    (hlist : getUserPositions env p userKeypair.publicKey s = (Except.ok l, s1))
    (hfind : l.find? (fun x => x.publicKey.str == target.str) = none) :
    removeLoop env userKeypair p dlmmPool bps flag (target :: rest) s =
      removeLoop env userKeypair p dlmmPool bps flag rest s1 := by
  simp only [removeLoop, run_bind, hlist, hfind]

/-- One turn of the loop on a target that the fresh listing holds: the request
is built and sent to the SDK; a rejected request ends the loop, an accepted one
is submitted, and only after a completed submission the loop goes on. -/
theorem removeLoop_cons_found (env : Env) (userKeypair : Keypair) (p : String)
    (dlmmPool : Handle) (bps : Int) (flag : Bool) (target : PublicKey) (rest : List PublicKey)
    (s s1 : St) (l : List Position) (position : Position) (b : BN)
    (f : Trace → RemoveLiquidityRequest → Except Err TxResult)
    (hlist : getUserPositions env p userKeypair.publicKey s = (Except.ok l, s1))
    (hfind : l.find? (fun x => x.publicKey.str == target.str) = some position)
    (hbn : env.newBN bps = Except.ok b)
    (hm : dlmmPool.removeLiquidity = some f) :
    removeLoop env userKeypair p dlmmPool bps flag (target :: rest) s =
      match f s1.trace
          { position := target, user := userKeypair.publicKey,
            binIds := position.positionData.positionBinData.map (fun bin => bin.binId),
            liquiditiesBpsToRemove := List.replicate
              (position.positionData.positionBinData.map (fun bin => bin.binId)).length b,
            shouldClaimAndClose := flag } with
      | Except.error e =>
        (Except.error e, { s1 with trace := s1.trace ++ [Event.removeLiquidity p
          { position := target, user := userKeypair.publicKey,
            binIds := position.positionData.positionBinData.map (fun bin => bin.binId),
            liquiditiesBpsToRemove := List.replicate
              (position.positionData.positionBinData.map (fun bin => bin.binId)).length b,
            shouldClaimAndClose := flag }] })
      | Except.ok txr =>
        match submit env userKeypair txr { s1 with trace := s1.trace ++ [Event.removeLiquidity p
          { position := target, user := userKeypair.publicKey,
            binIds := position.positionData.positionBinData.map (fun bin => bin.binId),
            liquiditiesBpsToRemove := List.replicate
              (position.positionData.positionBinData.map (fun bin => bin.binId)).length b,
            shouldClaimAndClose := flag }] } with
        | (Except.ok _, s3) => removeLoop env userKeypair p dlmmPool bps flag rest s3
        | (Except.error e, s3) => (Except.error e, s3) := by
  simp only [removeLoop, run_bind, hlist, hfind, run_liftExcept, hbn, callMethod, hm,
    Option.map_some', run_callExternal]
  cases f s1.trace _ with
  | error e => rfl
  | ok txr =>
    simp only []
    rcases submit env userKeypair txr _ with ⟨r3, s3⟩
    cases r3 <;> rfl

/-- How a run of `sendEach` ends: either every transaction was submitted, in
order, or the submissions stop at the first one that `sendAndConfirmTransaction`
rejects, after the ones before it were confirmed. -/
theorem sendEach_outcome (env : Env) (userKeypair : Keypair) :
    ∀ (txs : List Tx) (s s' : St) (r : Except Err Unit),
      sendEach env userKeypair txs s = (r, s') →
      s'.connection = s.connection ∧ s'.dlmmPools = s.dlmmPools ∧
      ((r = Except.ok () ∧ s'.trace = s.trace ++ sendEvents userKeypair txs) ∨
       ∃ (e : Err) (done : List Tx) (tx : Tx) (remaining : List Tx),
         r = Except.error e ∧ txs = done ++ tx :: remaining ∧
         s'.trace = s.trace ++ sendEvents userKeypair (done ++ [tx]) ∧
         env.sendAndConfirm (s.trace ++ sendEvents userKeypair done) s.connection tx
           [userKeypair] = Except.error e) := by
  intro txs
  induction txs with
  | nil =>
    intro s s' r hrun
    simp only [sendEach, run_pure, Prod.mk.injEq] at hrun
    obtain ⟨hr, hs⟩ := hrun
    subst hr hs
    exact ⟨rfl, rfl, Or.inl ⟨rfl, by simp [sendEvents]⟩⟩
  | cons tx rest ih =>
    intro s s' r hrun
    simp only [sendEach, run_bind, sendAndConfirmTransaction, run_getSt, run_callExternal] at hrun
    cases hsend : env.sendAndConfirm s.trace s.connection tx [userKeypair] with
    | error e =>
      rw [hsend] at hrun
      simp only [Prod.mk.injEq] at hrun
      obtain ⟨hr, hs⟩ := hrun
      subst hr hs
      refine ⟨rfl, rfl, Or.inr ⟨e, [], tx, rest, rfl, rfl, by simp [sendEvents], ?_⟩⟩
      simpa [sendEvents] using hsend
    | ok hash =>
      rw [hsend] at hrun
      simp only [] at hrun
      obtain ⟨hc, hp, hcases⟩ := ih _ s' r hrun
      refine ⟨hc, hp, ?_⟩
      rcases hcases with ⟨hr, ht⟩ | ⟨e, done, tx', remaining, hr, htxs, ht, hfault⟩
      · exact Or.inl ⟨hr, by simpa [sendEvents] using ht⟩
      · refine Or.inr ⟨e, tx :: done, tx', remaining, hr, by simp [htxs], ?_, ?_⟩
        · simpa [sendEvents] using ht
        · simpa [sendEvents] using hfault

/-- How a submission of a builder's result ends: all its transactions were
submitted in the order the SDK returned them, or the submissions stop at the
first rejected one. -/
theorem submit_outcome (env : Env) (userKeypair : Keypair) (txr : TxResult) (s s' : St)
    (r : Except Err Unit) (hrun : submit env userKeypair txr s = (r, s')) :
    s'.connection = s.connection ∧ s'.dlmmPools = s.dlmmPools ∧
    ((r = Except.ok () ∧ s'.trace = s.trace ++ sendEvents userKeypair (txsOf txr)) ∨
     ∃ (e : Err) (done : List Tx) (tx : Tx) (remaining : List Tx),
       r = Except.error e ∧ txsOf txr = done ++ tx :: remaining ∧
       s'.trace = s.trace ++ sendEvents userKeypair (done ++ [tx]) ∧
       env.sendAndConfirm (s.trace ++ sendEvents userKeypair done) s.connection tx
         [userKeypair] = Except.error e) := by
  cases txr with
  | many txs => exact sendEach_outcome env userKeypair txs s s' r hrun
  | single tx =>
    apply sendEach_outcome env userKeypair [tx] s s' r
    rw [← hrun]
    simp only [sendEach, submit, run_bind, run_pure]

theorem sentTxs_append (t1 t2 : Trace) : sentTxs (t1 ++ t2) = sentTxs t1 ++ sentTxs t2 := by
  induction t1 with
  | nil => rfl
  | cons e rest ih => cases e <;> simp [sentTxs, ih]

theorem sentTxs_sendEvents (userKeypair : Keypair) (txs : List Tx) :
    sentTxs (sendEvents userKeypair txs) = txs := by
  induction txs with
  | nil => rfl
  | cons tx rest ih =>
    simp only [sendEvents, List.map_cons, sentTxs] at ih ⊢
    rw [ih]

theorem sentTxs_of_isListing (t : Trace) (ht : ∀ e ∈ t, Event.isListing e) : sentTxs t = [] := by
  induction t with
  | nil => rfl
  | cons e rest ih =>
    have he := ht e (List.mem_cons_self _ _)
    have hrest := ih (fun e' he' => ht e' (List.mem_cons_of_mem _ he'))
    cases e <;> simp_all [sentTxs, Event.isListing]

/-- Once the loop over the targets before `target` has completed,
`removeLiquidity` is the loop over `target` and the later targets, run from the
state reached, with a fault wrapped. -/
theorem removeLiquidity_resume (env : Env) (userKeypair : Keypair) (p : String)
    (options : Option RemoveOptions) (s s0 s1 : St) (h : Handle)
    (pre : List PublicKey) (target : PublicKey) (post : List PublicKey)
    (hpool : mapGet s.dlmmPools p = some h)
    (hres : resolveTargets env userKeypair p (options.getD {}) s =
      (Except.ok (pre ++ target :: post), s0))
    (hpre : removeLoop env userKeypair p h ((options.getD {}).bpsToRemove.getD 10000)
      ((options.getD {}).shouldClaimAndClose.getD true) pre s0 = (Except.ok (), s1)) :
    removeLiquidity env userKeypair p options s =
      match removeLoop env userKeypair p h ((options.getD {}).bpsToRemove.getD 10000)
          ((options.getD {}).shouldClaimAndClose.getD true) (target :: post) s1 with
      | (Except.ok _, s2) => (Except.ok (some "Successfully removed liquidity"), s2)
      | (Except.error e, s2) => (Except.error ("Failed to remove liquidity: " ++ e), s2) := by
  rw [run_removeLiquidity env userKeypair p options s h hpool, hres]
  have hlen : ¬ (pre ++ target :: post).length = 0 := by simp
  simp only [hlen, if_false]
  rw [removeLoop_append, hpre]

/-- Every turn of the loop starts with a fresh listing of the user's positions:
the history of the loop over `target :: rest` extends the history the listing
leaves. -/
theorem removeLoop_cons_starts_with_listing (env : Env) (userKeypair : Keypair) (p : String)
    (dlmmPool : Handle) (bps : Int) (flag : Bool) (target : PublicKey) (rest : List PublicKey)
    (s : St) :
    (getUserPositions env p userKeypair.publicKey s).2.trace <+:
      (removeLoop env userKeypair p dlmmPool bps flag (target :: rest) s).2.trace := by
  have later : ∀ s1 : St, s1.trace <+:
      (removeLoop env userKeypair p dlmmPool bps flag rest s1).2.trace :=
    fun s1 => (removeLoop_extends env userKeypair p dlmmPool bps flag rest s1).trace_grows
  simp only [removeLoop, run_bind]
  rcases getUserPositions env p userKeypair.publicKey s with ⟨r, s1⟩
  cases r with
  | error e => exact List.prefix_refl _
  | ok l =>
    simp only []
    cases l.find? (fun x => x.publicKey.str == target.str) with
    | none => exact later s1
    | some position =>
      simp only [run_bind, run_liftExcept]
      cases env.newBN bps with
      | error e => exact List.prefix_refl _
      | ok b =>
        simp only [callMethod]
        cases dlmmPool.removeLiquidity with
        | none => simp only [Option.map_none', run_throwErr]; exact List.prefix_refl _
        | some f =>
          simp only [Option.map_some', run_callExternal]
          cases f s1.trace _ with
          | error e => exact List.prefix_append _ _
          | ok tx =>
            simp only []
            rcases hsub : submit env userKeypair tx _ with ⟨r3, s3⟩
            have h3 := (Extends.of_run (submit_extends env userKeypair tx) hsub).trace_grows
            have h2 : s1.trace <+: s3.trace := (List.prefix_append _ _).trans h3
            cases r3 with
            | error e => exact h2
            | ok u => exact h2.trans (later s3)

/-- C13: in `removeLiquidity` every turn of the loop starts with a fresh
listing of the user's positions.  When the loop over the earlier targets has
completed and the listing made for `target` holds no position whose key prints
like `target`, that target adds nothing but the listing to the history (no
removal request, no submission), the batch is not aborted, and
`removeLiquidity` goes on with the later targets, in their order, from the
state the listing left. -/
theorem removeLiquidity_skips_unmatched_target (env : Env) (userKeypair : Keypair)
    (p : String) (options : Option RemoveOptions) (s s0 s1 s2 : St) (h : Handle)
    (pre : List PublicKey) (target : PublicKey) (post : List PublicKey) (l : List Position)
    (hpool : mapGet s.dlmmPools p = some h)
    (hres : resolveTargets env userKeypair p (options.getD {}) s =
      (Except.ok (pre ++ target :: post), s0))
    (hpre : removeLoop env userKeypair p h ((options.getD {}).bpsToRemove.getD 10000)
      ((options.getD {}).shouldClaimAndClose.getD true) pre s0 = (Except.ok (), s1))
    (hlist : getUserPositions env p userKeypair.publicKey s1 = (Except.ok l, s2))
    (hfind : l.find? (fun x => x.publicKey.str == target.str) = none) :
    (∀ (t : PublicKey) (rest : List PublicKey) (s' : St),
      (getUserPositions env p userKeypair.publicKey s').2.trace <+:
        (removeLoop env userKeypair p h ((options.getD {}).bpsToRemove.getD 10000)
          ((options.getD {}).shouldClaimAndClose.getD true) (t :: rest) s').2.trace) ∧
    (∀ e ∈ newEvents s1 s2, Event.isListing e ∧ e.isWrite = false) ∧
    removeLiquidity env userKeypair p options s =
      (match removeLoop env userKeypair p h ((options.getD {}).bpsToRemove.getD 10000)
          ((options.getD {}).shouldClaimAndClose.getD true) post s2 with
        | (Except.ok _, s3) => (Except.ok (some "Successfully removed liquidity"), s3)
        | (Except.error e, s3) =>
          (Except.error ("Failed to remove liquidity: " ++ e), s3)) := by
  refine ⟨fun t rest s' => removeLoop_cons_starts_with_listing env userKeypair p h _ _ t rest s',
    ?_, ?_⟩
  · obtain ⟨-, -, t, ht, hl⟩ :=
      Extends.of_run (getUserPositions_extends env p userKeypair.publicKey) hlist
    rw [newEvents_of_append ht]
    exact fun e he => ⟨hl e he, isWrite_of_isListing e (hl e he)⟩
  · rw [removeLiquidity_resume env userKeypair p options s s0 s1 h pre target post hpool hres
      hpre, removeLoop_cons_skip env userKeypair p h _ _ target post s1 s2 l hlist hfind]

/-- Witness of C13: with targets `ghost` and `position1`, `ghost` is listed for
and skipped, and `position1` is then removed. -/
theorem removeLiquidity_skips_unmatched_target_witness :
    removeLiquidity mockEnv mockUser "A"
        (some { specificPositions := some [{ str := "ghost" }, { str := "position1" }] })
        (serviceWith "A" (sdkPool 100)) =
      (match removeLoop mockEnv mockUser "A" (sdkPool 100) 10000 true [{ str := "position1" }]
          { serviceWith "A" (sdkPool 100) with
            trace := [Event.getPositionsByUserAndLbPair "A" mockUser.publicKey] } with
        | (Except.ok _, s3) => (Except.ok (some "Successfully removed liquidity"), s3)
        | (Except.error e, s3) =>
          (Except.error ("Failed to remove liquidity: " ++ e), s3)) ∧
    newEvents (serviceWith "A" (sdkPool 100))
        (removeLiquidity mockEnv mockUser "A"
          (some { specificPositions := some [{ str := "ghost" }, { str := "position1" }] })
          (serviceWith "A" (sdkPool 100))).2 =
      [Event.getPositionsByUserAndLbPair "A" mockUser.publicKey,
       Event.getPositionsByUserAndLbPair "A" mockUser.publicKey,
       Event.removeLiquidity "A"
         { position := { str := "position1" }, user := mockUser.publicKey,
           binIds := [99, 100, 101],
           liquiditiesBpsToRemove := [{ val := 10000 }, { val := 10000 }, { val := 10000 }],
           shouldClaimAndClose := true },
       Event.sendAndConfirmTransaction (Tx.raw "removeLiquidityTx") [mockUser]] :=
  ⟨(removeLiquidity_skips_unmatched_target mockEnv mockUser "A"
      (some { specificPositions := some [{ str := "ghost" }, { str := "position1" }] })
      (serviceWith "A" (sdkPool 100)) (serviceWith "A" (sdkPool 100))
      (serviceWith "A" (sdkPool 100))
      { serviceWith "A" (sdkPool 100) with
        trace := [Event.getPositionsByUserAndLbPair "A" mockUser.publicKey] }
      (sdkPool 100) [] { str := "ghost" } [{ str := "position1" }] [position1]
      rfl rfl rfl rfl rfl).2.2, by decide⟩

/-- The turn of the loop on a target that the fresh listing holds, seen from
`removeLiquidity`: a rejected request and a rejected submission end the call
with the wrapped fault, in the state reached; a completed submission lets the
loop go on with the later targets. -/
theorem removeLiquidity_at_target (env : Env) (userKeypair : Keypair) (p : String)
    (options : Option RemoveOptions) (s s0 s1 s2 : St) (h : Handle)
    (pre : List PublicKey) (target : PublicKey) (post : List PublicKey) (l : List Position)
    (position : Position) (b : BN) (f : Trace → RemoveLiquidityRequest → Except Err TxResult)
    (hpool : mapGet s.dlmmPools p = some h)
    (hres : resolveTargets env userKeypair p (options.getD {}) s =
      (Except.ok (pre ++ target :: post), s0))
    (hpre : removeLoop env userKeypair p h ((options.getD {}).bpsToRemove.getD 10000)
      ((options.getD {}).shouldClaimAndClose.getD true) pre s0 = (Except.ok (), s1))
    (hlist : getUserPositions env p userKeypair.publicKey s1 = (Except.ok l, s2))
    (hfind : l.find? (fun x => x.publicKey.str == target.str) = some position)
    (hbn : env.newBN ((options.getD {}).bpsToRemove.getD 10000) = Except.ok b)
    (hm : h.removeLiquidity = some f) :
    removeLiquidity env userKeypair p options s =
      match f s2.trace (removalRequestFor userKeypair target position b
          ((options.getD {}).shouldClaimAndClose.getD true)) with
      | Except.error e =>
        (Except.error ("Failed to remove liquidity: " ++ e),
          { s2 with trace := s2.trace ++ [Event.removeLiquidity p
            (removalRequestFor userKeypair target position b
              ((options.getD {}).shouldClaimAndClose.getD true))] })
      | Except.ok txr =>
        match submit env userKeypair txr
          { s2 with trace := s2.trace ++ [Event.removeLiquidity p
            (removalRequestFor userKeypair target position b
              ((options.getD {}).shouldClaimAndClose.getD true))] } with
        | (Except.error e, s4) => (Except.error ("Failed to remove liquidity: " ++ e), s4)
        | (Except.ok _, s4) =>
          match removeLoop env userKeypair p h ((options.getD {}).bpsToRemove.getD 10000)
              ((options.getD {}).shouldClaimAndClose.getD true) post s4 with
          | (Except.ok _, s5) => (Except.ok (some "Successfully removed liquidity"), s5)
          | (Except.error e, s5) => (Except.error ("Failed to remove liquidity: " ++ e), s5) := by
  rw [removeLiquidity_resume env userKeypair p options s s0 s1 h pre target post hpool hres hpre,
    removeLoop_cons_found env userKeypair p h _ _ target post s1 s2 l position b f hlist hfind
      hbn hm]
  simp only [removalRequestFor]
  cases f s2.trace _ with
  | error e => rfl
  | ok txr =>
    simp only []
    rcases submit env userKeypair txr _ with ⟨r3, s3⟩
    cases r3 <;> rfl

/-! ## `removeLiquidity`: which faults surface -/

/-- On an initialized pool the listing always yields a list. -/
theorem getUserPositions_never_throws (env : Env) (p : String) (user : PublicKey) (s : St)
    (h : Handle) (hpool : mapGet s.dlmmPools p = some h) :
    ∃ l : List Position, (getUserPositions env p user s).1 = Except.ok l := by
  simp only [getUserPositions, run_bind, run_checkPool_some hpool, run_tryCatch]
  cases h.getPositionsByUser with
  | some f =>
    simp only [run_callExternal]
    cases f s.trace user with
    | ok l => exact ⟨l, rfl⟩
    | error e => exact ⟨[], rfl⟩
  | none =>
    cases h.getPositionsByUserAndLbPair with
    | some f =>
      simp only [run_bind, run_callExternal]
      cases f s.trace user with
      | ok r =>
        cases r with
        | wrapped l => exact ⟨l, rfl⟩
        | unreadable => exact ⟨[], rfl⟩
      | error e => exact ⟨[], rfl⟩
    | none =>
      simp only [run_bind, run_liftExcept]
      cases env.newPublicKey "11111111111111111111111111111111" with
      | ok k => exact ⟨_, rfl⟩
      | error e => exact ⟨[], rfl⟩

/-- C14 as stated fails: a fault of the position-listing query does not make
`removeLiquidity` fail.  On a handle whose listing rejects, the call without
targets returns `null`, and the call with an explicit target returns the
success text. -/
theorem removeLiquidity_listing_fault_not_propagated :
    (∃ f, faultyListingPool.getPositionsByUserAndLbPair = some f ∧
      f [] mockUser.publicKey = Except.error "node unreachable") ∧
    (removeLiquidity mockEnv mockUser "A" none (serviceWith "A" faultyListingPool)).1 =
      Except.ok none ∧
    (removeLiquidity mockEnv mockUser "A" (some { specificPositions := some [{ str := "position1" }] })
      (serviceWith "A" faultyListingPool)).1 =
      Except.ok (some "Successfully removed liquidity") :=
  ⟨⟨_, rfl, rfl⟩, rfl, rfl⟩

/-- C14 (amended): a fault of the SDK's removal-request builder or of a
transaction submission, met while a target is processed after the loop over
the earlier targets completed, aborts the batch: `removeLiquidity` fails with
`Failed to remove liquidity: ` followed by the fault's message, in the state
reached at the fault.  A rejected submission is a rejection by
`sendAndConfirmTransaction` of one transaction of the builder's result.  A
fault of the position listing never surfaces: on an initialized pool the
listing always yields a list. -/
theorem removeLiquidity_fault_is_wrapped (env : Env) (userKeypair : Keypair) (p : String)
    (options : Option RemoveOptions) (s s0 s1 s2 : St) (h : Handle)
    (pre : List PublicKey) (target : PublicKey) (post : List PublicKey) (l : List Position)
    (position : Position) (b : BN) (f : Trace → RemoveLiquidityRequest → Except Err TxResult)
    (hpool : mapGet s.dlmmPools p = some h)
    (hres : resolveTargets env userKeypair p (options.getD {}) s =
      (Except.ok (pre ++ target :: post), s0))
    (hpre : removeLoop env userKeypair p h ((options.getD {}).bpsToRemove.getD 10000)
      ((options.getD {}).shouldClaimAndClose.getD true) pre s0 = (Except.ok (), s1))
    (hlist : getUserPositions env p userKeypair.publicKey s1 = (Except.ok l, s2))
    (hfind : l.find? (fun x => x.publicKey.str == target.str) = some position)
    (hbn : env.newBN ((options.getD {}).bpsToRemove.getD 10000) = Except.ok b)
    (hm : h.removeLiquidity = some f) :
    (∀ e : Err,
      f s2.trace (removalRequestFor userKeypair target position b
        ((options.getD {}).shouldClaimAndClose.getD true)) = Except.error e →
      removeLiquidity env userKeypair p options s =
        (Except.error ("Failed to remove liquidity: " ++ e),
          { s2 with trace := s2.trace ++ [Event.removeLiquidity p
            (removalRequestFor userKeypair target position b
              ((options.getD {}).shouldClaimAndClose.getD true))] })) ∧
    (∀ (txr : TxResult) (e : Err) (s4 : St),
      f s2.trace (removalRequestFor userKeypair target position b
        ((options.getD {}).shouldClaimAndClose.getD true)) = Except.ok txr →
      submit env userKeypair txr
        { s2 with trace := s2.trace ++ [Event.removeLiquidity p
          (removalRequestFor userKeypair target position b
            ((options.getD {}).shouldClaimAndClose.getD true))] } = (Except.error e, s4) →
      removeLiquidity env userKeypair p options s =
        (Except.error ("Failed to remove liquidity: " ++ e), s4) ∧
      ∃ (hist : Trace) (tx : Tx), tx ∈ txsOf txr ∧
        env.sendAndConfirm hist s2.connection tx [userKeypair] = Except.error e) ∧
    (∀ (s' : St) (user : PublicKey), (∃ h', mapGet s'.dlmmPools p = some h') →
      ∃ l' : List Position, (getUserPositions env p user s').1 = Except.ok l') := by
  have hrun := removeLiquidity_at_target env userKeypair p options s s0 s1 s2 h pre target post
    l position b f hpool hres hpre hlist hfind hbn hm
  refine ⟨?_, ?_, ?_⟩
  · intro e he
    rw [hrun, he]
  · intro txr e s4 hok hsub
    refine ⟨by rw [hrun, hok]; simp only [hsub], ?_⟩
    obtain ⟨-, -, hcases⟩ := submit_outcome env userKeypair txr _ s4 _ hsub
    rcases hcases with ⟨hr, -⟩ | ⟨e', done, tx, remaining, hr, htxs, -, hfault⟩
    · cases hr
    · cases hr
      exact ⟨_, tx, by simp [htxs], hfault⟩
  · rintro s' user ⟨h', hh'⟩
    exact getUserPositions_never_throws env p user s' h' hh'

/-- Witness of C14: the SDK rejects the removal request for `position1` with
`rejected`, and `removeLiquidity` fails with the wrapped message right after
that request. -/
theorem removeLiquidity_fault_is_wrapped_witness :
    removeLiquidity mockEnv mockUser "A" none faultyRemovalService =
      (Except.error ("Failed to remove liquidity: " ++ "rejected"),
        { faultyRemovalService with
          trace := [Event.getPositionsByUserAndLbPair "A" mockUser.publicKey,
            Event.getPositionsByUserAndLbPair "A" mockUser.publicKey] ++
            [Event.removeLiquidity "A"
              (removalRequestFor mockUser { str := "position1" } position1 { val := 10000 }
                true)] }) :=
  (removeLiquidity_fault_is_wrapped mockEnv mockUser "A" none faultyRemovalService
    { faultyRemovalService with
      trace := [Event.getPositionsByUserAndLbPair "A" mockUser.publicKey] }
    { faultyRemovalService with
      trace := [Event.getPositionsByUserAndLbPair "A" mockUser.publicKey] }
    { faultyRemovalService with
      trace := [Event.getPositionsByUserAndLbPair "A" mockUser.publicKey,
        Event.getPositionsByUserAndLbPair "A" mockUser.publicKey] }
    { sdkPool 100 with removeLiquidity := some (fun _ _ => Except.error "rejected") }
    [] { str := "position1" } [] [position1] position1 { val := 10000 }
    (fun _ _ => Except.error "rejected") rfl rfl rfl rfl rfl rfl rfl).1 "rejected" rfl

/-! ## `removeLiquidity`: what has been submitted when a fault stops the batch -/

/-- C15 as stated fails.  With one target (`k = 1`, no earlier target) whose
removal builder returns the array `[first, second]`, the submission of `second`
is rejected after `first` was submitted and confirmed: the transactions
submitted so far are not those of the first `k - 1 = 0` targets. -/
theorem removeLiquidity_partial_list_submitted :
    (removeLiquidity flakyEnv mockUser "A" none (serviceWith "A" twoTxPool)).1 =
      Except.error "Failed to remove liquidity: blockhash expired" ∧
    flakyEnv.sendAndConfirm
      [Event.getPositionsByUserAndLbPair "A" mockUser.publicKey,
       Event.getPositionsByUserAndLbPair "A" mockUser.publicKey,
       Event.removeLiquidity "A"
         (removalRequestFor mockUser { str := "position1" } position1 { val := 10000 } true)]
      (serviceWith "A" twoTxPool).connection (Tx.raw "first") [mockUser] = Except.ok "txHash" ∧
    sentTxs (newEvents (serviceWith "A" twoTxPool)
      (removeLiquidity flakyEnv mockUser "A" none (serviceWith "A" twoTxPool)).2) =
      [Tx.raw "first", Tx.raw "second"] ∧
    sentTxs (newEvents (serviceWith "A" twoTxPool)
      (removeLiquidity flakyEnv mockUser "A" none (serviceWith "A" twoTxPool)).2) ≠ [] :=
  ⟨rfl, rfl, by decide, by decide⟩

/-- C15 (amended): `removeLiquidity` is strictly sequential and rolls nothing
back.  Take the target processed after the loop over the earlier targets
completed in state `s1`; its turn starts with a listing and then sends its
request.  If the builder rejects the request, the call ends there: the
transactions submitted are those submitted up to `s1`.  If a submission is
rejected, the call ends there: the transactions submitted are those up to `s1`
followed by the transactions of this target's result, in the order the SDK
returned them, up to and including the rejected one.  If the submission
completes, all transactions of the result (one, or every element of the list,
in order) have been submitted before the loop goes on with the later targets.
In the two faulting cases the state does not depend on the later targets: no
request is built and no transaction submitted for them. -/
theorem removeLiquidity_fault_state (env : Env) (userKeypair : Keypair) (p : String)
    (options : Option RemoveOptions) (s s0 s1 s2 : St) (h : Handle)
    (pre : List PublicKey) (target : PublicKey) (post : List PublicKey) (l : List Position)
    (position : Position) (b : BN) (f : Trace → RemoveLiquidityRequest → Except Err TxResult)
    (hpool : mapGet s.dlmmPools p = some h)
    (hres : resolveTargets env userKeypair p (options.getD {}) s =
      (Except.ok (pre ++ target :: post), s0))
    (hpre : removeLoop env userKeypair p h ((options.getD {}).bpsToRemove.getD 10000)
      ((options.getD {}).shouldClaimAndClose.getD true) pre s0 = (Except.ok (), s1))
    (hlist : getUserPositions env p userKeypair.publicKey s1 = (Except.ok l, s2))
    (hfind : l.find? (fun x => x.publicKey.str == target.str) = some position)
    (hbn : env.newBN ((options.getD {}).bpsToRemove.getD 10000) = Except.ok b)
    (hm : h.removeLiquidity = some f) :
    (∃ listing : Trace, s2.trace = s1.trace ++ listing ∧ ∀ e ∈ listing, Event.isListing e) ∧
    (∀ e : Err,
      f s2.trace (removalRequestFor userKeypair target position b
        ((options.getD {}).shouldClaimAndClose.getD true)) = Except.error e →
      (removeLiquidity env userKeypair p options s).2.trace =
        s2.trace ++ [Event.removeLiquidity p (removalRequestFor userKeypair target position b
          ((options.getD {}).shouldClaimAndClose.getD true))] ∧
      sentTxs (removeLiquidity env userKeypair p options s).2.trace = sentTxs s1.trace) ∧
    (∀ (txr : TxResult) (e : Err) (s4 : St),
      f s2.trace (removalRequestFor userKeypair target position b
        ((options.getD {}).shouldClaimAndClose.getD true)) = Except.ok txr →
      submit env userKeypair txr
        { s2 with trace := s2.trace ++ [Event.removeLiquidity p
          (removalRequestFor userKeypair target position b
            ((options.getD {}).shouldClaimAndClose.getD true))] } = (Except.error e, s4) →
      (removeLiquidity env userKeypair p options s).2 = s4 ∧
      ∃ (done : List Tx) (tx : Tx) (remaining : List Tx),
        txsOf txr = done ++ tx :: remaining ∧
        s4.trace = s2.trace ++ [Event.removeLiquidity p
          (removalRequestFor userKeypair target position b
            ((options.getD {}).shouldClaimAndClose.getD true))] ++
          sendEvents userKeypair (done ++ [tx]) ∧
        sentTxs s4.trace = sentTxs s1.trace ++ (done ++ [tx])) ∧
    (∀ (txr : TxResult) (s4 : St),
      f s2.trace (removalRequestFor userKeypair target position b
        ((options.getD {}).shouldClaimAndClose.getD true)) = Except.ok txr →
      submit env userKeypair txr
        { s2 with trace := s2.trace ++ [Event.removeLiquidity p
          (removalRequestFor userKeypair target position b
            ((options.getD {}).shouldClaimAndClose.getD true))] } = (Except.ok (), s4) →
      s4.trace = s2.trace ++ [Event.removeLiquidity p
          (removalRequestFor userKeypair target position b
            ((options.getD {}).shouldClaimAndClose.getD true))] ++
          sendEvents userKeypair (txsOf txr) ∧
      sentTxs s4.trace = sentTxs s1.trace ++ txsOf txr ∧
      removeLiquidity env userKeypair p options s =
        (match removeLoop env userKeypair p h ((options.getD {}).bpsToRemove.getD 10000)
            ((options.getD {}).shouldClaimAndClose.getD true) post s4 with
          | (Except.ok _, s5) => (Except.ok (some "Successfully removed liquidity"), s5)
          | (Except.error e, s5) =>
            (Except.error ("Failed to remove liquidity: " ++ e), s5))) := by
  have hrun := removeLiquidity_at_target env userKeypair p options s s0 s1 s2 h pre target post
    l position b f hpool hres hpre hlist hfind hbn hm
  obtain ⟨-, -, listing, hlisting, hislisting⟩ :=
    Extends.of_run (getUserPositions_extends env p userKeypair.publicKey) hlist
  have hsent2 : sentTxs s2.trace = sentTxs s1.trace := by
    rw [hlisting, sentTxs_append, sentTxs_of_isListing listing hislisting, List.append_nil]
  refine ⟨⟨listing, hlisting, hislisting⟩, ?_, ?_, ?_⟩
  · intro e he
    rw [hrun, he]
    refine ⟨rfl, ?_⟩
    simp only [sentTxs_append, hsent2, sentTxs, List.append_nil]
  · intro txr e s4 hok hsub
    refine ⟨by rw [hrun, hok]; simp only [hsub], ?_⟩
    obtain ⟨-, -, hcases⟩ := submit_outcome env userKeypair txr _ s4 _ hsub
    rcases hcases with ⟨hr, -⟩ | ⟨e', done, tx, remaining, -, htxs, ht, -⟩
    · cases hr
    · refine ⟨done, tx, remaining, htxs, ht, ?_⟩
      rw [ht]
      simp only [sentTxs_append, hsent2, sentTxs, List.append_nil, sentTxs_sendEvents]
  · intro txr s4 hok hsub
    obtain ⟨-, -, hcases⟩ := submit_outcome env userKeypair txr _ s4 _ hsub
    rcases hcases with ⟨-, ht⟩ | ⟨e', done, tx, remaining, hr, -, -, -⟩
    · refine ⟨ht, ?_, by rw [hrun, hok]; simp only [hsub]⟩
      rw [ht]
      simp only [sentTxs_append, hsent2, sentTxs, List.append_nil, sentTxs_sendEvents]
    · cases hr

/-- Witness of C15: the builder returns `[first, second]` for `position1` and
the submission of `second` is rejected; the submitted transactions are `first`
and `second`, after the listing and the request. -/
theorem removeLiquidity_fault_state_witness :
    ∃ (done : List Tx) (tx : Tx) (remaining : List Tx),
      txsOf (TxResult.many [Tx.raw "first", Tx.raw "second"]) = done ++ tx :: remaining ∧
      (removeLiquidity flakyEnv mockUser "A" none (serviceWith "A" twoTxPool)).2.trace =
        [Event.getPositionsByUserAndLbPair "A" mockUser.publicKey,
          Event.getPositionsByUserAndLbPair "A" mockUser.publicKey] ++
          [Event.removeLiquidity "A"
            (removalRequestFor mockUser { str := "position1" } position1 { val := 10000 }
              true)] ++ sendEvents mockUser (done ++ [tx]) ∧
      sentTxs (removeLiquidity flakyEnv mockUser "A" none (serviceWith "A" twoTxPool)).2.trace =
        sentTxs [Event.getPositionsByUserAndLbPair "A" mockUser.publicKey] ++ (done ++ [tx]) :=
  ((removeLiquidity_fault_state flakyEnv mockUser "A" none (serviceWith "A" twoTxPool)
    { serviceWith "A" twoTxPool with
      trace := [Event.getPositionsByUserAndLbPair "A" mockUser.publicKey] }
    { serviceWith "A" twoTxPool with
      trace := [Event.getPositionsByUserAndLbPair "A" mockUser.publicKey] }
    { serviceWith "A" twoTxPool with
      trace := [Event.getPositionsByUserAndLbPair "A" mockUser.publicKey,
        Event.getPositionsByUserAndLbPair "A" mockUser.publicKey] }
    twoTxPool [] { str := "position1" } [] [position1] position1 { val := 10000 }
    (fun _ _ => Except.ok (TxResult.many [Tx.raw "first", Tx.raw "second"]))
    rfl rfl rfl rfl rfl rfl rfl).2.2.1
    (TxResult.many [Tx.raw "first", Tx.raw "second"]) "blockhash expired"
    (removeLiquidity flakyEnv mockUser "A" none (serviceWith "A" twoTxPool)).2 rfl rfl).2

/-! ## `addLiquidity`: the amounts -/

/-- C16 as stated fails for `baseMintDecimals = 14`: the default
`100 * 10 ** 14` is `10^16`, above `2^53`, the `BN` constructor of `bn.js`
rejects it, and `addLiquidity` fails without sending any request. -/
theorem addLiquidity_default_overflows :
    (100 : Int) * 10 ^ 14 ≥ 2 ^ 53 ∧
    (addLiquidity bnjsEnv mockUser "A" 14 none (serviceWith "A" (sdkPool 100))).1 =
      Except.error "Failed to add liquidity: Assertion failed" ∧
    addRequests (newEvents (serviceWith "A" (sdkPool 100))
      (addLiquidity bnjsEnv mockUser "A" 14 none (serviceWith "A" (sdkPool 100))).2) = [] :=
  ⟨by decide, rfl, by decide⟩

theorem default_amount_safe (d : Nat) (hd : d ≤ 13) :
    (0 : Int) ≤ 100 * 10 ^ d ∧ (100 : Int) * 10 ^ d < 2 ^ 53 := by
  interval_cases d <;> norm_num

/-- C16 (amended): with a `BN` constructor that holds every number it is given
in the range `0 ≤ n < 2^53`, when `xAmount` is omitted and
`baseMintDecimals ≤ 13` (so that `100 * 10^baseMintDecimals < 2^53`) the
`totalXAmount` sent to the SDK is `100 * 10^baseMintDecimals`, and when
`yAmount` is omitted the `totalYAmount` sent is 0. -/
theorem addLiquidity_default_amounts (env : Env) (userKeypair : Keypair) (p : String) (d : Nat)
    (options : Option AddOptions) (s : St) (h : Handle)
    (g : Trace → Except Err ActiveBin) (f : Trace → AddLiquidityRequest → Except Err TxResult)
    (a : Int)
    (hsafe : ∀ n : Int, 0 ≤ n → n < 2 ^ 53 → env.newBN n = Except.ok { val := n })
    (hpool : mapGet s.dlmmPools p = some h)
    (hg : h.getActiveBin = some g) (ha : g s.trace = Except.ok { binId := a })
    (hf : h.addLiquidityByStrategy = some f) :
    ((options.getD {}).xAmount = none → d ≤ 13 →
      ∀ Y : BN, toAmount env (options.getD {}).yAmount 0 = Except.ok Y →
      ∃ req : AddLiquidityRequest,
        addRequests (newEvents s (addLiquidity env userKeypair p d options s).2) = [(p, req)] ∧
        req.totalXAmount = { val := 100 * 10 ^ d } ∧ req.totalYAmount = Y) ∧
    ((options.getD {}).yAmount = none →
      ∀ X : BN, toAmount env (options.getD {}).xAmount (100 * 10 ^ d) = Except.ok X →
      ∃ req : AddLiquidityRequest,
        addRequests (newEvents s (addLiquidity env userKeypair p d options s).2) = [(p, req)] ∧
        req.totalXAmount = X ∧ req.totalYAmount = { val := 0 }) := by
  refine ⟨?_, ?_⟩
  · intro hx hd Y hy
    have hX : toAmount env (options.getD {}).xAmount (100 * 10 ^ d) =
        Except.ok { val := 100 * 10 ^ d } := by
      rw [hx]
      exact hsafe _ (default_amount_safe d hd).1 (default_amount_safe d hd).2
    exact ⟨_, addLiquidity_addRequests env userKeypair p d options s h g f a _ Y
      hpool hg ha hf hX hy, rfl, rfl⟩
  · intro hy X hx
    have hY : toAmount env (options.getD {}).yAmount 0 = Except.ok { val := 0 } := by
      rw [hy]
      exact hsafe 0 (le_refl 0) (by norm_num)
    exact ⟨_, addLiquidity_addRequests env userKeypair p d options s h g f a X _
      hpool hg ha hf hx hY, rfl, rfl⟩

theorem bnFromNumber_safe (n : Int) (h0 : 0 ≤ n) (h1 : n < 2 ^ 53) :
    bnFromNumber n = Except.ok { val := n } := by
  have hn : n.natAbs < 2 ^ 53 := by omega
  unfold bnFromNumber
  rw [if_pos hn]

/-- Witness of C16: with the constructor of `bn.js` and 13 decimals the default
amounts are `10^15` of X and 0 of Y. -/
theorem addLiquidity_default_amounts_witness :
    ∃ req : AddLiquidityRequest,
      addRequests (newEvents (serviceWith "A" (sdkPool 100))
        (addLiquidity bnjsEnv mockUser "A" 13 none (serviceWith "A" (sdkPool 100))).2) =
          [("A", req)] ∧
      req.totalXAmount = { val := 1000000000000000 } ∧ req.totalYAmount = { val := 0 } :=
  (addLiquidity_default_amounts bnjsEnv mockUser "A" 13 none (serviceWith "A" (sdkPool 100))
    (sdkPool 100) (fun _ => Except.ok { binId := 100 })
    (fun _ _ => Except.ok (TxResult.single (Tx.raw "addLiquidityTx"))) 100
    bnFromNumber_safe rfl rfl rfl rfl).1 rfl (by decide) { val := 0 } rfl

/-- C17 (the code as it is): a supplied `xAmount` of `0`, given as a number, is
taken for an omitted one, and the default `100 * 10^6` is sent instead; the
same amount given as `new BN(0)` is sent as 0, and a non-zero number is sent
as it is. -/
theorem addLiquidity_zero_xAmount_replaced :
    (∃ req : AddLiquidityRequest,
      addRequests (newEvents (serviceWith "A" (sdkPool 100))
        (addLiquidity mockEnv mockUser "A" 6 (some { xAmount := some (Amount.num 0) })
          (serviceWith "A" (sdkPool 100))).2) = [("A", req)] ∧
      req.totalXAmount = { val := 100000000 }) ∧
    (∃ req : AddLiquidityRequest,
      addRequests (newEvents (serviceWith "A" (sdkPool 100))
        (addLiquidity mockEnv mockUser "A" 6 (some { xAmount := some (Amount.bn { val := 0 }) })
          (serviceWith "A" (sdkPool 100))).2) = [("A", req)] ∧
      req.totalXAmount = { val := 0 }) ∧
    (∃ req : AddLiquidityRequest,
      addRequests (newEvents (serviceWith "A" (sdkPool 100))
        (addLiquidity mockEnv mockUser "A" 6 (some { xAmount := some (Amount.num 500000000) })
          (serviceWith "A" (sdkPool 100))).2) = [("A", req)] ∧
      req.totalXAmount = { val := 500000000 }) :=
  ⟨⟨_, rfl, rfl⟩, ⟨_, rfl, rfl⟩, ⟨_, rfl, rfl⟩⟩

/-- C18 (the code as it is): with `isXSide = false` the request of
`createOneSidedPosition` still carries the caller's `xAmount` as `totalXAmount`
and 0 as `totalYAmount`: the side flag moves the window and nothing else. -/
theorem createOneSidedPosition_ySide_sends_x :
    ∃ req : AddLiquidityRequest,
      addRequests (newEvents (serviceWith "A" (sdkPool 100))
        (createOneSidedPosition mockEnv mockUser "A" 6
          (some { xAmount := some (Amount.num 100000000), isXSide := some false })
          (serviceWith "A" (sdkPool 100))).2) = [("A", req)] ∧
      req.totalXAmount = { val := 100000000 } ∧ req.totalYAmount = { val := 0 } ∧
      mapGet req.strategy "minBinId" = some (JsVal.num 100) ∧
      mapGet req.strategy "maxBinId" = some (JsVal.num 110) :=
  ⟨_, rfl, rfl, rfl, rfl, rfl⟩

/-! ## The bin window is well formed -/

/-- The one request of `createOneSidedPosition`: the caller's (or default) X
amount, a zero Y amount, and the window computed from the bin that
`getActiveBin` returned. -/
theorem createOneSidedPosition_addRequests (env : Env) (userKeypair : Keypair) (p : String)
    (d : Nat) (options : Option PositionOptions) (s s1 : St) (h : Handle)
    (g : Trace → Except Err ActiveBin) (f : Trace → AddLiquidityRequest → Except Err TxResult)
    (a a' : Int) (X Z : BN)
    (hpool : mapGet s.dlmmPools p = some h)
    (hactive : getActiveBin p s = (Except.ok { binId := a }, s1))
    (hg : h.getActiveBin = some g) (ha : g s1.trace = Except.ok { binId := a' })
    (hf : h.addLiquidityByStrategy = some f)
    (hx : toAmount env (options.getD {}).xAmount (100 * 10 ^ d) = Except.ok X)
    (hz : env.newBN 0 = Except.ok Z) :
    ∃ req : AddLiquidityRequest,
      addRequests (newEvents s (createOneSidedPosition env userKeypair p d options s).2) =
        [(p, req)] ∧
      req.totalXAmount = X ∧ req.totalYAmount = Z ∧
      mapGet req.strategy "minBinId" = some (JsVal.num
        (if (options.getD {}).isXSide.getD true
          then a - (options.getD {}).binRange.getD 10 + (options.getD {}).offset.getD 0
          else a + (options.getD {}).offset.getD 0)) ∧
      mapGet req.strategy "maxBinId" = some (JsVal.num
        (if (options.getD {}).isXSide.getD true
          then a + (options.getD {}).offset.getD 0
          else a + (options.getD {}).binRange.getD 10 + (options.getD {}).offset.getD 0)) := by
  obtain ⟨-, hpools1, t1, ht1, hq1⟩ := Extends.of_run (getActiveBin_extends p) hactive
  have hpool1 : mapGet s1.dlmmPools p = some h := by rw [hpools1]; exact hpool
  generalize hopts : (some
      { xAmount := (options.getD {}).xAmount
        yAmount := some (Amount.bn Z)
        strategyType := some "Spot"
        strategyParams := some
          [("minBinId", JsVal.num (if (options.getD {}).isXSide.getD true
              then a - (options.getD {}).binRange.getD 10 + (options.getD {}).offset.getD 0
              else a + (options.getD {}).offset.getD 0)),
           ("maxBinId", JsVal.num (if (options.getD {}).isXSide.getD true
              then a + (options.getD {}).offset.getD 0
              else a + (options.getD {}).binRange.getD 10 + (options.getD {}).offset.getD 0))] } :
      Option AddOptions) = addOpts
  obtain ⟨t2, ht2, hsend⟩ := addLiquidity_trace env userKeypair p d addOpts s1 h g f a' X Z
    hpool1 hg ha hf (by rw [← hopts]; exact hx) (by rw [← hopts]; rfl)
  have hrun : (createOneSidedPosition env userKeypair p d options s).2.trace =
      (addLiquidity env userKeypair p d addOpts s1).2.trace := by
    simp only [createOneSidedPosition, run_tryCatch, run_bind, hactive, run_liftExcept, hz,
      hopts]
    rcases addLiquidity env userKeypair p d addOpts s1 with ⟨r, s2⟩
    cases r <;> simp [run_throwErr]
  refine ⟨{ user := userKeypair.publicKey, totalXAmount := X, totalYAmount := Z,
            strategy := strategyFor a' (addOpts.getD {}) }, ?_, rfl, rfl, ?_, ?_⟩
  · have hfull : (createOneSidedPosition env userKeypair p d options s).2.trace =
        s.trace ++ (t1 ++ (Event.getActiveBin p :: Event.addLiquidityByStrategy p
          { user := userKeypair.publicKey, totalXAmount := X, totalYAmount := Z,
            strategy := strategyFor a' (addOpts.getD {}) } :: t2)) := by
      rw [hrun, ht2, ht1, List.append_assoc]
    rw [newEvents_of_append hfull, addRequests_append,
      addRequests_of_isActiveBinQuery t1 hq1]
    simp [addRequests, addRequests_of_isSend t2 hsend]
  · rw [← hopts]
    simp only [strategyFor, mapGet_spread, Option.getD_some, mapGet, if_true]
  · rw [← hopts]
    simp only [strategyFor, mapGet_spread, Option.getD_some, mapGet]
    simp

/-- C19: for every active bin, every offset and every `binRange ≥ 0`, the
window that reaches the SDK has `minBinId ≤ maxBinId`, on the balanced path
(`addLiquidity` without caller bounds) and on both sides of
`createOneSidedPosition`; with offset 0 the X-side window ends at the active
bin and the Y-side window starts at it. -/
theorem window_is_ordered (env : Env) (userKeypair : Keypair) (p : String) (d : Nat) (s : St)
    (h : Handle) (g : Trace → Except Err ActiveBin)
    (f : Trace → AddLiquidityRequest → Except Err TxResult)
    (hpool : mapGet s.dlmmPools p = some h)
    (hg : h.getActiveBin = some g) (hf : h.addLiquidityByStrategy = some f) :
    (∀ (options : Option AddOptions) (a : Int) (X Y : BN),
      g s.trace = Except.ok { binId := a } →
      toAmount env (options.getD {}).xAmount (100 * 10 ^ d) = Except.ok X →
      toAmount env (options.getD {}).yAmount 0 = Except.ok Y →
      mapGet ((options.getD {}).strategyParams.getD []) "minBinId" = none →
      mapGet ((options.getD {}).strategyParams.getD []) "maxBinId" = none →
      0 ≤ (options.getD {}).binRange.getD 10 →
      ∃ (req : AddLiquidityRequest) (lo hi : Int),
        addRequests (newEvents s (addLiquidity env userKeypair p d options s).2) = [(p, req)] ∧
        mapGet req.strategy "minBinId" = some (JsVal.num lo) ∧
        mapGet req.strategy "maxBinId" = some (JsVal.num hi) ∧ lo ≤ hi) ∧
    (∀ (options : Option PositionOptions) (s1 : St) (a a' : Int) (X Z : BN),
      getActiveBin p s = (Except.ok { binId := a }, s1) →
      g s1.trace = Except.ok { binId := a' } →
      toAmount env (options.getD {}).xAmount (100 * 10 ^ d) = Except.ok X →
      env.newBN 0 = Except.ok Z →
      0 ≤ (options.getD {}).binRange.getD 10 →
      ∃ (req : AddLiquidityRequest) (lo hi : Int),
        addRequests (newEvents s (createOneSidedPosition env userKeypair p d options s).2) =
          [(p, req)] ∧
        mapGet req.strategy "minBinId" = some (JsVal.num lo) ∧
        mapGet req.strategy "maxBinId" = some (JsVal.num hi) ∧ lo ≤ hi ∧
        ((options.getD {}).offset.getD 0 = 0 → (options.getD {}).isXSide.getD true = true →
          hi = a) ∧
        ((options.getD {}).offset.getD 0 = 0 → (options.getD {}).isXSide.getD true = false →
          lo = a)) := by
  refine ⟨?_, ?_⟩
  · intro options a X Y ha hx hy hmin hmax hr
    refine ⟨_, a - (options.getD {}).binRange.getD 10, a + (options.getD {}).binRange.getD 10,
      addLiquidity_addRequests env userKeypair p d options s h g f a X Y hpool hg ha hf hx hy,
      ?_, ?_, by omega⟩
    · simp [strategyFor, mapGet_spread, hmin, mapGet]
    · simp [strategyFor, mapGet_spread, hmax, mapGet]
  · intro options s1 a a' X Z hactive ha hx hz hr
    obtain ⟨req, hreq, -, -, hlo, hhi⟩ := createOneSidedPosition_addRequests env userKeypair p d
      options s s1 h g f a a' X Z hpool hactive hg ha hf hx hz
    refine ⟨req, _, _, hreq, hlo, hhi, ?_, ?_, ?_⟩
    · cases (options.getD {}).isXSide.getD true <;> simp <;> omega
    · intro ho hside
      simp [hside, ho]
    · intro ho hside
      simp [hside, ho]

/-- Witness of C19: on active bin 100, the default balanced window and the
Y-side window of range 5 and offset 0 are ordered, and the Y-side window starts
at 100. -/
theorem window_is_ordered_witness :
    (∃ (req : AddLiquidityRequest) (lo hi : Int),
      addRequests (newEvents (serviceWith "A" (sdkPool 100))
        (addLiquidity mockEnv mockUser "A" 6 none (serviceWith "A" (sdkPool 100))).2) =
          [("A", req)] ∧
      mapGet req.strategy "minBinId" = some (JsVal.num lo) ∧
      mapGet req.strategy "maxBinId" = some (JsVal.num hi) ∧ lo ≤ hi) ∧
    (∃ (req : AddLiquidityRequest) (lo hi : Int),
      addRequests (newEvents (serviceWith "A" (sdkPool 100))
        (createOneSidedPosition mockEnv mockUser "A" 6
          (some { binRange := some 5, isXSide := some false })
          (serviceWith "A" (sdkPool 100))).2) = [("A", req)] ∧
      mapGet req.strategy "minBinId" = some (JsVal.num lo) ∧
      mapGet req.strategy "maxBinId" = some (JsVal.num hi) ∧ lo ≤ hi ∧ lo = 100) := by
  have hw := window_is_ordered mockEnv mockUser "A" 6 (serviceWith "A" (sdkPool 100))
    (sdkPool 100) (fun _ => Except.ok { binId := 100 })
    (fun _ _ => Except.ok (TxResult.single (Tx.raw "addLiquidityTx"))) rfl rfl rfl
  refine ⟨hw.1 none 100 { val := 100000000 } { val := 0 } rfl rfl rfl rfl rfl (by decide), ?_⟩
  obtain ⟨req, lo, hi, hreq, hlo, hhi, hle, -, hstart⟩ :=
    hw.2 (some { binRange := some 5, isXSide := some false })
      { serviceWith "A" (sdkPool 100) with trace := [Event.getActiveBin "A"] }
      100 100 { val := 100000000 } { val := 0 } rfl rfl rfl rfl (by decide)
  exact ⟨req, lo, hi, hreq, hlo, hhi, hle, hstart rfl rfl⟩

/-! ## `swap` -/

/-- The run of `swap` on an initialized pool whose handle offers the three swap
methods and both tokens, when the bin arrays and the quote are delivered: the
bin arrays are asked for, then the quote, then the swap request is sent, and
what follows are submissions. -/
theorem swap_trace (env : Env) (userKeypair : Keypair) (p : String) (amount : Amount)
    (isXtoY : Bool) (slippageBps : Option Int) (s : St) (h : Handle)
    (g1 : Trace → Bool → Except Err (List String))
    (g2 : Trace → BN → Bool → BN → List String → Except Err SwapQuote)
    (g3 : Trace → SwapRequest → Except Err Tx)
    (A S : BN) (binArrays : List String) (quote : SwapQuote) (tokenX tokenY : TokenInfo)
    (hpool : mapGet s.dlmmPools p = some h)
    (hamount : (match amount with
      | Amount.bn b => Except.ok b
      | Amount.num n => env.newBN n) = Except.ok A)
    (hbins : h.getBinArrayForSwap = some g1)
    (hbinsOk : g1 s.trace (!isXtoY) = Except.ok binArrays)
    (hslip : env.newBN (slippageBps.getD 100) = Except.ok S)
    (hquote : h.swapQuote = some g2)
    (hquoteOk : g2 (s.trace ++ [Event.getBinArrayForSwap p (!isXtoY)]) A (!isXtoY) S binArrays =
      Except.ok quote)
    (hX : h.tokenX = some tokenX) (hY : h.tokenY = some tokenY)
    (hswap : h.swap = some g3) :
    ∃ t : Trace, (swap env userKeypair p amount isXtoY slippageBps s).2.trace =
        s.trace ++ (Event.getBinArrayForSwap p (!isXtoY) ::
          Event.swapQuote p A (!isXtoY) S binArrays ::
          Event.swap p
            { inToken := if isXtoY then tokenX.publicKey else tokenY.publicKey
              outToken := if isXtoY then tokenY.publicKey else tokenX.publicKey
              binArraysPubkey := quote.binArraysPubkey
              inAmount := A
              minOutAmount := quote.minOutAmount
              lbPair := h.pubkey
              user := userKeypair.publicKey } :: t) ∧
      ∀ e ∈ t, Event.isSend e := by
  have hin : tokenPublicKey (if isXtoY then h.tokenX else h.tokenY) =
      pure (if isXtoY then tokenX.publicKey else tokenY.publicKey) := by
    cases isXtoY <;> simp [tokenPublicKey, hX, hY]
  have hout : tokenPublicKey (if isXtoY then h.tokenY else h.tokenX) =
      pure (if isXtoY then tokenY.publicKey else tokenX.publicKey) := by
    cases isXtoY <;> simp [tokenPublicKey, hX, hY]
  cases amount with
  | bn b =>
    simp only [Except.ok.injEq] at hamount
    subst hamount
    simp only [swap, run_bind, run_checkPool_some hpool, run_tryCatch, callMethod, hbins,
      Option.map_some', run_callExternal, hbinsOk, run_liftExcept, hslip, hquote, hquoteOk,
      hin, hout, run_pure, hswap]
    cases g3 _ _ with
    | error e =>
      refine ⟨[], ?_, by simp⟩
      simp [run_throwErr]
    | ok swapTx =>
      simp only []
      rcases hsend : sendAndConfirmTransaction env swapTx [userKeypair] _ with ⟨r, s2⟩
      obtain ⟨-, -, t, ht, hsends⟩ :=
        Extends.of_run (sendAndConfirmTransaction_extends env swapTx [userKeypair]) hsend
      refine ⟨t, ?_, hsends⟩
      cases r with
      | error e => simpa [run_throwErr] using ht
      | ok hash => simpa using ht
  | num n =>
    simp only [] at hamount
    simp only [swap, run_bind, run_checkPool_some hpool, run_tryCatch, callMethod, hbins,
      Option.map_some', run_callExternal, hbinsOk, run_liftExcept, hamount, hslip, hquote,
      hquoteOk, hin, hout, run_pure, hswap]
    cases g3 _ _ with
    | error e =>
      refine ⟨[], ?_, by simp⟩
      simp [run_throwErr]
    | ok swapTx =>
      simp only []
      rcases hsend : sendAndConfirmTransaction env swapTx [userKeypair] _ with ⟨r, s2⟩
      obtain ⟨-, -, t, ht, hsends⟩ :=
        Extends.of_run (sendAndConfirmTransaction_extends env swapTx [userKeypair]) hsend
      refine ⟨t, ?_, hsends⟩
      cases r with
      | error e => simpa [run_throwErr] using ht
      | ok hash => simpa using ht

/-- C20: `swap` hands the SDK the negation of its own direction flag: the one
call of `getBinArrayForSwap` and the one call of `swapQuote` both receive
`!isXtoY`, while the swap request has `inToken = tokenX`, `outToken = tokenY`
when `isXtoY` is true and the two exchanged when it is false; when the two
tokens of the pool differ, `inToken` and `outToken` differ. -/
theorem swap_inverts_direction (env : Env) (userKeypair : Keypair) (p : String)
    (amount : Amount) (isXtoY : Bool) (slippageBps : Option Int) (s : St) (h : Handle)
    (g1 : Trace → Bool → Except Err (List String))
    (g2 : Trace → BN → Bool → BN → List String → Except Err SwapQuote)
    (g3 : Trace → SwapRequest → Except Err Tx)
    (A S : BN) (binArrays : List String) (quote : SwapQuote) (tokenX tokenY : TokenInfo)
    (hpool : mapGet s.dlmmPools p = some h)
    (hamount : (match amount with
      | Amount.bn b => Except.ok b
      | Amount.num n => env.newBN n) = Except.ok A)
    (hbins : h.getBinArrayForSwap = some g1)
    (hbinsOk : g1 s.trace (!isXtoY) = Except.ok binArrays)
    (hslip : env.newBN (slippageBps.getD 100) = Except.ok S)
    (hquote : h.swapQuote = some g2)
    (hquoteOk : g2 (s.trace ++ [Event.getBinArrayForSwap p (!isXtoY)]) A (!isXtoY) S binArrays =
      Except.ok quote)
    (hX : h.tokenX = some tokenX) (hY : h.tokenY = some tokenY)
    (hswap : h.swap = some g3) :
    ∃ (req : SwapRequest) (t : Trace),
      newEvents s (swap env userKeypair p amount isXtoY slippageBps s).2 =
        Event.getBinArrayForSwap p (!isXtoY) ::
          Event.swapQuote p A (!isXtoY) S binArrays :: Event.swap p req :: t ∧
      (∀ e ∈ t, Event.isSend e) ∧
      req.inToken = (if isXtoY then tokenX.publicKey else tokenY.publicKey) ∧
      req.outToken = (if isXtoY then tokenY.publicKey else tokenX.publicKey) ∧
      (tokenX.publicKey ≠ tokenY.publicKey → req.inToken ≠ req.outToken) := by
  obtain ⟨t, ht, hsend⟩ := swap_trace env userKeypair p amount isXtoY slippageBps s h g1 g2 g3
    A S binArrays quote tokenX tokenY hpool hamount hbins hbinsOk hslip hquote hquoteOk hX hY
    hswap
  refine ⟨_, t, newEvents_of_append ht, hsend, rfl, rfl, ?_⟩
  intro hne
  cases isXtoY
  · simpa using fun heq => hne heq.symm
  · simpa using hne

/-- Witness of C20: on the pool `initializePool` stores, a swap from X to Y asks
for the bin arrays and the quote with `false` and names the X token as input. -/
theorem swap_inverts_direction_witness :
    ∃ (req : SwapRequest) (t : Trace),
      newEvents initializedService
        (swap mockEnv mockUser "A" (Amount.num 1000000) true none initializedService).2 =
        Event.getBinArrayForSwap "A" (!true) ::
          Event.swapQuote "A" { val := 1000000 } (!true) { val := 100 } ["bin1", "bin2"] ::
          Event.swap "A" req :: t ∧
      (∀ e ∈ t, Event.isSend e) ∧
      req.inToken = { str := "6p6xgHyF7AeE6TZkSmFsko444wqoP15icUSqi2jfGiPN" } ∧
      req.outToken = { str := "EPjFWdd5AufqSSqeM2qN1xzybapC8G4wEGGkZwyTDt1v" } ∧
      ((({ str := "6p6xgHyF7AeE6TZkSmFsko444wqoP15icUSqi2jfGiPN" } : PublicKey) ≠
          { str := "EPjFWdd5AufqSSqeM2qN1xzybapC8G4wEGGkZwyTDt1v" }) →
        req.inToken ≠ req.outToken) :=
  swap_inverts_direction mockEnv mockUser "A" (Amount.num 1000000) true none initializedService
    (mockPool mockEnv { rpcUrl := "http://127.0.0.1:8899" } { str := "A" }
      { str := "6p6xgHyF7AeE6TZkSmFsko444wqoP15icUSqi2jfGiPN" }
      { str := "EPjFWdd5AufqSSqeM2qN1xzybapC8G4wEGGkZwyTDt1v" })
    (fun _ _ => Except.ok ["bin1", "bin2"])
    (fun _ _ _ _ _ => Except.ok { binArraysPubkey := ["bin1", "bin2"], minOutAmount := { val := 90 } })
    (fun _ _ => Except.ok (Tx.obj [] []))
    { val := 1000000 } { val := 100 } ["bin1", "bin2"]
    { binArraysPubkey := ["bin1", "bin2"], minOutAmount := { val := 90 } }
    { publicKey := { str := "6p6xgHyF7AeE6TZkSmFsko444wqoP15icUSqi2jfGiPN" }, decimals := some 9 }
    { publicKey := { str := "EPjFWdd5AufqSSqeM2qN1xzybapC8G4wEGGkZwyTDt1v" }, decimals := some 6 }
    rfl rfl rfl rfl rfl rfl rfl rfl rfl rfl

/-- The whole run of `swap` when the handle delivers the bin arrays, the quote
and the swap transaction: three SDK calls, one submission, and the result of
that submission, a fault wrapped. -/
theorem swap_run (env : Env) (userKeypair : Keypair) (p : String) (amount : Amount)
    (isXtoY : Bool) (slippageBps : Option Int) (s : St) (h : Handle)
    (g1 : Trace → Bool → Except Err (List String))
    (g2 : Trace → BN → Bool → BN → List String → Except Err SwapQuote)
    (g3 : Trace → SwapRequest → Except Err Tx)
    (A S : BN) (binArrays : List String) (quote : SwapQuote) (tokenX tokenY : TokenInfo)
    (swapTx : Tx)
    (hpool : mapGet s.dlmmPools p = some h)
    (hamount : (match amount with
      | Amount.bn b => Except.ok b
      | Amount.num n => env.newBN n) = Except.ok A)
    (hbins : h.getBinArrayForSwap = some g1)
    (hbinsOk : g1 s.trace (!isXtoY) = Except.ok binArrays)
    (hslip : env.newBN (slippageBps.getD 100) = Except.ok S)
    (hquote : h.swapQuote = some g2)
    (hquoteOk : g2 (s.trace ++ [Event.getBinArrayForSwap p (!isXtoY)]) A (!isXtoY) S binArrays =
      Except.ok quote)
    (hX : h.tokenX = some tokenX) (hY : h.tokenY = some tokenY)
    (hswap : h.swap = some g3)
    (hswapOk : g3 (s.trace ++ [Event.getBinArrayForSwap p (!isXtoY)] ++
        [Event.swapQuote p A (!isXtoY) S binArrays])
      (swapRequestFor userKeypair h tokenX tokenY isXtoY A quote) = Except.ok swapTx) :
    swap env userKeypair p amount isXtoY slippageBps s =
      (match env.sendAndConfirm
          (s.trace ++ [Event.getBinArrayForSwap p (!isXtoY)] ++
            [Event.swapQuote p A (!isXtoY) S binArrays] ++
            [Event.swap p (swapRequestFor userKeypair h tokenX tokenY isXtoY A quote)])
          s.connection swapTx [userKeypair] with
        | Except.ok txHash => Except.ok txHash
        | Except.error e => Except.error ("Failed to swap: " ++ e),
       { s with trace := s.trace ++ [Event.getBinArrayForSwap p (!isXtoY)] ++
          [Event.swapQuote p A (!isXtoY) S binArrays] ++
          [Event.swap p (swapRequestFor userKeypair h tokenX tokenY isXtoY A quote)] ++
          [Event.sendAndConfirmTransaction swapTx [userKeypair]] }) := by
  have hin : tokenPublicKey (if isXtoY then h.tokenX else h.tokenY) =
      pure (if isXtoY then tokenX.publicKey else tokenY.publicKey) := by
    cases isXtoY <;> simp [tokenPublicKey, hX, hY]
  have hout : tokenPublicKey (if isXtoY then h.tokenY else h.tokenX) =
      pure (if isXtoY then tokenY.publicKey else tokenX.publicKey) := by
    cases isXtoY <;> simp [tokenPublicKey, hX, hY]
  simp only [swapRequestFor] at hswapOk ⊢
  cases amount with
  | bn b =>
    simp only [Except.ok.injEq] at hamount
    subst hamount
    simp only [swap, run_bind, run_checkPool_some hpool, run_tryCatch, callMethod, hbins,
      Option.map_some', run_callExternal, hbinsOk, run_liftExcept, hslip, hquote, hquoteOk,
      hin, hout, run_pure, hswap, hswapOk, sendAndConfirmTransaction, run_getSt]
    cases env.sendAndConfirm _ _ swapTx [userKeypair] <;> simp [run_throwErr]
  | num n =>
    simp only [] at hamount
    simp only [swap, run_bind, run_checkPool_some hpool, run_tryCatch, callMethod, hbins,
      Option.map_some', run_callExternal, hbinsOk, run_liftExcept, hamount, hslip, hquote,
      hquoteOk, hin, hout, run_pure, hswap, hswapOk, sendAndConfirmTransaction, run_getSt]
    cases env.sendAndConfirm _ _ swapTx [userKeypair] <;> simp [run_throwErr]

/-- C21: in `swap`, the quote is requested with the caller's amount (as a `BN`),
the slippage tolerance (the `BN` of 100 when omitted) and the bin arrays just
fetched; the swap request carries the quote's `minOutAmount` and
`binArraysPubkey` and the caller's amount as `inAmount`; the one transaction
the SDK builds is the only one submitted; and `swap` returns the identifier
that submission returns. -/
theorem swap_uses_quote (env : Env) (userKeypair : Keypair) (p : String) (amount : Amount)
    (isXtoY : Bool) (slippageBps : Option Int) (s : St) (h : Handle)
    (g1 : Trace → Bool → Except Err (List String))
    (g2 : Trace → BN → Bool → BN → List String → Except Err SwapQuote)
    (g3 : Trace → SwapRequest → Except Err Tx)
    (A S : BN) (binArrays : List String) (quote : SwapQuote) (tokenX tokenY : TokenInfo)
    (swapTx : Tx)
    (hpool : mapGet s.dlmmPools p = some h)
    (hamount : (match amount with
      | Amount.bn b => Except.ok b
      | Amount.num n => env.newBN n) = Except.ok A)
    (hbins : h.getBinArrayForSwap = some g1)
    (hbinsOk : g1 s.trace (!isXtoY) = Except.ok binArrays)
    (hslip : env.newBN (slippageBps.getD 100) = Except.ok S)
    (hquote : h.swapQuote = some g2)
    (hquoteOk : g2 (s.trace ++ [Event.getBinArrayForSwap p (!isXtoY)]) A (!isXtoY) S binArrays =
      Except.ok quote)
    (hX : h.tokenX = some tokenX) (hY : h.tokenY = some tokenY)
    (hswap : h.swap = some g3)
    (hswapOk : g3 (s.trace ++ [Event.getBinArrayForSwap p (!isXtoY)] ++
        [Event.swapQuote p A (!isXtoY) S binArrays])
      (swapRequestFor userKeypair h tokenX tokenY isXtoY A quote) = Except.ok swapTx) :
    ∃ req : SwapRequest,
      newEvents s (swap env userKeypair p amount isXtoY slippageBps s).2 =
        [Event.getBinArrayForSwap p (!isXtoY),
         Event.swapQuote p A (!isXtoY) S binArrays,
         Event.swap p req,
         Event.sendAndConfirmTransaction swapTx [userKeypair]] ∧
      req.minOutAmount = quote.minOutAmount ∧
      req.binArraysPubkey = quote.binArraysPubkey ∧
      req.inAmount = A ∧
      (∀ b : BN, amount = Amount.bn b → A = b) ∧
      (∀ n : Int, amount = Amount.num n → env.newBN n = Except.ok A) ∧
      (slippageBps = none → env.newBN 100 = Except.ok S) ∧
      sentTxs (newEvents s (swap env userKeypair p amount isXtoY slippageBps s).2) = [swapTx] ∧
      ∀ txHash : String,
        env.sendAndConfirm
          (s.trace ++ [Event.getBinArrayForSwap p (!isXtoY)] ++
            [Event.swapQuote p A (!isXtoY) S binArrays] ++ [Event.swap p req])
          s.connection swapTx [userKeypair] = Except.ok txHash →
        (swap env userKeypair p amount isXtoY slippageBps s).1 = Except.ok txHash := by
  have hrun := swap_run env userKeypair p amount isXtoY slippageBps s h g1 g2 g3 A S binArrays
    quote tokenX tokenY swapTx hpool hamount hbins hbinsOk hslip hquote hquoteOk hX hY hswap
    hswapOk
  have hevents : newEvents s (swap env userKeypair p amount isXtoY slippageBps s).2 =
      [Event.getBinArrayForSwap p (!isXtoY),
       Event.swapQuote p A (!isXtoY) S binArrays,
       Event.swap p (swapRequestFor userKeypair h tokenX tokenY isXtoY A quote),
       Event.sendAndConfirmTransaction swapTx [userKeypair]] := by
    apply newEvents_of_append
    rw [hrun]
    simp
  refine ⟨swapRequestFor userKeypair h tokenX tokenY isXtoY A quote, hevents, rfl, rfl, rfl,
    ?_, ?_, ?_, ?_, ?_⟩
  · intro b hb
    subst hb
    simpa using hamount.symm
  · intro n hn
    subst hn
    exact hamount
  · intro hnone
    subst hnone
    exact hslip
  · rw [hevents]
    rfl
  · intro txHash hsend
    rw [hrun, hsend]

/-- Witness of C21: on the pool `initializePool` stores, with the mocked
libraries, the swap request carries the quote's `minOutAmount` 90 and bin
arrays, one transaction is submitted, and `swap` returns `txHash`. -/
theorem swap_uses_quote_witness :
    (∃ req : SwapRequest,
      newEvents initializedService
        (swap mockEnv mockUser "A" (Amount.num 1000000) true none initializedService).2 =
        [Event.getBinArrayForSwap "A" (!true),
         Event.swapQuote "A" { val := 1000000 } (!true) { val := 100 } ["bin1", "bin2"],
         Event.swap "A" req,
         Event.sendAndConfirmTransaction (Tx.obj [] []) [mockUser]] ∧
      req.minOutAmount = { val := 90 } ∧ req.binArraysPubkey = ["bin1", "bin2"] ∧
      req.inAmount = { val := 1000000 }) ∧
    (swap mockEnv mockUser "A" (Amount.num 1000000) true none initializedService).1 =
      Except.ok "txHash" := by
  obtain ⟨req, hev, hmin, hbins, hin, -, -, -, -, hret⟩ :=
    swap_uses_quote mockEnv mockUser "A" (Amount.num 1000000) true none initializedService
      (mockPool mockEnv { rpcUrl := "http://127.0.0.1:8899" } { str := "A" }
        { str := "6p6xgHyF7AeE6TZkSmFsko444wqoP15icUSqi2jfGiPN" }
        { str := "EPjFWdd5AufqSSqeM2qN1xzybapC8G4wEGGkZwyTDt1v" })
      (fun _ _ => Except.ok ["bin1", "bin2"])
      (fun _ _ _ _ _ =>
        Except.ok { binArraysPubkey := ["bin1", "bin2"], minOutAmount := { val := 90 } })
      (fun _ _ => Except.ok (Tx.obj [] []))
      { val := 1000000 } { val := 100 } ["bin1", "bin2"]
      { binArraysPubkey := ["bin1", "bin2"], minOutAmount := { val := 90 } }
      { publicKey := { str := "6p6xgHyF7AeE6TZkSmFsko444wqoP15icUSqi2jfGiPN" },
        decimals := some 9 }
      { publicKey := { str := "EPjFWdd5AufqSSqeM2qN1xzybapC8G4wEGGkZwyTDt1v" },
        decimals := some 6 }
      (Tx.obj [] []) rfl rfl rfl rfl rfl rfl rfl rfl rfl rfl rfl
  exact ⟨⟨req, hev, hmin, hbins, hin⟩, hret "txHash" rfl⟩

/-! ## `claimSwapFees` and `closePositions` -/

theorem claimRequests_append (t1 t2 : Trace) :
    claimRequests (t1 ++ t2) = claimRequests t1 ++ claimRequests t2 := by
  induction t1 with
  | nil => rfl
  | cons e rest ih => cases e <;> simp [claimRequests, ih]

theorem claimRequests_of_isSend (t : Trace) (ht : ∀ e ∈ t, Event.isSend e) :
    claimRequests t = [] := by
  induction t with
  | nil => rfl
  | cons e rest ih =>
    have he := ht e (List.mem_cons_self _ _)
    have hrest := ih (fun e' he' => ht e' (List.mem_cons_of_mem _ he'))
    cases e <;> simp_all [claimRequests, Event.isSend]

theorem claimRequests_of_isListing (t : Trace) (ht : ∀ e ∈ t, Event.isListing e) :
    claimRequests t = [] := by
  induction t with
  | nil => rfl
  | cons e rest ih =>
    have he := ht e (List.mem_cons_self _ _)
    have hrest := ih (fun e' he' => ht e' (List.mem_cons_of_mem _ he'))
    cases e <;> simp_all [claimRequests, Event.isListing]

/-- C22 as stated fails: for two target positions `claimSwapFees` sends one
claim request, not two. -/
theorem claimSwapFees_two_targets_one_request :
    twoPositions.length = 2 ∧
    (claimRequests (newEvents (serviceWith "A" fullSdkPool)
      (claimSwapFees mockEnv mockUser "A" (some twoPositions)
        (serviceWith "A" fullSdkPool)).2)).length = 1 ∧
    (claimSwapFees mockEnv mockUser "A" (some twoPositions) (serviceWith "A" fullSdkPool)).1 =
      Except.ok (some "Successfully claimed swap fees") :=
  ⟨rfl, by decide, rfl⟩

/-- The claim requests of `claimSwapFees` on a handle that has
`claimAllSwapFee`: for a non-empty list of target positions, exactly one
request, for the user as owner, carrying all the target positions in their
order. -/
theorem claimSwapFees_with_method (env : Env) (userKeypair : Keypair) (p : String)
    (specificPositions : Option (List Position)) (s s0 : St) (h : Handle)
    (f : Trace → ClaimRequest → Except Err TxResult) (positions : List Position)
    (hpool : mapGet s.dlmmPools p = some h)
    (hm : h.claimAllSwapFee = some f)
    (hres : (match specificPositions with
      | some given => (Except.ok given, s)
      | none => getUserPositions env p userKeypair.publicKey s) = (Except.ok positions, s0))
    (hne : positions ≠ []) :
    claimRequests (newEvents s (claimSwapFees env userKeypair p specificPositions s).2) =
      [(p, { owner := userKeypair.publicKey, positions := positions })] := by
  have hlen : ¬ positions.length = 0 := by
    intro h0
    exact hne (List.length_eq_zero.mp h0)
  have hnil : claimRequests ([] : Trace) = [] := rfl
  cases specificPositions with
  | some given =>
    simp only [Prod.mk.injEq, Except.ok.injEq] at hres
    obtain ⟨hg, hs⟩ := hres
    subst hg hs
    simp only [claimSwapFees, run_bind, run_checkPool_some hpool, run_tryCatch, run_pure, hlen,
      if_false, callMethod, hm, Option.map_some']
    simp only [run_callExternal, run_throwErr, run_pure]
    cases f s.trace _ with
    | error e =>
      simp only []
      rw [newEvents_of_append (t := ([] : Trace) ++ [Event.claimAllSwapFee p
        { owner := userKeypair.publicKey, positions := given }])
        (by simp), claimRequests_append, hnil]
      rfl
    | ok txr =>
      simp only []
      rcases hsub : submit env userKeypair txr _ with ⟨r3, s3⟩
      obtain ⟨-, -, t3, ht3, hsend⟩ := Extends.of_run (submit_extends env userKeypair txr) hsub
      have hs3 : s3.trace = s.trace ++ (([] : Trace) ++ [Event.claimAllSwapFee p
          { owner := userKeypair.publicKey, positions := given }] ++ t3) := by
        rw [ht3]; simp
      cases r3 with
      | error e =>
        simp only []
        rw [newEvents_of_append hs3, claimRequests_append, claimRequests_append, hnil,
          claimRequests_of_isSend t3 hsend]
        rfl
      | ok u =>
        simp only []
        rw [newEvents_of_append hs3, claimRequests_append, claimRequests_append, hnil,
          claimRequests_of_isSend t3 hsend]
        rfl
  | none =>
    simp only [] at hres
    obtain ⟨-, -, t1, ht1, hl1⟩ :=
      Extends.of_run (getUserPositions_extends env p userKeypair.publicKey) hres
    have hc1 := claimRequests_of_isListing t1 hl1
    simp only [claimSwapFees, run_bind, run_checkPool_some hpool, run_tryCatch, hres, hlen,
      if_false, callMethod, hm, Option.map_some']
    simp only [run_callExternal, run_throwErr, run_pure]
    cases f s0.trace _ with
    | error e =>
      simp only []
      rw [newEvents_of_append (t := t1 ++ [Event.claimAllSwapFee p
        { owner := userKeypair.publicKey, positions := positions }])
        (by simp [ht1]), claimRequests_append, hc1]
      rfl
    | ok txr =>
      simp only []
      rcases hsub : submit env userKeypair txr _ with ⟨r3, s3⟩
      obtain ⟨-, -, t3, ht3, hsend⟩ := Extends.of_run (submit_extends env userKeypair txr) hsub
      have hs3 : s3.trace = s.trace ++ (t1 ++ [Event.claimAllSwapFee p
          { owner := userKeypair.publicKey, positions := positions }] ++ t3) := by
        rw [ht3]; simp [ht1]
      cases r3 with
      | error e =>
        simp only []
        rw [newEvents_of_append hs3, claimRequests_append, claimRequests_append, hc1,
          claimRequests_of_isSend t3 hsend]
        rfl
      | ok u =>
        simp only []
        rw [newEvents_of_append hs3, claimRequests_append, claimRequests_append, hc1,
          claimRequests_of_isSend t3 hsend]
        rfl

/-- The outcome of `claimSwapFees` on a handle that lacks `claimAllSwapFee`: for
a non-empty list of target positions the call of the missing method throws, no
claim request is sent, and the fault comes back wrapped. -/
theorem claimSwapFees_without_method (env : Env) (userKeypair : Keypair) (p : String)
    (specificPositions : Option (List Position)) (s s0 : St) (h : Handle)
    (positions : List Position)
    (hpool : mapGet s.dlmmPools p = some h)
    (hm : h.claimAllSwapFee = none)
    (hres : (match specificPositions with
      | some given => (Except.ok given, s)
      | none => getUserPositions env p userKeypair.publicKey s) = (Except.ok positions, s0))
    (hne : positions ≠ []) :
    claimSwapFees env userKeypair p specificPositions s =
      (Except.error ("Failed to claim swap fees: " ++
        ("dlmmPool." ++ "claimAllSwapFee" ++ " is not a function")), s0) ∧
    claimRequests (newEvents s s0) = [] := by
  have hlen : ¬ positions.length = 0 := by
    intro h0
    exact hne (List.length_eq_zero.mp h0)
  cases specificPositions with
  | some given =>
    simp only [Prod.mk.injEq, Except.ok.injEq] at hres
    obtain ⟨hg, hs⟩ := hres
    subst hg hs
    refine ⟨?_, ?_⟩
    · simp only [claimSwapFees, run_bind, run_checkPool_some hpool, run_tryCatch, run_pure, hlen,
        if_false, callMethod, hm, Option.map_none', run_throwErr]
    · simp [newEvents, claimRequests]
  | none =>
    simp only [] at hres
    obtain ⟨-, -, t1, ht1, hl1⟩ :=
      Extends.of_run (getUserPositions_extends env p userKeypair.publicKey) hres
    refine ⟨?_, ?_⟩
    · simp only [claimSwapFees, run_bind, run_checkPool_some hpool, run_tryCatch, hres, hlen,
        if_false, callMethod, hm, Option.map_none', run_throwErr]
    · rw [newEvents_of_append ht1]
      exact claimRequests_of_isListing t1 hl1

/-- C22 (amended): on an initialized pool, for every non-empty list of target
positions (the given list, or the positions the listing returns when none is
given), `claimSwapFees` sends at most one claim request, never one per
position.  When the handle has `claimAllSwapFee`, exactly one request is sent,
for the user as owner, carrying all the target positions in their order.  When
the handle lacks the method, as the handles that `initializePool` stores do,
no request is sent and the call fails with `Failed to claim swap fees:
dlmmPool.claimAllSwapFee is not a function`. -/
theorem claimSwapFees_at_most_one_request (env : Env) (userKeypair : Keypair) (p : String)
    (specificPositions : Option (List Position)) (s s0 : St) (h : Handle)
    (positions : List Position)
    (hpool : mapGet s.dlmmPools p = some h)
    (hres : (match specificPositions with
      | some given => (Except.ok given, s)
      | none => getUserPositions env p userKeypair.publicKey s) = (Except.ok positions, s0))
    (hne : positions ≠ []) :
    (claimRequests (newEvents s (claimSwapFees env userKeypair p specificPositions s).2)).length
      ≤ 1 ∧
    (∀ f : Trace → ClaimRequest → Except Err TxResult, h.claimAllSwapFee = some f →
      claimRequests (newEvents s (claimSwapFees env userKeypair p specificPositions s).2) =
        [(p, { owner := userKeypair.publicKey, positions := positions })]) ∧
    (h.claimAllSwapFee = none →
      claimRequests (newEvents s (claimSwapFees env userKeypair p specificPositions s).2) = [] ∧
      (claimSwapFees env userKeypair p specificPositions s).1 =
        Except.error ("Failed to claim swap fees: " ++
          ("dlmmPool." ++ "claimAllSwapFee" ++ " is not a function"))) := by
  have hsome : ∀ f : Trace → ClaimRequest → Except Err TxResult, h.claimAllSwapFee = some f →
      claimRequests (newEvents s (claimSwapFees env userKeypair p specificPositions s).2) =
        [(p, { owner := userKeypair.publicKey, positions := positions })] :=
    fun f hm => claimSwapFees_with_method env userKeypair p specificPositions s s0 h f positions
      hpool hm hres hne
  have hnone : h.claimAllSwapFee = none →
      claimRequests (newEvents s (claimSwapFees env userKeypair p specificPositions s).2) = [] ∧
      (claimSwapFees env userKeypair p specificPositions s).1 =
        Except.error ("Failed to claim swap fees: " ++
          ("dlmmPool." ++ "claimAllSwapFee" ++ " is not a function")) := by
    intro hm
    obtain ⟨hrun, hreq⟩ := claimSwapFees_without_method env userKeypair p specificPositions s s0
      h positions hpool hm hres hne
    rw [hrun]
    exact ⟨hreq, rfl⟩
  refine ⟨?_, hsome, hnone⟩
  cases hm : h.claimAllSwapFee with
  | some f => rw [hsome f hm]; exact Nat.le_refl 1
  | none => rw [(hnone hm).1]; exact Nat.zero_le 1

/-- Witness of C22: on the handle of the unit tests two given positions travel
in one request; on the handle that `initializePool` stores no request is sent
and the call fails. -/
theorem claimSwapFees_at_most_one_request_witness :
    claimRequests (newEvents (serviceWith "A" fullSdkPool)
      (claimSwapFees mockEnv mockUser "A" (some twoPositions) (serviceWith "A" fullSdkPool)).2) =
      [("A", { owner := mockUser.publicKey, positions := twoPositions })] ∧
    (claimRequests (newEvents initializedService
      (claimSwapFees mockEnv mockUser "A" (some twoPositions) initializedService).2) = [] ∧
     (claimSwapFees mockEnv mockUser "A" (some twoPositions) initializedService).1 =
      Except.error ("Failed to claim swap fees: " ++
        ("dlmmPool." ++ "claimAllSwapFee" ++ " is not a function"))) :=
  ⟨(claimSwapFees_at_most_one_request mockEnv mockUser "A" (some twoPositions)
      (serviceWith "A" fullSdkPool) (serviceWith "A" fullSdkPool) fullSdkPool twoPositions
      rfl rfl (by decide)).2.1
      (fun _ _ => Except.ok (TxResult.single (Tx.raw "claimFeeTx"))) rfl,
   (claimSwapFees_at_most_one_request mockEnv mockUser "A" (some twoPositions)
      initializedService initializedService
      (mockPool mockEnv { rpcUrl := "http://127.0.0.1:8899" } { str := "A" }
        { str := "6p6xgHyF7AeE6TZkSmFsko444wqoP15icUSqi2jfGiPN" }
        { str := "EPjFWdd5AufqSSqeM2qN1xzybapC8G4wEGGkZwyTDt1v" })
      twoPositions rfl rfl (by decide)).2.2 rfl⟩

theorem closeRequests_append (t1 t2 : Trace) :
    closeRequests (t1 ++ t2) = closeRequests t1 ++ closeRequests t2 := by
  induction t1 with
  | nil => rfl
  | cons e rest ih => cases e <;> simp [closeRequests, ih]

theorem closeRequests_of_isListing (t : Trace) (ht : ∀ e ∈ t, Event.isListing e) :
    closeRequests t = [] := by
  induction t with
  | nil => rfl
  | cons e rest ih =>
    have he := ht e (List.mem_cons_self _ _)
    have hrest := ih (fun e' he' => ht e' (List.mem_cons_of_mem _ he'))
    cases e <;> simp_all [closeRequests, Event.isListing]

theorem closeRequests_closeEvents (userKeypair : Keypair) (p : String) :
    ∀ (targets : List PublicKey) (txs : List Tx), txs.length = targets.length →
      closeRequests (closeEvents userKeypair p (targets.zip txs)) =
        targets.map (fun target =>
          (p, ({ owner := userKeypair.publicKey, position := target } : CloseRequest))) := by
  intro targets
  induction targets with
  | nil => intro txs _; simp [closeEvents, closeRequests]
  | cons target rest ih =>
    intro txs hlen
    cases txs with
    | nil => simp at hlen
    | cons tx txs =>
      simp only [List.length_cons, Nat.add_right_cancel_iff] at hlen
      show _ :: closeRequests (closeEvents userKeypair p (rest.zip txs)) = _
      rw [ih txs hlen]
      rfl

theorem sentTxs_closeEvents (userKeypair : Keypair) (p : String) :
    ∀ (targets : List PublicKey) (txs : List Tx), txs.length = targets.length →
      sentTxs (closeEvents userKeypair p (targets.zip txs)) = txs := by
  intro targets
  induction targets with
  | nil =>
    intro txs hlen
    cases txs with
    | nil => rfl
    | cons tx txs => simp at hlen
  | cons target rest ih =>
    intro txs hlen
    cases txs with
    | nil => simp at hlen
    | cons tx txs =>
      simp only [List.length_cons, Nat.add_right_cancel_iff] at hlen
      show tx :: sentTxs (closeEvents userKeypair p (rest.zip txs)) = _
      rw [ih txs hlen]

theorem closeTxs_length (userKeypair : Keypair) (p : String)
    (build : Trace → CloseRequest → Tx) :
    ∀ (targets : List PublicKey) (hist : Trace),
      (closeTxs userKeypair p build hist targets).length = targets.length := by
  intro targets
  induction targets with
  | nil => intro hist; rfl
  | cons target rest ih => intro hist; simp [closeTxs, ih]

/-- The close loop when neither the builder nor the submission ever faults: it
completes, and its history is, target by target, the request followed by the
submission of the transaction the builder returned for it. -/
theorem closeLoop_run (env : Env) (userKeypair : Keypair) (p : String) (dlmmPool : Handle)
    (f : Trace → CloseRequest → Except Err Tx) (build : Trace → CloseRequest → Tx)
    (connection : Connection)
    (hm : dlmmPool.closePosition = some f)
    (hbuild : ∀ (hist : Trace) (req : CloseRequest), f hist req = Except.ok (build hist req))
    (hsend : ∀ (hist : Trace) (tx : Tx),
      ∃ txHash, env.sendAndConfirm hist connection tx [userKeypair] = Except.ok txHash) :
    ∀ (targets : List PublicKey) (s : St), s.connection = connection →
      closeLoop env userKeypair p dlmmPool targets s =
        (Except.ok (),
          { s with trace := (s.trace ++ closeEvents userKeypair p
              (targets.zip (closeTxs userKeypair p build s.trace targets))) }) := by
  intro targets
  induction targets with
  | nil =>
    intro s _
    simp [closeLoop, run_pure, closeEvents, closeTxs]
  | cons target rest ih =>
    intro s hconn
    subst hconn
    obtain ⟨txHash, hhash⟩ := hsend (s.trace ++ [Event.closePosition p
      { owner := userKeypair.publicKey, position := target }])
      (build s.trace { owner := userKeypair.publicKey, position := target })
    have hrest := ih
      { s with trace := s.trace ++ [Event.closePosition p
          { owner := userKeypair.publicKey, position := target }] ++
          [Event.sendAndConfirmTransaction
            (build s.trace { owner := userKeypair.publicKey, position := target })
            [userKeypair]] } rfl
    simp only [closeLoop, run_bind, callMethod, hm, Option.map_some', run_callExternal, hbuild,
      sendAndConfirmTransaction, run_getSt, hhash, hrest]
    simp only [List.append_assoc, List.singleton_append, List.cons_append, List.nil_append]
    rfl

/-- C23: for every non-empty list of targets (the given list, or the public
keys of the listed positions when none is given), when neither the builder nor
the submission faults, `closePositions` returns `Successfully closed positions`;
what it adds to the history after resolving the targets is, target by target in
order, one `closePosition` request with the user as owner followed by the
submission of the transaction the builder returned for it, so the next request
is built only after that submission; the close requests are exactly one per
target, and the submitted transactions are exactly the built ones. -/
theorem closePositions_sequential (env : Env) (userKeypair : Keypair) (p : String)
    (specificPositions : Option (List PublicKey)) (s s0 : St) (h : Handle)
    (f : Trace → CloseRequest → Except Err Tx) (build : Trace → CloseRequest → Tx)
    (targets : List PublicKey)
    (hpool : mapGet s.dlmmPools p = some h)
    (hm : h.closePosition = some f)
    (hbuild : ∀ (hist : Trace) (req : CloseRequest), f hist req = Except.ok (build hist req))
    (hsend : ∀ (hist : Trace) (tx : Tx),
      ∃ txHash, env.sendAndConfirm hist s.connection tx [userKeypair] = Except.ok txHash)
    (hres : resolveTargets env userKeypair p { specificPositions := specificPositions } s =
      (Except.ok targets, s0))
    (hne : targets ≠ []) :
    closePositions env userKeypair p specificPositions s =
        (Except.ok (some "Successfully closed positions"),
          { s0 with trace := (s0.trace ++ closeEvents userKeypair p
              (targets.zip (closeTxs userKeypair p build s0.trace targets))) }) ∧
      closeRequests (newEvents s (closePositions env userKeypair p specificPositions s).2) =
        targets.map (fun target =>
          (p, ({ owner := userKeypair.publicKey, position := target } : CloseRequest))) ∧
      sentTxs (newEvents s (closePositions env userKeypair p specificPositions s).2) =
        closeTxs userKeypair p build s0.trace targets := by
  have hlen : ¬ targets.length = 0 := by
    intro h0
    exact hne (List.length_eq_zero.mp h0)
  have hext : Extends Event.isListing s s0 := by
    cases specificPositions with
    | some given =>
      simp only [resolveTargets, run_pure, Prod.mk.injEq] at hres
      rw [← hres.2]
      exact Extends.refl _ s
    | none =>
      simp only [resolveTargets, run_bind] at hres
      rcases hrun : getUserPositions env p userKeypair.publicKey s with ⟨r, s1⟩
      rw [hrun] at hres
      have hx := Extends.of_run (getUserPositions_extends env p userKeypair.publicKey) hrun
      cases r with
      | error e => simp at hres
      | ok l =>
        simp only [run_pure, Prod.mk.injEq] at hres
        rw [← hres.2]
        exact hx
  obtain ⟨hconn, -, t1, ht1, hl1⟩ := hext
  have hloop := closeLoop_run env userKeypair p h f build s.connection hm hbuild hsend
    targets s0 hconn
  have hrun : closePositions env userKeypair p specificPositions s =
      (Except.ok (some "Successfully closed positions"),
        { s0 with trace := (s0.trace ++ closeEvents userKeypair p
            (targets.zip (closeTxs userKeypair p build s0.trace targets))) }) := by
    cases specificPositions with
    | some given =>
      simp only [resolveTargets, run_pure, Prod.mk.injEq, Except.ok.injEq] at hres
      obtain ⟨hg, hs⟩ := hres
      subst hg hs
      simp only [closePositions, run_bind, run_checkPool_some hpool, run_tryCatch, run_pure,
        hlen, if_false, hloop]
    | none =>
      simp only [resolveTargets, run_bind] at hres
      rcases hlist : getUserPositions env p userKeypair.publicKey s with ⟨r, s1⟩
      rw [hlist] at hres
      cases r with
      | error e => simp at hres
      | ok l =>
        simp only [run_pure, Prod.mk.injEq, Except.ok.injEq] at hres
        obtain ⟨hg, hs⟩ := hres
        subst hg hs
        simp only [closePositions, run_bind, run_checkPool_some hpool, run_tryCatch, run_pure,
          hlist, hlen, if_false, hloop]
  have htrace : (closePositions env userKeypair p specificPositions s).2.trace =
      s.trace ++ (t1 ++ closeEvents userKeypair p
        (targets.zip (closeTxs userKeypair p build s0.trace targets))) := by
    rw [hrun]
    simp [ht1]
  have hlen2 := closeTxs_length userKeypair p build targets s0.trace
  refine ⟨hrun, ?_, ?_⟩
  · rw [newEvents_of_append htrace, closeRequests_append, closeRequests_of_isListing t1 hl1,
      closeRequests_closeEvents userKeypair p targets _ hlen2]
    rfl
  · rw [newEvents_of_append htrace, sentTxs_append, sentTxs_of_isListing t1 hl1,
      sentTxs_closeEvents userKeypair p targets _ hlen2]
    rfl

/-- Witness of C23: two given targets on the handle of the unit tests. -/
theorem closePositions_sequential_witness :
    closePositions mockEnv mockUser "A" (some [{ str := "first" }, { str := "second" }])
        (serviceWith "A" fullSdkPool) =
      (Except.ok (some "Successfully closed positions"),
        { serviceWith "A" fullSdkPool with
          trace := ((serviceWith "A" fullSdkPool).trace ++ closeEvents mockUser "A"
            (([{ str := "first" }, { str := "second" }] : List PublicKey).zip
              (closeTxs mockUser "A" (fun _ _ => Tx.raw "closePositionTx")
                (serviceWith "A" fullSdkPool).trace
                [{ str := "first" }, { str := "second" }]))) }) ∧
      closeRequests (newEvents (serviceWith "A" fullSdkPool)
        (closePositions mockEnv mockUser "A" (some [{ str := "first" }, { str := "second" }])
          (serviceWith "A" fullSdkPool)).2) =
        ([{ str := "first" }, { str := "second" }] : List PublicKey).map (fun target =>
          ("A", ({ owner := mockUser.publicKey, position := target } : CloseRequest))) ∧
      sentTxs (newEvents (serviceWith "A" fullSdkPool)
        (closePositions mockEnv mockUser "A" (some [{ str := "first" }, { str := "second" }])
          (serviceWith "A" fullSdkPool)).2) =
        closeTxs mockUser "A" (fun _ _ => Tx.raw "closePositionTx")
          (serviceWith "A" fullSdkPool).trace [{ str := "first" }, { str := "second" }] :=
  closePositions_sequential mockEnv mockUser "A"
    (some [{ str := "first" }, { str := "second" }]) (serviceWith "A" fullSdkPool)
    (serviceWith "A" fullSdkPool) fullSdkPool (fun _ _ => Except.ok (Tx.raw "closePositionTx"))
    (fun _ _ => Tx.raw "closePositionTx") [{ str := "first" }, { str := "second" }]
    rfl rfl (fun _ _ => rfl) (fun _ _ => ⟨"txHash", rfl⟩) rfl (by decide)

/-! ## The keeper client: one GET per call, and its outcome -/

theorem foldl_append_pairs (params : JsObj) (keys : List String) (url : Url) :
    keys.foldl
      (fun u key => u.append key (jsToString ((mapGet params key).getD JsVal.undefined))) url =
    { url with appended := (url.appended ++ keys.map
        (fun key => (key, jsToString ((mapGet params key).getD JsVal.undefined)))) } := by
  induction keys generalizing url with
  | nil => simp
  | cons k rest ih =>
    rw [List.foldl_cons, ih]
    simp [Url.append]

/-- What `_fetch` hands to `fetch`: one request, whatever the outcome. -/
theorem fetch_requests (web : Web) (endpoint : String) (params : Option JsObj) :
    (Keeper._fetch web endpoint params).2 = [requestFor web.href endpoint (params.getD [])] := by
  simp only [Keeper._fetch, foldl_append_pairs, List.nil_append, requestFor, queryPairs]
  cases web.fetch _ with
  | error e => rfl
  | ok response =>
    simp only []
    cases response.ok with
    | true => rfl
    | false =>
      simp only [Bool.not_false, if_true]
      cases response.text <;> rfl

theorem run_eq_fetch (web : Web) (call : KeeperCall) :
    call.run web = Keeper._fetch web call.endpoint (some call.params) := by
  cases call <;> rfl
theorem isFormSafe_bound {n : Nat} (h : isFormSafe n = true) : n < 0x80 ∧ n ≠ 0x20 := by
  simp only [isFormSafe, Bool.or_eq_true, Bool.and_eq_true, decide_eq_true_eq] at h
  omega

theorem formEncode_chars (l : List Char) (h : ∀ c ∈ l, isFormSafe c.toNat = true) :
    (l.flatMap (fun c => utf8Bytes c.toNat)).flatMap formEncodeByte = l := by
  induction l with
  | nil => rfl
  | cons c rest ih =>
    have hc := h c (List.mem_cons_self _ _)
    have hb := isFormSafe_bound hc
    have hrest := ih (fun c' hc' => h c' (List.mem_cons_of_mem _ hc'))
    have hhead : (utf8Bytes c.toNat).flatMap formEncodeByte = [c] := by
      simp only [utf8Bytes, if_pos hb.1, List.flatMap_cons, List.flatMap_nil, List.append_nil,
        formEncodeByte, if_neg hb.2, hc, if_true, Char.ofNat_toNat]
    rw [List.flatMap_cons, List.flatMap_append, hrest, hhead]
    rfl

/-- The form serializer leaves a string of safe characters as it is. -/
theorem formEncode_of_formSafe (s : String) (h : FormSafe s) : formEncode s = s := by
  unfold formEncode
  rw [formEncode_chars s.data h]

theorem queryPairs_eq_nil (params : JsObj) : queryPairs params = [] ↔ params = [] := by
  simp [queryPairs]

theorem containsText_api_error (status b : String) :
    containsText ("API Error " ++ status ++ ": " ++ b) ("API Error " ++ status) := by
  refine ⟨[], ": ".data ++ b.data, ?_⟩
  simp only [String.data_append, List.append_assoc, List.nil_append]

/-- The outcome of `_fetch`, by what `fetch` resolved to. -/
theorem fetch_outcome (web : Web) (endpoint : String) (params : Option JsObj) :
    (Keeper._fetch web endpoint params).1 =
      match web.fetch (requestFor web.href endpoint (params.getD [])) with
      | Except.error e => Except.error e
      | Except.ok response =>
        if response.ok = true then response.json
        else match response.text with
          | Except.error e => Except.error e
          | Except.ok b =>
            Except.error ("API Error " ++ toString response.status ++ ": " ++ b) := by
  simp only [Keeper._fetch, foldl_append_pairs, List.nil_append, requestFor, queryPairs]
  cases web.fetch _ with
  | error e => rfl
  | ok response =>
    simp only []
    cases response.ok with
    | true => rfl
    | false =>
      simp only [Bool.not_false, if_true]
      cases response.text <;> rfl

/-- C24 (counterexample): on a platform that prints URLs as the URL standard
does, `getAllPairsByGroups` with the mapping `sort: 'a b'` requests
`/pair/all_by_groups?sort=a+b`: the value is not carried as it is. -/
theorem getAllPairsByGroups_value_is_encoded :
    (Keeper.getAllPairsByGroups (standardWeb (Except.ok okResponse))
        (some [("sort", JsVal.str "a b")])).2 =
      [{ url := "https://dlmm-api.meteora.ag/pair/all_by_groups?sort=a+b"
         method := "GET"
         headers := [("Content-Type", "application/json")] }] ∧
    "https://dlmm-api.meteora.ag/pair/all_by_groups?sort=a+b" ≠
      Keeper.BASE_URL ++ "/pair/all_by_groups" ++ "?" ++ "sort" ++ "=" ++ "a b" := by
  constructor
  · rfl
  · decide

/-- C24 (amended): every keeper-client call hands exactly one request to `fetch`:
a GET with the JSON content type on the `URL` object built from `BASE_URL`
followed by the endpoint path of the method, to which one search parameter was
appended per key of the parameter mapping, in key order, with the string of the
value.  Where the platform prints that object as its text followed, when
parameters were appended, by `?` and their serialization (which is how the URL
standard prints a text that needs no normalization and has no query or fragment
of its own), the address is `BASE_URL`, the endpoint path and, when the mapping
is not empty, `?` and the pairs `name=value` joined by `&`, every name and
value passed through the form serializer (no `?` when the mapping is empty).
When all names and values consist of letters, digits, `*`, `-`, `.` and `_`,
the serializer changes nothing and the pairs appear as they are.  The mapping
is a JavaScript object whose numbers have integer values. -/
theorem keeper_single_get (web : Web) (call : KeeperCall)
    (_hobject : isJsObject call.params = true) :
    (call.run web).2 =
      [{ url := web.href { text := Keeper.BASE_URL ++ call.endpoint
                           appended := queryPairs call.params }
         method := "GET"
         headers := [("Content-Type", "application/json")] }] ∧
    (web.href { text := Keeper.BASE_URL ++ call.endpoint
                appended := queryPairs call.params } =
        standardHref { text := Keeper.BASE_URL ++ call.endpoint
                       appended := queryPairs call.params } →
      (call.run web).2 =
        [{ url := Keeper.BASE_URL ++ call.endpoint ++
             (if call.params = [] then ""
              else "?" ++ formQuery (queryPairs call.params))
           method := "GET"
           headers := [("Content-Type", "application/json")] }]) ∧
    ((∀ kv ∈ queryPairs call.params, FormSafe kv.1 ∧ FormSafe kv.2) →
      formQuery (queryPairs call.params) =
        "&".intercalate ((queryPairs call.params).map (fun kv => kv.1 ++ "=" ++ kv.2))) := by
  have hreq : (call.run web).2 =
      [{ url := web.href { text := Keeper.BASE_URL ++ call.endpoint
                           appended := queryPairs call.params }
         method := "GET"
         headers := [("Content-Type", "application/json")] }] := by
    rw [run_eq_fetch, fetch_requests]
    rfl
  refine ⟨hreq, ?_, ?_⟩
  · intro hweb
    rw [hreq, hweb]
    simp only [standardHref]
    by_cases hp : call.params = []
    · simp [hp, queryPairs]
    · have hq : queryPairs call.params ≠ [] := fun h => hp ((queryPairs_eq_nil _).mp h)
      simp [hp, hq, String.append_assoc]
  · intro hsafe
    unfold formQuery
    congr 1
    apply List.map_congr_left
    intro kv hkv
    rw [formEncode_of_formSafe kv.1 (hsafe kv hkv).1, formEncode_of_formSafe kv.2 (hsafe kv hkv).2]

/-- Witness of C24: the requests of the unit tests, and a number of days that
prints in exponent notation. -/
theorem keeper_single_get_witness :
    (KeeperCall.run (standardWeb (Except.ok okResponse)) (KeeperCall.getAllPairs none)).2 =
      [{ url := "https://dlmm-api.meteora.ag/pair/all?include_unknown=true"
         method := "GET"
         headers := [("Content-Type", "application/json")] }] ∧
    (KeeperCall.run (standardWeb (Except.ok okResponse)) (KeeperCall.getAllPairs (some false))).2 =
      [{ url := "https://dlmm-api.meteora.ag/pair/all?include_unknown=false"
         method := "GET"
         headers := [("Content-Type", "application/json")] }] ∧
    (KeeperCall.run (standardWeb (Except.ok okResponse))
      (KeeperCall.getAllPairsByGroups
        (some [("page", JsVal.num 1), ("limit", JsVal.num 10), ("sort", JsVal.str "tvl")]))).2 =
      [{ url := "https://dlmm-api.meteora.ag/pair/all_by_groups?page=1&limit=10&sort=tvl"
         method := "GET"
         headers := [("Content-Type", "application/json")] }] ∧
    (KeeperCall.run (standardWeb (Except.ok okResponse))
      (KeeperCall.getAllPairsByGroups none)).2 =
      [{ url := "https://dlmm-api.meteora.ag/pair/all_by_groups"
         method := "GET"
         headers := [("Content-Type", "application/json")] }] ∧
    (KeeperCall.run (standardWeb (Except.ok okResponse))
      (KeeperCall.getPairFeeBpsByDays "p" (JsVal.num (10 ^ 21)))).2 =
      [{ url := "https://dlmm-api.meteora.ag/pair/p/analytic/pair_fee_bps?num_of_days=1e%2B21"
         method := "GET"
         headers := [("Content-Type", "application/json")] }] :=
  ⟨((keeper_single_get (standardWeb (Except.ok okResponse)) (KeeperCall.getAllPairs none)
      (by decide)).2.1 rfl).trans rfl,
   ((keeper_single_get (standardWeb (Except.ok okResponse)) (KeeperCall.getAllPairs (some false))
      (by decide)).2.1 rfl).trans rfl,
   ((keeper_single_get (standardWeb (Except.ok okResponse))
      (KeeperCall.getAllPairsByGroups
        (some [("page", JsVal.num 1), ("limit", JsVal.num 10), ("sort", JsVal.str "tvl")]))
      (by decide)).2.1 rfl).trans rfl,
   ((keeper_single_get (standardWeb (Except.ok okResponse)) (KeeperCall.getAllPairsByGroups none)
      (by decide)).2.1 rfl).trans rfl,
   ((keeper_single_get (standardWeb (Except.ok okResponse))
      (KeeperCall.getPairFeeBpsByDays "p" (JsVal.num (10 ^ 21)))
      (by decide)).2.1 rfl).trans (by decide)⟩

/-- C25: for every keeper-client call, by what `fetch` resolved to for its
request: a non-success response with status `s` whose text is `b` makes the
call fail with the message `API Error s: b`, which contains `API Error s`; a
fault of `fetch` is the fault of the call, unchanged; and on a successful
response the call returns what `json()` resolves to, as it is. -/
theorem keeper_outcome (web : Web) (call : KeeperCall) :
    (∀ (response : Response) (b : String),
      web.fetch (requestFor web.href call.endpoint call.params) = Except.ok response →
      response.ok = false → response.text = Except.ok b →
      (call.run web).1 =
          Except.error ("API Error " ++ toString response.status ++ ": " ++ b) ∧
        containsText ("API Error " ++ toString response.status ++ ": " ++ b)
          ("API Error " ++ toString response.status)) ∧
    (∀ e : Err,
      web.fetch (requestFor web.href call.endpoint call.params) = Except.error e →
      (call.run web).1 = Except.error e) ∧
    (∀ response : Response,
      web.fetch (requestFor web.href call.endpoint call.params) = Except.ok response →
      response.ok = true → (call.run web).1 = response.json) := by
  rw [run_eq_fetch, fetch_outcome]
  simp only [Option.getD_some]
  refine ⟨?_, ?_, ?_⟩
  · intro response b hf hok htext
    rw [hf]
    simp only [hok, Bool.false_eq_true, if_false, htext]
    exact ⟨trivial, containsText_api_error _ _⟩
  · intro e hf
    rw [hf]
  · intro response hf hok
    rw [hf]
    simp only [hok, if_true]

/-- Witness of C25: the three cases of the unit tests on `getProtocolMetrics`. -/
theorem keeper_outcome_witness :
    ((KeeperCall.run (standardWeb (Except.ok notFoundResponse)) KeeperCall.getProtocolMetrics).1 =
        Except.error "API Error 404: Not Found" ∧
      containsText "API Error 404: Not Found" "API Error 404") ∧
    (KeeperCall.run (standardWeb (Except.error "Network Error")) KeeperCall.getProtocolMetrics).1 =
      Except.error "Network Error" ∧
    (KeeperCall.run (standardWeb (Except.ok okResponse)) KeeperCall.getProtocolMetrics).1 =
      Except.ok { repr := "success: true, data: [id: 1]" } :=
  ⟨(keeper_outcome (standardWeb (Except.ok notFoundResponse)) KeeperCall.getProtocolMetrics).1
      notFoundResponse "Not Found" rfl rfl rfl,
   (keeper_outcome (standardWeb (Except.error "Network Error"))
      KeeperCall.getProtocolMetrics).2.1 "Network Error" rfl,
   (keeper_outcome (standardWeb (Except.ok okResponse)) KeeperCall.getProtocolMetrics).2.2
      okResponse rfl rfl⟩

/-! ## `addLiquidity` and `existingPosition` -/

/-- C26 (what the code does instead): `addLiquidity` never reads
`options.existingPosition`.  Whatever position is supplied, the run is the run
with the key omitted: same outcome, same history, hence the same request to the
SDK. -/
theorem addLiquidity_ignores_existingPosition (env : Env) (userKeypair : Keypair) (p : String)
    (d : Nat) (options : AddOptions) (position : PublicKey) (s : St) :
    addLiquidity env userKeypair p d (some { options with existingPosition := some position }) s =
      addLiquidity env userKeypair p d (some { options with existingPosition := none }) s ∧
    addRequests (newEvents s (addLiquidity env userKeypair p d
        (some { options with existingPosition := some position }) s).2) =
      addRequests (newEvents s (addLiquidity env userKeypair p d
        (some { options with existingPosition := none }) s).2) ∧
    addRequests (newEvents (serviceWith "A" (sdkPool 100))
        (addLiquidity mockEnv mockUser "A" 6
          (some { existingPosition := some { str := "position1" } })
          (serviceWith "A" (sdkPool 100))).2) =
      addRequests (newEvents (serviceWith "A" (sdkPool 100))
        (addLiquidity mockEnv mockUser "A" 6 none (serviceWith "A" (sdkPool 100))).2) :=
  ⟨rfl, rfl, rfl⟩

/-! ## `removeLiquidity` on targets the user does not hold -/

theorem removeRequests_append (t1 t2 : Trace) :
    removeRequests (t1 ++ t2) = removeRequests t1 ++ removeRequests t2 := by
  induction t1 with
  | nil => rfl
  | cons e rest ih => cases e <;> simp [removeRequests, ih]

theorem removeRequests_of_isListing (t : Trace) (ht : ∀ e ∈ t, Event.isListing e) :
    removeRequests t = [] := by
  induction t with
  | nil => rfl
  | cons e rest ih =>
    have he := ht e (List.mem_cons_self _ _)
    have hrest := ih (fun e' he' => ht e' (List.mem_cons_of_mem _ he'))
    cases e <;> simp_all [removeRequests, Event.isListing]

theorem removeRequests_of_isSend (t : Trace) (ht : ∀ e ∈ t, Event.isSend e) :
    removeRequests t = [] := by
  induction t with
  | nil => rfl
  | cons e rest ih =>
    have he := ht e (List.mem_cons_self _ _)
    have hrest := ih (fun e' he' => ht e' (List.mem_cons_of_mem _ he'))
    cases e <;> simp_all [removeRequests, Event.isSend]

/-- The removal loop on targets that no listing holds: every turn lists the
positions and goes on; the loop completes and has only listed. -/
theorem removeLoop_all_skipped (env : Env) (userKeypair : Keypair) (p : String)
    (dlmmPool : Handle) (bps : Int) (flag : Bool) (s : St) (h : Handle)
    (hpool : mapGet s.dlmmPools p = some h) :
    ∀ (targets : List PublicKey) (s1 : St), Extends Event.isListing s s1 →
      (∀ (s2 : St) (l : List Position), Extends Event.isListing s s2 →
        (getUserPositions env p userKeypair.publicKey s2).1 = Except.ok l →
        ∀ target ∈ targets, l.find? (fun x => x.publicKey.str == target.str) = none) →
      (removeLoop env userKeypair p dlmmPool bps flag targets s1).1 = Except.ok () ∧
        Extends Event.isListing s (removeLoop env userKeypair p dlmmPool bps flag targets s1).2 := by
  intro targets
  induction targets with
  | nil =>
    intro s1 hs1 _
    exact ⟨rfl, hs1⟩
  | cons target rest ih =>
    intro s1 hs1 hnone
    have hpool1 : mapGet s1.dlmmPools p = some h := by rw [hs1.2.1]; exact hpool
    obtain ⟨l, hl⟩ := getUserPositions_never_throws env p userKeypair.publicKey s1 h hpool1
    rcases hrun : getUserPositions env p userKeypair.publicKey s1 with ⟨r, s2⟩
    rw [hrun] at hl
    simp only at hl
    subst hl
    have hs2 : Extends Event.isListing s s2 :=
      hs1.trans (Extends.of_run (getUserPositions_extends env p userKeypair.publicKey) hrun)
    have hfind := hnone s1 l hs1 (by rw [hrun]) target (List.mem_cons_self _ _)
    rw [removeLoop_cons_skip env userKeypair p dlmmPool bps flag target rest s1 s2 l hrun hfind]
    exact ih s2 hs2 (fun s3 l3 hs3 hl3 t ht => hnone s3 l3 hs3 hl3 t (List.mem_cons_of_mem _ ht))

/-- C27: for every non-empty list of `specificPositions` none of which any
listing of the user's positions holds (also when the listing faults and is
swallowed into an empty list), `removeLiquidity` returns `Successfully removed
liquidity`; all it has done is list positions: it built no removal request and
submitted no transaction. -/
theorem removeLiquidity_reports_success_on_no_match (env : Env) (userKeypair : Keypair)
    (p : String) (options : RemoveOptions) (targets : List PublicKey) (s : St) (h : Handle)
    (hpool : mapGet s.dlmmPools p = some h)
    (hspec : options.specificPositions = some targets)
    (hne : targets ≠ [])
    (hnone : ∀ (s2 : St) (l : List Position), Extends Event.isListing s s2 →
      (getUserPositions env p userKeypair.publicKey s2).1 = Except.ok l →
      ∀ target ∈ targets, l.find? (fun x => x.publicKey.str == target.str) = none) :
    (removeLiquidity env userKeypair p (some options) s).1 =
        Except.ok (some "Successfully removed liquidity") ∧
      (∀ e ∈ newEvents s (removeLiquidity env userKeypair p (some options) s).2,
        Event.isListing e) ∧
      removeRequests (newEvents s (removeLiquidity env userKeypair p (some options) s).2) = [] ∧
      sentTxs (newEvents s (removeLiquidity env userKeypair p (some options) s).2) = [] := by
  have hlen : ¬ targets.length = 0 := by
    intro h0
    exact hne (List.length_eq_zero.mp h0)
  obtain ⟨hok, hext⟩ := removeLoop_all_skipped env userKeypair p h
    (options.bpsToRemove.getD 10000) (options.shouldClaimAndClose.getD true) s h hpool
    targets s (Extends.refl _ s) hnone
  have hrun : removeLiquidity env userKeypair p (some options) s =
      (Except.ok (some "Successfully removed liquidity"),
        (removeLoop env userKeypair p h (options.bpsToRemove.getD 10000)
          (options.shouldClaimAndClose.getD true) targets s).2) := by
    rw [run_removeLiquidity env userKeypair p (some options) s h hpool]
    simp only [Option.getD_some, resolveTargets, hspec, run_pure, hlen, if_false]
    rcases hloop : removeLoop env userKeypair p h (options.bpsToRemove.getD 10000)
      (options.shouldClaimAndClose.getD true) targets s with ⟨r, s1⟩
    rw [hloop] at hok
    simp only at hok
    subst hok
    rfl
  rw [hrun]
  obtain ⟨-, -, t, ht, hl⟩ := hext
  simp only [newEvents_of_append ht]
  exact ⟨trivial, hl, removeRequests_of_isListing t hl, sentTxs_of_isListing t hl⟩

theorem getUserPositions_faultyListingPool (user : PublicKey) (s : St)
    (hpools : s.dlmmPools = [("A", faultyListingPool)]) :
    (getUserPositions mockEnv "A" user s).1 = Except.ok [] := by
  have hpool : mapGet s.dlmmPools "A" = some faultyListingPool := by rw [hpools]; rfl
  simp only [getUserPositions, run_bind, run_checkPool_some hpool, run_tryCatch]
  rfl

/-- Witness of C27: the listing rejects, is swallowed into an empty list, and
the removal of `position1` reports success without any request. -/
theorem removeLiquidity_reports_success_on_no_match_witness :
    (removeLiquidity mockEnv mockUser "A" (some { specificPositions := some [{ str := "position1" }] })
        (serviceWith "A" faultyListingPool)).1 =
        Except.ok (some "Successfully removed liquidity") ∧
      (∀ e ∈ newEvents (serviceWith "A" faultyListingPool)
          (removeLiquidity mockEnv mockUser "A"
            (some { specificPositions := some [{ str := "position1" }] })
            (serviceWith "A" faultyListingPool)).2,
        Event.isListing e) ∧
      removeRequests (newEvents (serviceWith "A" faultyListingPool)
        (removeLiquidity mockEnv mockUser "A"
          (some { specificPositions := some [{ str := "position1" }] })
          (serviceWith "A" faultyListingPool)).2) = [] ∧
      sentTxs (newEvents (serviceWith "A" faultyListingPool)
        (removeLiquidity mockEnv mockUser "A"
          (some { specificPositions := some [{ str := "position1" }] })
          (serviceWith "A" faultyListingPool)).2) = [] :=
  removeLiquidity_reports_success_on_no_match mockEnv mockUser "A"
    { specificPositions := some [{ str := "position1" }] } [{ str := "position1" }]
    (serviceWith "A" faultyListingPool) faultyListingPool rfl rfl (by decide)
    (fun s2 l hs2 hl target _ => by
      rw [getUserPositions_faultyListingPool mockUser.publicKey s2 hs2.2.1] at hl
      simp only [Except.ok.injEq] at hl
      subst hl
      rfl)

/-! ## `moveFunds` when nothing was removed -/

/-- A removal that returns `null` has only listed positions. -/
theorem removeLiquidity_null_only_lists (env : Env) (userKeypair : Keypair) (p : String)
    (options : Option RemoveOptions) (s s1 : St)
    (hrem : removeLiquidity env userKeypair p options s = (Except.ok none, s1)) :
    Extends Event.isListing s s1 := by
  cases hp : mapGet s.dlmmPools p with
  | none =>
    simp [removeLiquidity, run_bind, run_checkPool_none hp] at hrem
  | some h =>
    rw [run_removeLiquidity env userKeypair p options s h hp] at hrem
    rcases hres : resolveTargets env userKeypair p (options.getD {}) s with ⟨r, s0⟩
    rw [hres] at hrem
    have hext : Extends Event.isListing s s0 := by
      unfold resolveTargets at hres
      cases hspec : (options.getD {}).specificPositions with
      | some given =>
        rw [hspec] at hres
        simp only [run_pure, Prod.mk.injEq] at hres
        rw [← hres.2]
        exact Extends.refl _ s
      | none =>
        rw [hspec] at hres
        simp only [run_bind] at hres
        rcases hrun : getUserPositions env p userKeypair.publicKey s with ⟨r1, s2⟩
        rw [hrun] at hres
        have hx := Extends.of_run (getUserPositions_extends env p userKeypair.publicKey) hrun
        cases r1 with
        | error e =>
          simp only [Prod.mk.injEq] at hres
          rw [← hres.2]
          exact hx
        | ok l =>
          simp only [run_pure, Prod.mk.injEq] at hres
          rw [← hres.2]
          exact hx
    cases r with
    | error e => simp at hrem
    | ok targets =>
      simp only at hrem
      by_cases hlen : targets.length = 0
      · simp only [hlen, if_true, Prod.mk.injEq] at hrem
        rw [← hrem.2]
        exact hext
      · simp only [hlen, if_false] at hrem
        rcases hloop : removeLoop env userKeypair p h
          ((options.getD {}).bpsToRemove.getD 10000)
          ((options.getD {}).shouldClaimAndClose.getD true) targets s0 with ⟨r2, s3⟩
        rw [hloop] at hrem
        cases r2 <;> simp at hrem

/-- C28: whenever the removal step on the source pool returns `null`,
`moveFunds` goes on to the addition on the destination pool from the state the
removal left.  No removal request was made; exactly one addition request
reaches the destination handle, for the active bin it reports, with the
caller's X amount or, when `addOptions` has no `xAmount`, the default
`100 * 10 ^ baseMintDecimals`; and when the addition completes, `moveFunds`
returns an object with `success = true`. -/
theorem moveFunds_adds_after_null_removal (env : Env) (userKeypair : Keypair) (A B : String)
    (d : Nat) (options : Option MoveOptions) (s s1 : St) (h : Handle)
    (g : Trace → Except Err ActiveBin) (f : Trace → AddLiquidityRequest → Except Err TxResult)
    (a : Int) (X Y : BN)
    (hrem : removeLiquidity env userKeypair A (some ((options.getD {}).removeOptions.getD {})) s =
      (Except.ok none, s1))
    (hpool : mapGet s1.dlmmPools B = some h)
    (hg : h.getActiveBin = some g) (ha : g s1.trace = Except.ok { binId := a })
    (hf : h.addLiquidityByStrategy = some f)
    (hx : toAmount env ((options.getD {}).addOptions.getD {}).xAmount (100 * 10 ^ d) =
      Except.ok X)
    (hy : toAmount env ((options.getD {}).addOptions.getD {}).yAmount 0 = Except.ok Y) :
    removeRequests (newEvents s (moveFunds env userKeypair A B d options s).2) = [] ∧
    addRequests (newEvents s (moveFunds env userKeypair A B d options s).2) =
      [(B, { user := userKeypair.publicKey, totalXAmount := X, totalYAmount := Y,
             strategy := strategyFor a ((options.getD {}).addOptions.getD {}) })] ∧
    (((options.getD {}).addOptions.getD {}).xAmount = none →
      env.newBN (100 * 10 ^ d) = Except.ok X) ∧
    (∀ result : String,
      (addLiquidity env userKeypair B d (some ((options.getD {}).addOptions.getD {})) s1).1 =
        Except.ok result →
      (moveFunds env userKeypair A B d options s).1 = Except.ok
        { success := true
          message := "Successfully moved funds from " ++ A ++ " to " ++ B
          result := result }) := by
  obtain ⟨-, -, t1, ht1, hl1⟩ := removeLiquidity_null_only_lists env userKeypair A _ s s1 hrem
  obtain ⟨t2, ht2, hsend⟩ := addLiquidity_trace env userKeypair B d
    (some ((options.getD {}).addOptions.getD {})) s1 h g f a X Y hpool hg ha hf hx hy
  have hstate : (moveFunds env userKeypair A B d options s).2 =
      (addLiquidity env userKeypair B d (some ((options.getD {}).addOptions.getD {})) s1).2 := by
    simp only [moveFunds, run_tryCatch, run_bind, hrem]
    rcases addLiquidity env userKeypair B d _ s1 with ⟨r2, s2⟩
    cases r2 <;> simp [run_pure, run_throwErr]
  have htrace : (moveFunds env userKeypair A B d options s).2.trace =
      s.trace ++ (t1 ++ (Event.getActiveBin B :: Event.addLiquidityByStrategy B
        { user := userKeypair.publicKey, totalXAmount := X, totalYAmount := Y,
          strategy := strategyFor a ((options.getD {}).addOptions.getD {}) } :: t2)) := by
    rw [hstate, ht2, ht1, List.append_assoc]
    rfl
  refine ⟨?_, ?_, ?_, ?_⟩
  · rw [newEvents_of_append htrace, removeRequests_append, removeRequests_of_isListing t1 hl1]
    simp [removeRequests, removeRequests_of_isSend t2 hsend]
  · rw [newEvents_of_append htrace, addRequests_append]
    have h1 : addRequests t1 = [] := by
      clear htrace ht1
      induction t1 with
      | nil => rfl
      | cons e rest ih =>
        have he := hl1 e (List.mem_cons_self _ _)
        have hrest := ih (fun e' he' => hl1 e' (List.mem_cons_of_mem _ he'))
        cases e <;> simp_all [addRequests, Event.isListing]
    rw [h1]
    simp [addRequests, addRequests_of_isSend t2 hsend]
  · intro hnone
    rw [hnone] at hx
    exact hx
  · intro result hadd
    simp only [moveFunds, run_tryCatch, run_bind, hrem]
    rcases hrun : addLiquidity env userKeypair B d _ s1 with ⟨r2, s2⟩
    rw [hrun] at hadd
    simp only at hadd
    subst hadd
    simp [run_pure]

/-- Witness of C28: the listing on `A` rejects and is swallowed, the removal
returns `null`, and `moveFunds` adds the default 100 tokens (six decimals) to
`B` and reports success. -/
theorem moveFunds_adds_after_null_removal_witness :
    removeRequests (newEvents emptySourceService
      (moveFunds mockEnv mockUser "A" "B" 6 none emptySourceService).2) = [] ∧
    addRequests (newEvents emptySourceService
      (moveFunds mockEnv mockUser "A" "B" 6 none emptySourceService).2) =
      [("B", { user := mockUser.publicKey, totalXAmount := { val := 100000000 },
               totalYAmount := { val := 0 }, strategy := strategyFor 100 {} })] ∧
    ((((none : Option MoveOptions).getD {}).addOptions.getD {}).xAmount = none →
      mockEnv.newBN (100 * 10 ^ 6) = Except.ok { val := 100000000 }) ∧
    (∀ result : String,
      (addLiquidity mockEnv mockUser "B" 6 (some {})
        (removeLiquidity mockEnv mockUser "A" (some {}) emptySourceService).2).1 =
        Except.ok result →
      (moveFunds mockEnv mockUser "A" "B" 6 none emptySourceService).1 = Except.ok
        { success := true
          message := "Successfully moved funds from " ++ "A" ++ " to " ++ "B"
          result := result }) :=
  moveFunds_adds_after_null_removal mockEnv mockUser "A" "B" 6 none emptySourceService
    (removeLiquidity mockEnv mockUser "A" (some {}) emptySourceService).2 (sdkPool 100)
    (fun _ => Except.ok { binId := 100 })
    (fun _ _ => Except.ok (TxResult.single (Tx.raw "addLiquidityTx")))
    100 { val := 100000000 } { val := 0 } rfl rfl rfl rfl rfl rfl rfl
/-! ## `getActiveBin` never fails; `createOneSidedPosition` may -/

/-- What `createOneSidedPosition` does once `getActiveBin` has answered and
`new BN(0)` was built, when the handle's own active-bin query, asked by
`addLiquidity`, rejects: the call fails with the doubly wrapped fault, and no
addition request is made. -/
theorem createOneSidedPosition_query_fault (env : Env) (userKeypair : Keypair) (p : String)
    (d : Nat) (options : Option PositionOptions) (s s1 : St) (h : Handle)
    (g : Trace → Except Err ActiveBin) (b : ActiveBin) (Z : BN) (e : Err)
    (hpool : mapGet s.dlmmPools p = some h)
    (hactive : getActiveBin p s = (Except.ok b, s1))
    (hz : env.newBN 0 = Except.ok Z)
    (hg : h.getActiveBin = some g) (he : g s1.trace = Except.error e) :
    (createOneSidedPosition env userKeypair p d options s).1 =
        Except.error ("Failed to create one-sided position: " ++ ("Failed to add liquidity: " ++ e)) ∧
      addRequests (newEvents s (createOneSidedPosition env userKeypair p d options s).2) = [] := by
  obtain ⟨-, hpools1, t1, ht1, hq1⟩ := Extends.of_run (getActiveBin_extends p) hactive
  have hpool1 : mapGet s1.dlmmPools p = some h := by rw [hpools1]; exact hpool
  have hrun : createOneSidedPosition env userKeypair p d options s =
      (Except.error ("Failed to create one-sided position: " ++ ("Failed to add liquidity: " ++ e)),
        { s1 with trace := s1.trace ++ [Event.getActiveBin p] }) := by
    simp only [createOneSidedPosition, run_tryCatch, run_bind, hactive, run_liftExcept, hz,
      addLiquidity, run_checkPool_some hpool1, callMethod, hg, run_callExternal, he,
      run_throwErr]
  rw [hrun]
  refine ⟨rfl, ?_⟩
  have htrace : ({ s1 with trace := s1.trace ++ [Event.getActiveBin p] } : St).trace =
      s.trace ++ (t1 ++ [Event.getActiveBin p]) := by
    simp [ht1]
  rw [newEvents_of_append htrace, addRequests_append, addRequests_of_isActiveBinQuery t1 hq1]
  rfl

/-- C29 (counterexample): on a handle without `lbPair` whose active-bin query
always rejects, `getActiveBin` returns bin 100, yet `createOneSidedPosition`
fails and sends no addition request: no window around bin 100 is built. -/
theorem createOneSidedPosition_fails_on_faulty_query :
    (getActiveBin "A" (serviceWith "A" faultyActiveBinPool)).1 = Except.ok { binId := 100 } ∧
    (createOneSidedPosition mockEnv mockUser "A" 6 none (serviceWith "A" faultyActiveBinPool)).1 =
      Except.error
        "Failed to create one-sided position: Failed to add liquidity: node unreachable" ∧
    addRequests (newEvents (serviceWith "A" faultyActiveBinPool)
      (createOneSidedPosition mockEnv mockUser "A" 6 none
        (serviceWith "A" faultyActiveBinPool)).2) = [] :=
  ⟨rfl, rfl, rfl⟩

/-- C29 (amended): for an initialized pool `getActiveBin` never fails.  It
returns `lbPair.activeId` without calling the handle when that is defined;
otherwise it calls the handle's `getActiveBin` and returns its result, or bin
100 when that call rejects; and it returns bin 100 without a call when the
handle has no such method.  `createOneSidedPosition` computes its window from
that bin, but then `addLiquidity` asks the handle's `getActiveBin` itself:
when that query rejects (or the method is missing) `createOneSidedPosition`
fails with the wrapped fault and makes no addition request; when it answers,
one request is made whose window is built around the bin `getActiveBin`
returned (`lbPair.activeId`, or 100 after a rejected first query), whatever bin
the handle reports to `addLiquidity`. -/
theorem getActiveBin_total_oneSided_may_fail (env : Env) (userKeypair : Keypair) (p : String)
    (d : Nat) (options : Option PositionOptions) (s : St) (h : Handle) (Z : BN)
    (hpool : mapGet s.dlmmPools p = some h)
    (hz : env.newBN 0 = Except.ok Z) :
    (∃ b : ActiveBin, (getActiveBin p s).1 = Except.ok b) ∧
    (∀ id : Int, h.lbPair.bind (fun lb => lb.activeId) = some id →
      getActiveBin p s = (Except.ok { binId := id }, s)) ∧
    (∀ g : Trace → Except Err ActiveBin, h.lbPair.bind (fun lb => lb.activeId) = none →
      h.getActiveBin = some g →
      getActiveBin p s =
        (Except.ok (match g s.trace with
          | Except.ok b => b
          | Except.error _ => { binId := 100 }),
         { s with trace := s.trace ++ [Event.getActiveBin p] })) ∧
    (h.lbPair.bind (fun lb => lb.activeId) = none → h.getActiveBin = none →
      getActiveBin p s = (Except.ok { binId := 100 }, s)) ∧
    (∀ (g : Trace → Except Err ActiveBin) (e : Err), h.getActiveBin = some g →
      g (getActiveBin p s).2.trace = Except.error e →
      (createOneSidedPosition env userKeypair p d options s).1 =
          Except.error ("Failed to create one-sided position: " ++ ("Failed to add liquidity: " ++ e)) ∧
        addRequests (newEvents s (createOneSidedPosition env userKeypair p d options s).2) = []) ∧
    (h.getActiveBin = none →
      (createOneSidedPosition env userKeypair p d options s).1 =
          Except.error ("Failed to create one-sided position: " ++
            ("Failed to add liquidity: " ++ "dlmmPool.getActiveBin is not a function")) ∧
        addRequests (newEvents s (createOneSidedPosition env userKeypair p d options s).2) = []) ∧
    (∀ (g : Trace → Except Err ActiveBin) (f : Trace → AddLiquidityRequest → Except Err TxResult)
        (a a' : Int) (X : BN) (s1 : St),
      getActiveBin p s = (Except.ok { binId := a }, s1) →
      h.getActiveBin = some g → g s1.trace = Except.ok { binId := a' } →
      h.addLiquidityByStrategy = some f →
      toAmount env (options.getD {}).xAmount (100 * 10 ^ d) = Except.ok X →
      ∃ req : AddLiquidityRequest,
        addRequests (newEvents s (createOneSidedPosition env userKeypair p d options s).2) =
          [(p, req)] ∧
        mapGet req.strategy "minBinId" = some (JsVal.num
          (if (options.getD {}).isXSide.getD true
            then a - (options.getD {}).binRange.getD 10 + (options.getD {}).offset.getD 0
            else a + (options.getD {}).offset.getD 0)) ∧
        mapGet req.strategy "maxBinId" = some (JsVal.num
          (if (options.getD {}).isXSide.getD true
            then a + (options.getD {}).offset.getD 0
            else a + (options.getD {}).binRange.getD 10 + (options.getD {}).offset.getD 0))) := by
  have hcase1 : ∀ id : Int, h.lbPair.bind (fun lb => lb.activeId) = some id →
      getActiveBin p s = (Except.ok { binId := id }, s) := by
    intro id hid
    simp only [getActiveBin, run_bind, run_checkPool_some hpool, run_tryCatch, hid, run_pure]
  have hcase2 : ∀ g : Trace → Except Err ActiveBin,
      h.lbPair.bind (fun lb => lb.activeId) = none → h.getActiveBin = some g →
      getActiveBin p s =
        (Except.ok (match g s.trace with
          | Except.ok b => b
          | Except.error _ => { binId := 100 }),
         { s with trace := s.trace ++ [Event.getActiveBin p] }) := by
    intro g hlb hg
    simp only [getActiveBin, run_bind, run_checkPool_some hpool, run_tryCatch, hlb, hg,
      run_callExternal]
    cases g s.trace <;> rfl
  have hcase3 : h.lbPair.bind (fun lb => lb.activeId) = none → h.getActiveBin = none →
      getActiveBin p s = (Except.ok { binId := 100 }, s) := by
    intro hlb hg
    simp only [getActiveBin, run_bind, run_checkPool_some hpool, run_tryCatch, hlb, hg, run_pure]
  have htotal : ∃ (b : ActiveBin) (s1 : St), getActiveBin p s = (Except.ok b, s1) := by
    cases hlb : h.lbPair.bind (fun lb => lb.activeId) with
    | some id => exact ⟨_, _, hcase1 id hlb⟩
    | none =>
      cases hg : h.getActiveBin with
      | some g => exact ⟨_, _, hcase2 g hlb hg⟩
      | none => exact ⟨_, _, hcase3 hlb hg⟩
  obtain ⟨b, s1, hactive⟩ := htotal
  refine ⟨⟨b, by rw [hactive]⟩, hcase1, hcase2, hcase3, ?_, ?_, ?_⟩
  · intro g e hg he
    rw [hactive] at he
    exact createOneSidedPosition_query_fault env userKeypair p d options s s1 h g b Z e hpool
      hactive hz hg he
  · intro hg
    obtain ⟨-, hpools1, t1, ht1, hq1⟩ := Extends.of_run (getActiveBin_extends p) hactive
    have hpool1 : mapGet s1.dlmmPools p = some h := by rw [hpools1]; exact hpool
    have hrun : createOneSidedPosition env userKeypair p d options s =
        (Except.error ("Failed to create one-sided position: " ++
          ("Failed to add liquidity: " ++ "dlmmPool.getActiveBin is not a function")), s1) := by
      simp only [createOneSidedPosition, run_tryCatch, run_bind, hactive, run_liftExcept, hz,
        addLiquidity, run_checkPool_some hpool1, callMethod, hg, run_throwErr]
      rfl
    rw [hrun]
    refine ⟨rfl, ?_⟩
    rw [newEvents_of_append ht1, addRequests_of_isActiveBinQuery t1 hq1]
  · intro g f a a' X s2 hact hg ha hf hx
    obtain ⟨req, hreq, -, -, hmin, hmax⟩ := createOneSidedPosition_addRequests env userKeypair p
      d options s s2 h g f a a' X Z hpool hact hg ha hf hx hz
    exact ⟨req, hreq, hmin, hmax⟩

/-- Witness of C29: a query that rejects once gives the default window
`[90, 100]` around bin 100 although the handle then reports bin 250; a handle
with `lbPair.activeId = 100` gives the same window although its own query
reports 250; and a query that keeps rejecting makes the call fail. -/
theorem getActiveBin_total_oneSided_may_fail_witness :
    (∃ req : AddLiquidityRequest,
      addRequests (newEvents (serviceWith "A" flakyActiveBinPool)
        (createOneSidedPosition mockEnv mockUser "A" 6 none
          (serviceWith "A" flakyActiveBinPool)).2) = [("A", req)] ∧
      mapGet req.strategy "minBinId" = some (JsVal.num 90) ∧
      mapGet req.strategy "maxBinId" = some (JsVal.num 100)) ∧
    (∃ req : AddLiquidityRequest,
      addRequests (newEvents (serviceWith "A" staleLbPairPool)
        (createOneSidedPosition mockEnv mockUser "A" 6 none
          (serviceWith "A" staleLbPairPool)).2) = [("A", req)] ∧
      mapGet req.strategy "minBinId" = some (JsVal.num 90) ∧
      mapGet req.strategy "maxBinId" = some (JsVal.num 100)) ∧
    ((createOneSidedPosition mockEnv mockUser "A" 6 none
        (serviceWith "A" faultyActiveBinPool)).1 =
        Except.error ("Failed to create one-sided position: " ++
          ("Failed to add liquidity: " ++ "node unreachable")) ∧
      addRequests (newEvents (serviceWith "A" faultyActiveBinPool)
        (createOneSidedPosition mockEnv mockUser "A" 6 none
          (serviceWith "A" faultyActiveBinPool)).2) = []) :=
  ⟨(getActiveBin_total_oneSided_may_fail mockEnv mockUser "A" 6 none
      (serviceWith "A" flakyActiveBinPool) flakyActiveBinPool { val := 0 } rfl rfl).2.2.2.2.2.2
      (fun hist => if hist.isEmpty then Except.error "node unreachable"
        else Except.ok { binId := 250 })
      (fun _ _ => Except.ok (TxResult.single (Tx.raw "addLiquidityTx")))
      100 250 { val := 100000000 }
      { serviceWith "A" flakyActiveBinPool with trace := [Event.getActiveBin "A"] }
      rfl rfl rfl rfl rfl,
   (getActiveBin_total_oneSided_may_fail mockEnv mockUser "A" 6 none
      (serviceWith "A" staleLbPairPool) staleLbPairPool { val := 0 } rfl rfl).2.2.2.2.2.2
      (fun _ => Except.ok { binId := 250 })
      (fun _ _ => Except.ok (TxResult.single (Tx.raw "addLiquidityTx")))
      100 250 { val := 100000000 } (serviceWith "A" staleLbPairPool)
      rfl rfl rfl rfl rfl,
   (getActiveBin_total_oneSided_may_fail mockEnv mockUser "A" 6 none
      (serviceWith "A" faultyActiveBinPool) faultyActiveBinPool { val := 0 } rfl rfl).2.2.2.2.1
      (fun _ => Except.error "node unreachable") "node unreachable" rfl rfl⟩

/-! ## A handle without a listing method -/

/-- The listing on a handle that has neither listing method: the made-up
position, and no call to the outside. -/
theorem getUserPositions_no_listing_method (env : Env) (p : String) (user : PublicKey) (s : St)
    (h : Handle) (pk : PublicKey)
    (hpool : mapGet s.dlmmPools p = some h)
    (h1 : h.getPositionsByUser = none) (h2 : h.getPositionsByUserAndLbPair = none)
    (hpk : env.newPublicKey "11111111111111111111111111111111" = Except.ok pk) :
    getUserPositions env p user s = (Except.ok [fabricatedPosition pk], s) := by
  simp only [getUserPositions, run_bind, run_checkPool_some hpool, run_tryCatch, h1, h2,
    run_liftExcept, hpk, run_pure, fabricatedPosition]

/-- C30: for a stored handle that exposes neither `getPositionsByUser` nor
`getPositionsByUserAndLbPair`, `getUserPositions` returns for every user the
single made-up position whose key is `new PublicKey` of thirty-two `1` and
whose bins are 99, 100 and 101, without calling the handle; and
`removeLiquidity` without explicit targets on such a handle sends exactly one
removal request, for that position with `binIds = [99, 100, 101]`. -/
theorem removeLiquidity_targets_fabricated_position (env : Env) (userKeypair : Keypair)
    (p : String) (options : Option RemoveOptions) (s : St) (h : Handle) (pk : PublicKey)
    (b : BN) (f : Trace → RemoveLiquidityRequest → Except Err TxResult)
    (hpool : mapGet s.dlmmPools p = some h)
    (h1 : h.getPositionsByUser = none) (h2 : h.getPositionsByUserAndLbPair = none)
    (hpk : env.newPublicKey "11111111111111111111111111111111" = Except.ok pk)
    (hspec : (options.getD {}).specificPositions = none)
    (hbn : env.newBN ((options.getD {}).bpsToRemove.getD 10000) = Except.ok b)
    (hm : h.removeLiquidity = some f) :
    (∀ user : PublicKey, getUserPositions env p user s =
      (Except.ok [{ publicKey := pk
                    positionData := { positionBinData :=
                      [{ binId := 99 }, { binId := 100 }, { binId := 101 }] } }], s)) ∧
    removeRequests (newEvents s (removeLiquidity env userKeypair p options s).2) =
      [(p, { position := pk
             user := userKeypair.publicKey
             binIds := [99, 100, 101]
             liquiditiesBpsToRemove := [b, b, b]
             shouldClaimAndClose := (options.getD {}).shouldClaimAndClose.getD true })] := by
  have hlist : ∀ (user : PublicKey) (s' : St), mapGet s'.dlmmPools p = some h →
      getUserPositions env p user s' = (Except.ok [fabricatedPosition pk], s') :=
    fun user s' hp => getUserPositions_no_listing_method env p user s' h pk hp h1 h2 hpk
  refine ⟨fun user => hlist user s hpool, ?_⟩
  have hres : resolveTargets env userKeypair p (options.getD {}) s =
      (Except.ok ([] ++ pk :: []), s) := by
    simp only [resolveTargets, hspec, run_bind, hlist userKeypair.publicKey s hpool, run_pure]
    rfl
  have hfind : [fabricatedPosition pk].find? (fun x => x.publicKey.str == pk.str) =
      some (fabricatedPosition pk) := by
    simp [List.find?, fabricatedPosition]
  have hrun := removeLiquidity_at_target env userKeypair p options s s s s h [] pk []
    [fabricatedPosition pk] (fabricatedPosition pk) b f hpool hres rfl
    (hlist userKeypair.publicKey s hpool) hfind hbn hm
  have hreq : removalRequestFor userKeypair pk (fabricatedPosition pk) b
      ((options.getD {}).shouldClaimAndClose.getD true) =
      { position := pk
        user := userKeypair.publicKey
        binIds := [99, 100, 101]
        liquiditiesBpsToRemove := [b, b, b]
        shouldClaimAndClose := (options.getD {}).shouldClaimAndClose.getD true } := rfl
  rw [hreq] at hrun
  rw [hrun]
  cases f s.trace _ with
  | error e =>
    simp only []
    rw [newEvents_of_append (t := [Event.removeLiquidity p _]) rfl]
    rfl
  | ok txr =>
    simp only []
    rcases hsub : submit env userKeypair txr _ with ⟨r3, s3⟩
    obtain ⟨-, -, t3, ht3, hsend⟩ := Extends.of_run (submit_extends env userKeypair txr) hsub
    have hs3 : s3.trace = s.trace ++ ([Event.removeLiquidity p
        { position := pk
          user := userKeypair.publicKey
          binIds := [99, 100, 101]
          liquiditiesBpsToRemove := [b, b, b]
          shouldClaimAndClose := (options.getD {}).shouldClaimAndClose.getD true }] ++ t3) := by
      rw [ht3]; simp
    cases r3 with
    | error e =>
      simp only []
      rw [newEvents_of_append hs3, removeRequests_append, removeRequests_of_isSend t3 hsend]
      rfl
    | ok u =>
      simp only [removeLoop, run_pure]
      rw [newEvents_of_append hs3, removeRequests_append, removeRequests_of_isSend t3 hsend]
      rfl

/-- Witness of C30: the handle of the unit tests without its listing method. -/
theorem removeLiquidity_targets_fabricated_position_witness :
    (∀ user : PublicKey, getUserPositions mockEnv "A" user (serviceWith "A" noListingPool) =
      (Except.ok [{ publicKey := { str := "11111111111111111111111111111111" }
                    positionData := { positionBinData :=
                      [{ binId := 99 }, { binId := 100 }, { binId := 101 }] } }],
        serviceWith "A" noListingPool)) ∧
    removeRequests (newEvents (serviceWith "A" noListingPool)
      (removeLiquidity mockEnv mockUser "A" none (serviceWith "A" noListingPool)).2) =
      [("A", { position := { str := "11111111111111111111111111111111" }
               user := mockUser.publicKey
               binIds := [99, 100, 101]
               liquiditiesBpsToRemove := [{ val := 10000 }, { val := 10000 }, { val := 10000 }]
               shouldClaimAndClose := ((none : Option RemoveOptions).getD {}).shouldClaimAndClose.getD
                 true })] :=
  removeLiquidity_targets_fabricated_position mockEnv mockUser "A" none
    (serviceWith "A" noListingPool) noListingPool { str := "11111111111111111111111111111111" }
    { val := 10000 } (fun _ _ => Except.ok (TxResult.single (Tx.raw "removeLiquidityTx")))
    rfl rfl rfl rfl rfl rfl rfl

end MeteoraDLMM
